import Mathlib

/-! # Shadow netstack: flow classification, UDP packet-conns and the UDP flow table

A shallow embedding of the userspace networking plane of `shadow`
(`netstack/handle_unix.go`, `netstack/core/core.go`,
`netstack/core/gonet/*.go`).

Conventions of the embedding.

* Byte slices (`net.IP`, `tcpip.Address`, `buffer.View`) are lists of
  naturals, one per byte.
* A Go pointer to a packet-conn is the index of the object in a heap list.
* A call that can park its goroutine or abort it returns a `Run`:
  `done` with the result, `blocked` when a `select` has no ready case,
  `panic` for a Go runtime panic.
* When a `select` has several ready cases Go picks one at random; the
  choice is an explicit `pick` argument.
* External collaborators (IP filter, fake-IP reverse lookup, the embedded
  TCP/IP stack, the upstream proxy handler, `net.UDPAddr.String`) are
  explicit arguments or fields of `NetStack` and `StackReply`, so every
  theorem holds for all their behaviours.
-/

namespace Shadow

/-! ## Addresses -/

/-- Go `net.UDPAddr`: an IP byte slice (4 or 16 bytes in practice) and a port. -/
structure UDPAddr where
  IP : List Nat
  Port : Nat
deriving DecidableEq, Repr

/-- Go `net.Addr` values that occur in the program: `*net.TCPAddr`,
`*net.UDPAddr` and the domain-form `utils.Addr`. A nil interface is
`Option.none` at the use sites. -/
inductive NetAddr
  | tcp (ip : List Nat) (port : Nat)
  | udp (a : UDPAddr)
  | domain (raw : List Nat)
deriving DecidableEq, Repr

/-- Go `net.IP.To4` (standard library): a 4-byte slice is returned as is, a
16-byte IPv4-mapped address yields its last four bytes, anything else nil. -/
def To4 (ip : List Nat) : Option (List Nat) :=
  if ip.length = 4 then some ip
  else if ip.length = 16 ∧ (ip.take 10).all (fun b => b == 0)
      ∧ ip.getD 10 0 = 255 ∧ ip.getD 11 0 = 255 then
    some ((ip.drop 12).take 4)
  else none

/-! ## Flow classification (`netstack/handle_unix.go`) -/

/-- The `core.PacketConnType` constants: `ConnType` is the symmetric-NAT
shape, `ConnType2` the full-cone shape, `ConnType3` the listener shape. -/
inductive PacketConnType
  | ConnType
  | ConnType2
  | ConnType3
deriving DecidableEq, Repr

/-- The guard of the first branch of `Stack.PickConnType`:
`v4 := addr.IP.To4(); v4 != nil` and `v4[0] == 198 && v4[1] == 18`. -/
def fakeGuard (ip : List Nat) : Bool :=
  match To4 ip with
  | some v4 => v4.getD 0 0 == 198 && v4.getD 1 0 == 18
  | none => false

/-- The method `Stack.PickConnType` of `handle_unix.go`;
`ipFilterLookup` is `s.IPFilter.Lookup`. -/
def PickConnType (ipFilterLookup : List Nat → Bool) (addr : UDPAddr) : PacketConnType :=
  if fakeGuard addr.IP then PacketConnType.ConnType
  else if addr.Port == 53 && !ipFilterLookup addr.IP then PacketConnType.ConnType3
  else PacketConnType.ConnType2

/-- The address is an IPv4 address (4 bytes, or 16 bytes IPv4-mapped) that
lies in `198.18.0.0/15`, that is between `198.18.0.0` and `198.19.255.255`. -/
def inFakeRange15 (ip : List Nat) : Prop :=
  ∃ b c d, To4 ip = some [198, b, c, d] ∧ (b = 18 ∨ b = 19) ∧ c < 256 ∧ d < 256

/-- The address is an IPv4 address (4 bytes, or 16 bytes IPv4-mapped) that
lies in `198.18.0.0/16`: its first two octets are 198 and 18. -/
def inFakeRange16 (ip : List Nat) : Prop :=
  ∃ c d, To4 ip = some [198, 18, c, d] ∧ c < 256 ∧ d < 256

/-! ## Results, errors and the embedded stack -/

/-- Outcome of a call: it returns (`done`), it parks its goroutine in a
`select` none of whose cases is ready (`blocked`), or the Go runtime aborts
it (`panic`: nil function call, index out of range, failed type assertion). -/
inductive Run (α : Type)
  | done (a : α)
  | blocked
  | panic
deriving DecidableEq, Repr

/-- Go `error` values that the modelled code produces or tests for; a nil
error is `Option.none`. -/
inductive Err
  | timeout
  | EOF
  | ErrShortBuffer
  | ErrShortWrite
  | ErrClosedPipe
  | ErrNotFake
  | ErrNotFound
  | msg (text : String)
  | wrap (text : String) (inner : Err)
deriving DecidableEq, Repr

/-- The gVisor `stack.TransportEndpointID`. For a datagram handed to a
forwarder, the local part is the datagram's destination and the remote part
its source. -/
structure TransportEndpointID where
  LocalPort : Nat
  LocalAddress : List Nat
  RemotePort : Nat
  RemoteAddress : List Nat
deriving DecidableEq, Repr

/-- The fields of a gVisor `stack.Route` that the code reads. -/
structure Route where
  NICID : Nat
  NetProto : Nat
  LocalAddress : List Nat
  RemoteAddress : List Nat
deriving DecidableEq, Repr

/-- The fields of a gVisor `stack.PacketBuffer` that the code reads: the
transport (UDP) header bytes and the payload. -/
structure PacketBuffer where
  TransportHeader : List Nat
  Data : List Nat
deriving DecidableEq, Repr

/-- The constant `header.UDPMinimumSize` of gVisor. -/
def UDPMinimumSize : Nat := 8

/-- The accessor `header.UDP.Length` of gVisor: the big-endian 16-bit field
at offset 4 of the UDP header; `none` when the header is too short to index
(a Go index-out-of-range panic). -/
def UDPLength (hdr : List Nat) : Option Nat :=
  match hdr[4]?, hdr[5]? with
  | some hi, some lo => some (hi * 256 + lo)
  | _, _ => none

/-- The request `gonet.ForwarderRequest` (its `Stack` field is the single
embedded stack and is left implicit). -/
structure ForwarderRequest where
  Route : Route
  ID : TransportEndpointID
  Pkt : PacketBuffer
deriving DecidableEq, Repr

/-- What the embedded stack answers while one forwarder request is served:
the error string of `RegisterTransportEndpoint` (none on success), the error
string of `udp.ForwarderRequest.CreateEndpoint`, and the value of
`Stack.UniqueID()`. -/
structure StackReply where
  registerErr : Option String
  createEndpointErr : Option String
  uniqueID : Nat
deriving DecidableEq, Repr

/-- Calls made on the embedded stack, on the logger and on the upstream
handler, in program order. `goHandlePacket*` is the statement
`go s.Handler.HandlePacket*(conn)`; `delete` is a call of the `Delete`
callback of a conn; `logError` is `s.Error(text + err)`. -/
inductive Event
  | register (nic netProto : Nat) (id : TransportEndpointID) (unique : Nat) (ok : Bool)
  | unregister (nic netProto : Nat) (id : TransportEndpointID) (unique : Nat)
  | releasePort (netProto : Nat) (addr : List Nat) (port : Nat)
  | routeRelease (r : Route)
  | malformedInc
  | receivedInc
  | delete (key : String)
  | logError (text : String) (err : Err)
  | createEndpoint (id : TransportEndpointID)
  | goHandlePacket (id : TransportEndpointID)
  | goHandlePacket2 (conn : Nat)
  | goHandlePacket3 (conn : Nat)
deriving DecidableEq, Repr

/-- The struct `gonet.Packet`: one entry of a packet-conn's inbound queue. -/
structure Packet where
  Addr : NetAddr
  View : List Nat
deriving DecidableEq, Repr

/-- Capacity of the `stream` channel: `make(chan Packet, 10)`. -/
def streamCap : Nat := 10

/-- Go `copy(b, src)`: the number of bytes copied and the buffer afterwards. -/
def goCopy (b src : List Nat) : Nat × List Nat :=
  let n := min b.length src.length
  (n, src.take n ++ b.drop n)

/-- The case a `select` runs: none when no case is ready (the goroutine
parks), otherwise one of the ready cases, chosen by `pick`. -/
def selectCase {α : Type} (ready : List α) (pick : Nat) : Option α :=
  ready[pick % ready.length]?

/-- The cases of the `select` in `HandlePacket`. -/
inductive SendCase
  | closed
  | send
deriving DecidableEq, Repr

/-- The cases of the `select` in `ReadTo` / `ReadFrom`. -/
inductive ReadCase
  | deadline
  | stream
  | closed
deriving DecidableEq, Repr

/-- What a read returns: `(n, addr, err)` and the caller's buffer afterwards. -/
structure ReadResult where
  n : Nat
  addr : Option NetAddr
  err : Option Err
  buf : List Nat
deriving DecidableEq, Repr

/-- The function values ever stored in `UDPConn2.Delete`: only the method
value `s.Del` of the core stack (`conn.Delete = s.Del` in `ForwardUDP`). -/
inductive DeleteFn
  | stackDel
deriving DecidableEq, Repr

/-- Sequencing of calls: the first call that parks or panics ends the run. -/
def Run.bind {α β : Type} (r : Run α) (f : α → Run β) : Run β :=
  match r with
  | Run.done a => f a
  | Run.blocked => Run.blocked
  | Run.panic => Run.panic

/-! ## The full-cone packet-conn (`gonet/gonet_extra_udp2.go`) -/

/-- The struct `gonet.UDPConn2`. `closed` is true once the `closed` channel
has been closed; `stream` is the content of the buffered channel, oldest
first. The embedded `deadlineTimer` is an input of the read calls. -/
structure UDPConn2 where
  Delete : Option DeleteFn
  route : List Route
  closed : Bool
  stream : List Packet
  addr : UDPAddr
  raddr : UDPAddr
  nicID : Nat
  unique : Nat
  tranID : List TransportEndpointID
deriving DecidableEq, Repr

/-- The constructor `NewUDPConn2`. -/
def NewUDPConn2 (rr : ForwarderRequest) (reply : StackReply) : UDPConn2 :=
  { Delete := none
    route := []
    closed := false
    stream := []
    addr := ⟨rr.ID.LocalAddress, rr.ID.LocalPort⟩
    raddr := ⟨rr.ID.RemoteAddress, rr.ID.RemotePort⟩
    nicID := rr.Route.NICID
    unique := reply.uniqueID
    tranID := [] }

/-- The method `UDPConn2.HandleRequest`: append the route and the endpoint
ID, then register the conn with the stack under the request's ID. -/
def UDPConn2.HandleRequest (ep : UDPConn2) (rr : ForwarderRequest) (reply : StackReply) :
    UDPConn2 × List Event × Option Err :=
  let ep1 := { ep with route := ep.route ++ [rr.Route], tranID := ep.tranID ++ [rr.ID] }
  match reply.registerErr with
  | some e =>
    (ep1, [Event.register rr.Route.NICID rr.Route.NetProto rr.ID ep.unique false],
      some (Err.msg e))
  | none =>
    (ep1, [Event.register rr.Route.NICID rr.Route.NetProto rr.ID ep.unique true], none)

/-- The method `UDPConn2.HandlePacket`. The counter increments happen before
the `select`, so they are reported also when the call parks. -/
def UDPConn2.HandlePacket (ep : UDPConn2) (id : TransportEndpointID) (pkt : PacketBuffer)
    (pick : Nat) : List Event × Run UDPConn2 :=
  match UDPLength pkt.TransportHeader with
  | none => ([], Run.panic)
  | some len =>
    if len > pkt.Data.length + UDPMinimumSize then
      ([Event.malformedInc], Run.done ep)
    else
      let packet : Packet := ⟨NetAddr.udp ⟨id.LocalAddress, id.LocalPort⟩, pkt.Data⟩
      let ready := (if ep.closed then [SendCase.closed] else [])
        ++ (if ep.stream.length < streamCap then [SendCase.send] else [])
      match selectCase ready pick with
      | none => ([Event.receivedInc], Run.blocked)
      | some SendCase.closed => ([Event.receivedInc], Run.done ep)
      | some SendCase.send =>
        ([Event.receivedInc], Run.done { ep with stream := ep.stream ++ [packet] })

/-- The loop of `UDPConn2.closeEndpoint` from index `i` on, over the routes
not yet visited: `ep.tranID[i]` panics when the index is out of range. -/
def UDPConn2.closeEndpointFrom (ep : UDPConn2) : List Route → Nat → Run (List Event)
  | [], _ => Run.done []
  | r :: rs, i =>
    match ep.tranID[i]? with
    | none => Run.panic
    | some id =>
      (UDPConn2.closeEndpointFrom ep rs (i + 1)).bind fun evs =>
        Run.done ([Event.unregister ep.nicID r.NetProto id ep.unique,
          Event.releasePort r.NetProto id.LocalAddress id.LocalPort,
          Event.routeRelease r] ++ evs)

/-- The method `UDPConn2.closeEndpoint`. -/
def UDPConn2.closeEndpoint (ep : UDPConn2) : Run (List Event) :=
  UDPConn2.closeEndpointFrom ep ep.route 0

/-- The method `UDPConn2.Close`; `addrString` is `net.UDPAddr.String`.
Returns the error, the conn afterwards and the calls made; calling a nil
`Delete` panics. -/
def UDPConn2.Close (addrString : UDPAddr → String) (c : UDPConn2) :
    Run (Option Err × UDPConn2 × List Event) :=
  if c.closed then Run.done (none, c, [])
  else
    let c1 := { c with closed := true }
    c1.closeEndpoint.bind fun evs =>
      match c1.Delete with
      | none => Run.panic
      | some DeleteFn.stackDel =>
        Run.done (none, c1, evs ++ [Event.delete (addrString c1.raddr)])

/-- The method `UDPConn2.ReadTo`; `b` is the caller's buffer and
`deadlineFired` tells whether the channel of `readCancel()` is ready. -/
def UDPConn2.ReadTo (c : UDPConn2) (b : List Nat) (deadlineFired : Bool) (pick : Nat) :
    Run (ReadResult × UDPConn2) :=
  let ready := (if deadlineFired then [ReadCase.deadline] else [])
    ++ (if c.stream.isEmpty then [] else [ReadCase.stream])
    ++ (if c.closed then [ReadCase.closed] else [])
  match selectCase ready pick with
  | none => Run.blocked
  | some ReadCase.deadline => Run.done (⟨0, none, some Err.timeout, b⟩, c)
  | some ReadCase.closed => Run.done (⟨0, none, some Err.EOF, b⟩, c)
  | some ReadCase.stream =>
    match c.stream with
    | [] => Run.blocked
    | packet :: rest =>
      let (n, b1) := goCopy b packet.View
      if n < packet.View.length then
        Run.done (⟨n, some packet.Addr, some Err.ErrShortBuffer, b1⟩, { c with stream := rest })
      else
        Run.done (⟨n, some packet.Addr, none, b1⟩, { c with stream := rest })

/-- The method `UDPConn2.ReadFrom`: `ReadTo` with the address replaced by
the conn's remote address. -/
def UDPConn2.ReadFrom (c : UDPConn2) (b : List Nat) (deadlineFired : Bool) (pick : Nat) :
    Run (ReadResult × UDPConn2) :=
  (c.ReadTo b deadlineFired pick).bind fun (r, c1) =>
    Run.done ({ r with addr := some (NetAddr.udp c.raddr) }, c1)

/-! ## The listener packet-conn (`gonet/gonet_extra_udp3.go`) -/

/-- The struct `gonet.UDPConn3`. -/
structure UDPConn3 where
  route : Route
  closed : Bool
  stream : List Packet
  addr : UDPAddr
  raddr : UDPAddr
  nicID : Nat
  unique : Nat
  tranID : TransportEndpointID
deriving DecidableEq, Repr

/-- The constructor `NewUDPConn3`; `tranID` starts as the zero value. -/
def NewUDPConn3 (rr : ForwarderRequest) (reply : StackReply) : UDPConn3 :=
  { route := rr.Route
    closed := false
    stream := []
    addr := ⟨rr.ID.LocalAddress, rr.ID.LocalPort⟩
    raddr := ⟨rr.ID.RemoteAddress, rr.ID.RemotePort⟩
    nicID := rr.Route.NICID
    unique := reply.uniqueID
    tranID := ⟨0, [], 0, []⟩ }

/-- The method `UDPConn3.HandleRequest`: register with the remote part of
the ID wildcarded. -/
def UDPConn3.HandleRequest (ep : UDPConn3) (rr : ForwarderRequest) (reply : StackReply) :
    UDPConn3 × List Event × Option Err :=
  let ep1 := { ep with tranID := { rr.ID with RemoteAddress := [], RemotePort := 0 } }
  match reply.registerErr with
  | some e =>
    (ep1, [Event.register rr.Route.NICID rr.Route.NetProto ep1.tranID ep.unique false],
      some (Err.msg e))
  | none =>
    (ep1, [Event.register rr.Route.NICID rr.Route.NetProto ep1.tranID ep.unique true], none)

/-- The method `UDPConn3.HandlePacket`: as for the full-cone conn, but the
packet is tagged with the remote part of the ID. -/
def UDPConn3.HandlePacket (ep : UDPConn3) (id : TransportEndpointID) (pkt : PacketBuffer)
    (pick : Nat) : List Event × Run UDPConn3 :=
  match UDPLength pkt.TransportHeader with
  | none => ([], Run.panic)
  | some len =>
    if len > pkt.Data.length + UDPMinimumSize then
      ([Event.malformedInc], Run.done ep)
    else
      let packet : Packet := ⟨NetAddr.udp ⟨id.RemoteAddress, id.RemotePort⟩, pkt.Data⟩
      let ready := (if ep.closed then [SendCase.closed] else [])
        ++ (if ep.stream.length < streamCap then [SendCase.send] else [])
      match selectCase ready pick with
      | none => ([Event.receivedInc], Run.blocked)
      | some SendCase.closed => ([Event.receivedInc], Run.done ep)
      | some SendCase.send =>
        ([Event.receivedInc], Run.done { ep with stream := ep.stream ++ [packet] })

/-- The method `UDPConn3.closeEndpoint`. -/
def UDPConn3.closeEndpoint (ep : UDPConn3) : List Event :=
  [Event.unregister ep.nicID ep.route.NetProto ep.tranID ep.unique,
    Event.releasePort ep.route.NetProto ep.tranID.LocalAddress ep.tranID.LocalPort,
    Event.routeRelease ep.route]

/-- The method `UDPConn3.Close`. -/
def UDPConn3.Close (c : UDPConn3) : Run (Option Err × UDPConn3 × List Event) :=
  if c.closed then Run.done (none, c, [])
  else
    let c1 := { c with closed := true }
    Run.done (none, c1, c1.closeEndpoint)

/-- The method `UDPConn3.ReadFrom`. -/
def UDPConn3.ReadFrom (c : UDPConn3) (b : List Nat) (deadlineFired : Bool) (pick : Nat) :
    Run (ReadResult × UDPConn3) :=
  let ready := (if deadlineFired then [ReadCase.deadline] else [])
    ++ (if c.stream.isEmpty then [] else [ReadCase.stream])
    ++ (if c.closed then [ReadCase.closed] else [])
  match selectCase ready pick with
  | none => Run.blocked
  | some ReadCase.deadline => Run.done (⟨0, none, some Err.timeout, b⟩, c)
  | some ReadCase.closed => Run.done (⟨0, none, some Err.EOF, b⟩, c)
  | some ReadCase.stream =>
    match c.stream with
    | [] => Run.blocked
    | packet :: rest =>
      let (n, b1) := goCopy b packet.View
      if n < packet.View.length then
        Run.done (⟨n, some packet.Addr, some Err.ErrShortBuffer, b1⟩, { c with stream := rest })
      else
        Run.done (⟨n, some packet.Addr, none, b1⟩, { c with stream := rest })

/-- The method `UDPConn3.ReadTo`: `ReadFrom` with the address replaced by
the conn's local address. -/
def UDPConn3.ReadTo (c : UDPConn3) (b : List Nat) (deadlineFired : Bool) (pick : Nat) :
    Run (ReadResult × UDPConn3) :=
  (c.ReadFrom b deadlineFired pick).bind fun (r, c1) =>
    Run.done ({ r with addr := some (NetAddr.udp c.addr) }, c1)

/-! ## Sending datagrams (`gonet/gonet_extra.go`, `WriteFrom`, `WriteTo`) -/

/-- The gVisor methods and functions `SendPacket` calls, which are not part
of the repository: whether `r.Capabilities()` has the bit
`CapabilityTXChecksumOffload`; `r.PseudoHeaderChecksum(udp, length)`;
`header.Checksum(buf, initial)`; `r.DefaultTTL()`; and the error string of
`r.WritePacket` (none on success). -/
structure RouteLib where
  txChecksumOffload : Route → Bool
  PseudoHeaderChecksum : Route → Nat → Nat
  Checksum : List Nat → Nat → Nat
  DefaultTTL : Route → Nat
  writeErr : Route → Option String

/-- The constant `header.IPv6ProtocolNumber` of gVisor (`0x86dd`). -/
def IPv6ProtocolNumber : Nat := 34525

/-- The constant `header.IPv4ProtocolNumber` of gVisor (`0x0800`). -/
def IPv4ProtocolNumber : Nat := 2048

/-- The fields of a UDP header (`header.UDPFields` and the checksum field). -/
structure UDPFields where
  SrcPort : Nat
  DstPort : Nat
  Length : Nat
  Checksum : Nat
deriving DecidableEq, Repr

/-- The eight bytes of a UDP header, big-endian, as `header.UDP.Encode` and
`SetChecksum` lay them out. -/
def UDPFields.bytes (h : UDPFields) : List Nat :=
  [h.SrcPort / 256 % 256, h.SrcPort % 256, h.DstPort / 256 % 256, h.DstPort % 256,
    h.Length / 256 % 256, h.Length % 256, h.Checksum / 256 % 256, h.Checksum % 256]

/-- The packet handed to `r.WritePacket`: the route, the TTL, the UDP
header and the payload views. -/
structure WrittenPacket where
  route : Route
  TTL : Nat
  hdr : UDPFields
  data : List (List Nat)
deriving DecidableEq, Repr

/-- Calls `SendPacket` makes: `r.WritePacket`, and the increment of the
counter `PacketSendErrors` or `PacketsSent`. -/
inductive SendEvent
  | writePacket (p : WrittenPacket)
  | sendErrorsInc
  | packetsSentInc
deriving DecidableEq, Repr

/-- The checksum `SendPacket` computes in its checksum branch: the pseudo
header sum, folded over the payload views, then over the header (whose
checksum field is still zero), complemented in 16 bits. -/
def udpChecksum (lib : RouteLib) (r : Route) (hdr : UDPFields) (data : List (List Nat)) : Nat :=
  let xsum := data.foldl (fun x v => lib.Checksum v x) (lib.PseudoHeaderChecksum r hdr.Length)
  65535 - lib.Checksum hdr.bytes xsum % 65536

/-- The function `SendPacket`; `localPort` and `remotePort` are `uint16`.
The length field is `uint16(8 + data.Size())`. -/
def SendPacket (lib : RouteLib) (r : Route) (data : List (List Nat))
    (localPort remotePort : Nat) : List SendEvent × Option Err :=
  let length := (UDPMinimumSize + (data.map List.length).sum) % 65536
  let hdr0 : UDPFields := ⟨localPort, remotePort, length, 0⟩
  let hdr : UDPFields :=
    if !lib.txChecksumOffload r && r.NetProto == IPv6ProtocolNumber then
      { hdr0 with Checksum := udpChecksum lib r hdr0 data }
    else hdr0
  let pkt : WrittenPacket := ⟨r, lib.DefaultTTL r, hdr, data⟩
  match lib.writeErr r with
  | some e => ([SendEvent.writePacket pkt, SendEvent.sendErrorsInc], some (Err.msg e))
  | none => ([SendEvent.writePacket pkt, SendEvent.packetsSentInc], none)

/-- The method `UDPConn2.WriteFrom`; `deadlineFired` tells whether the
channel of `writeCancel()` is ready. Returns `(n, err)`, the calls made and
the conn afterwards. The assertion `addr.(*net.UDPAddr)` and the index
`c.route[0]` panic when they fail. -/
def UDPConn2.WriteFrom (lib : RouteLib) (c : UDPConn2) (b : List Nat) (addr : Option NetAddr)
    (deadlineFired : Bool) : Run (Nat × Option Err × List SendEvent × UDPConn2) :=
  if deadlineFired then Run.done (0, some Err.timeout, [], c)
  else
    match addr with
    | some (NetAddr.udp uaddr) =>
      match c.route with
      | [] => Run.panic
      | r0 :: _ =>
        let route := { r0 with LocalAddress := uaddr.IP }
        let (evs, err) := SendPacket lib route [b] (uaddr.Port % 65536) (c.raddr.Port % 65536)
        Run.done (b.length, err, evs, c)
    | _ => Run.panic

/-- The method `UDPConn3.WriteTo`. -/
def UDPConn3.WriteTo (lib : RouteLib) (c : UDPConn3) (b : List Nat) (addr : Option NetAddr)
    (deadlineFired : Bool) : Run (Nat × Option Err × List SendEvent × UDPConn3) :=
  if deadlineFired then Run.done (0, some Err.timeout, [], c)
  else
    match addr with
    | some (NetAddr.udp uaddr) =>
      let route := { c.route with RemoteAddress := uaddr.IP }
      let (evs, err) := SendPacket lib route [b] (c.addr.Port % 65536) (uaddr.Port % 65536)
      Run.done (b.length, err, evs, c)
    | _ => Run.panic

/-! ## The core stack and its UDP flow table (`netstack/core/core.go`) -/

/-- The part of `core.Stack` that the UDP forwarder works on: the flow
table `conns` (a Go map from key to conn pointer), the allocated full-cone
and listener conns, and the calls made so far. -/
structure Stack where
  conns : String → Option Nat
  heap2 : List UDPConn2
  heap3 : List UDPConn3
  trace : List Event

/-- The method `Stack.Get`. -/
def Stack.Get (s : Stack) (k : String) : Option Nat :=
  s.conns k

/-- The method `Stack.Add`. -/
def Stack.Add (s : Stack) (k : String) (conn : Nat) : Stack :=
  { s with conns := Function.update s.conns k (some conn) }

/-- The method `Stack.Del`. -/
def Stack.Del (s : Stack) (k : String) : Stack :=
  { s with conns := Function.update s.conns k none }

/-- A stack right after `Init`: empty table, no conn, no call made. -/
def Stack.init : Stack :=
  { conns := fun _ => none, heap2 := [], heap3 := [], trace := [] }

/-- The method `ForwarderRequest.CreateUDPConn2` of `gonet/forwarder.go`:
the calls made and, when the call returns, the new conn or the error. -/
def ForwarderRequest.CreateUDPConn2 (rr : ForwarderRequest) (reply : StackReply)
    (pick : Nat) : List Event × Run (Except Err UDPConn2) :=
  let conn := NewUDPConn2 rr reply
  match conn.HandleRequest rr reply with
  | (_, evs, some e) => (evs, Run.done (Except.error e))
  | (conn1, evs, none) =>
    let (evs2, r) := conn1.HandlePacket rr.ID rr.Pkt pick
    (evs ++ evs2, r.bind fun conn2 => Run.done (Except.ok conn2))

/-- The method `ForwarderRequest.CreateUDPConn3` of `gonet/forwarder.go`. -/
def ForwarderRequest.CreateUDPConn3 (rr : ForwarderRequest) (reply : StackReply)
    (pick : Nat) : List Event × Run (Except Err UDPConn3) :=
  let conn := NewUDPConn3 rr reply
  match conn.HandleRequest rr reply with
  | (_, evs, some e) => (evs, Run.done (Except.error e))
  | (conn1, evs, none) =>
    let (evs2, r) := conn1.HandlePacket rr.ID rr.Pkt pick
    (evs ++ evs2, r.bind fun conn2 => Run.done (Except.ok conn2))

/-- The key of a full-cone flow in the table: `raddr.String()` of the
request's remote address and port; `addrString` is `net.UDPAddr.String`. -/
def flowKey (addrString : UDPAddr → String) (rr : ForwarderRequest) : String :=
  addrString ⟨rr.ID.RemoteAddress, rr.ID.RemotePort⟩

/-- The method `Stack.ForwardUDP` of `core.go`, with the handler's
`PickConnType` being the one of `handle_unix.go`. -/
def Stack.ForwardUDP (addrString : UDPAddr → String) (ipFilterLookup : List Nat → Bool)
    (s : Stack) (rr : ForwarderRequest) (reply : StackReply) (pick : Nat) : Run Stack :=
  match PickConnType ipFilterLookup ⟨rr.ID.LocalAddress, rr.ID.LocalPort⟩ with
  | PacketConnType.ConnType =>
    match reply.createEndpointErr with
    | some e =>
      Run.done { s with trace := s.trace ++ [Event.logError "ForwardUDP error: " (Err.msg e)] }
    | none =>
      Run.done { s with
        trace := s.trace ++ [Event.createEndpoint rr.ID, Event.goHandlePacket rr.ID] }
  | PacketConnType.ConnType2 =>
    let k := flowKey addrString rr
    match s.Get k with
    | some p =>
      match s.heap2[p]? with
      | none => Run.panic
      | some conn =>
        match conn.HandleRequest rr reply with
        | (conn1, evs, some e) =>
          Run.done { s with
            heap2 := s.heap2.set p conn1
            trace := s.trace ++ evs ++ [Event.logError "ForwardUDP2 error: " e] }
        | (conn1, evs, none) =>
          Run.done { s with heap2 := s.heap2.set p conn1, trace := s.trace ++ evs }
    | none =>
      match rr.CreateUDPConn2 reply pick with
      | (_, Run.panic) => Run.panic
      | (_, Run.blocked) => Run.blocked
      | (evs, Run.done (Except.error e)) =>
        Run.done { s with
          trace := s.trace ++ evs ++ [Event.logError "ForwardUDP2 error: " e] }
      | (evs, Run.done (Except.ok conn)) =>
        let conn1 := { conn with Delete := some DeleteFn.stackDel }
        let p := s.heap2.length
        let s1 := { s with heap2 := s.heap2 ++ [conn1], trace := s.trace ++ evs }
        let s2 := s1.Add k p
        Run.done { s2 with trace := s2.trace ++ [Event.goHandlePacket2 p] }
  | PacketConnType.ConnType3 =>
    match rr.CreateUDPConn3 reply pick with
    | (_, Run.panic) => Run.panic
    | (_, Run.blocked) => Run.blocked
    | (evs, Run.done (Except.error e)) =>
      Run.done { s with
        trace := s.trace ++ evs ++ [Event.logError "ForwardUDP3 error: " e] }
    | (evs, Run.done (Except.ok conn)) =>
      let p := s.heap3.length
      Run.done { s with
        heap3 := s.heap3 ++ [conn]
        trace := s.trace ++ evs ++ [Event.goHandlePacket3 p] }

/-- The effect on the flow table of the calls a packet-conn made: a call of
its `Delete` callback is `Stack.Del`. -/
def Stack.runCallbacks (s : Stack) : List Event → Stack
  | [] => s
  | Event.delete k :: evs => Stack.runCallbacks (s.Del k) evs
  | _ :: evs => Stack.runCallbacks s evs

/-- A call `conn.Close()` on the full-cone conn at pointer `p`: the conn is
updated in place, its calls are appended to the trace and its `Delete`
callback acts on the table. A nil pointer panics. -/
def Stack.Close2 (addrString : UDPAddr → String) (s : Stack) (p : Nat) :
    Run (Option Err × Stack) :=
  match s.heap2[p]? with
  | none => Run.panic
  | some c =>
    (c.Close addrString).bind fun (err, c1, evs) =>
      let s1 := { s with heap2 := s.heap2.set p c1, trace := s.trace ++ evs }
      Run.done (err, s1.runCallbacks evs)

/-- A run of `n` sequential `Close` calls on the full-cone conn at pointer
`p`: the errors returned, in order, and the stack afterwards. -/
def Stack.Close2Times (addrString : UDPAddr → String) (s : Stack) (p : Nat) :
    Nat → Run (List (Option Err) × Stack)
  | 0 => Run.done ([], s)
  | n + 1 =>
    (Stack.Close2 addrString s p).bind fun (err, s1) =>
      (Stack.Close2Times addrString s1 p n).bind fun (errs, s2) =>
        Run.done (err :: errs, s2)

/-- A run of `n` sequential `Close` calls on a listener conn: the errors
returned, the conn afterwards and the calls made. -/
def UDPConn3.CloseTimes (c : UDPConn3) : Nat → Run (List (Option Err) × UDPConn3 × List Event)
  | 0 => Run.done ([], c, [])
  | n + 1 =>
    c.Close.bind fun (err, c1, evs) =>
      (UDPConn3.CloseTimes c1 n).bind fun (errs, c2, evs2) =>
        Run.done (err :: errs, c2, evs ++ evs2)

/-! ## Inbound frames and the TCP forwarder (`netstack/core/core.go`) -/

/-- The function `header.IPVersion` of gVisor: `-1` for an empty slice,
otherwise the high nibble of the first byte. -/
def IPVersion (b : List Nat) : Int :=
  match b with
  | [] => -1
  | b0 :: _ => ((b0 % 256 / 16 : Nat) : Int)

/-- A call `s.Endpoint.InjectInbound(protocol, packet)` with the frame. -/
structure InjectCall where
  protocol : Nat
  frame : List Nat
deriving DecidableEq, Repr

/-- The method `Stack.Write` of `core.go`: the calls made and `(n, err)`. -/
def Stack.Write (b : List Nat) : List InjectCall × Nat × Option Err :=
  if IPVersion b = 4 then ([⟨IPv4ProtocolNumber, b⟩], b.length, none)
  else if IPVersion b = 6 then ([⟨IPv6ProtocolNumber, b⟩], b.length, none)
  else ([], b.length, none)

/-- Calls `ForwardTCP` makes: `r.CreateEndpoint`, `s.Error`, `r.Complete`
with its `sendReset` argument (true rejects the handshake with a reset,
false accepts it), and `go s.Handler.Handle(conn)`. -/
inductive TCPFwdEvent
  | createEndpoint
  | logError (text : String) (err : Err)
  | complete (sendReset : Bool)
  | goHandle (conn : Nat)
deriving DecidableEq, Repr

/-- The method `Stack.ForwardTCP` of `core.go`: `createErr` is the error of
`r.CreateEndpoint` (none on success) and `conn` the pointer of the
connection `gonet.NewTCPConn` builds. -/
def Stack.ForwardTCP (createErr : Option String) (conn : Nat) : List TCPFwdEvent :=
  match createErr with
  | some e =>
    [TCPFwdEvent.createEndpoint, TCPFwdEvent.logError "ForwardTCP error: " (Err.msg e),
      TCPFwdEvent.complete true]
  | none =>
    [TCPFwdEvent.createEndpoint, TCPFwdEvent.complete false, TCPFwdEvent.goHandle conn]

/-! ## TCP flows (`netstack/handle_unix.go`, `netstack/handle_tcp.go`) -/

/-- The accepted TCP flow handed to `Stack.Handle` (a `core.Conn`): its
pointer identity and what `LocalAddr()` and `RemoteAddr()` return. -/
structure TCPConn where
  id : Nat
  LocalAddr : Option NetAddr
  RemoteAddr : Option NetAddr
deriving DecidableEq, Repr

/-- The collaborators of the struct `Stack` of package `netstack` on the TCP
path: `IPFilter.Lookup`; the method `LookupAddr` (its source is not part of
the files at hand; it returns an address and an error); the value returned
by the upstream `Handler.Handle(conn, addr)`; the error of `net.DialTCP`;
and the error `Relay(conn, rc)` ends with. -/
structure NetStack where
  ipFilterLookup : List Nat → Bool
  LookupAddr : NetAddr → Option NetAddr × Option Err
  handlerResult : Nat → Option NetAddr → Option Err
  dialErr : NetAddr → Option Err
  relayErr : Nat → Option Err

/-- Calls made while a TCP flow is handled, in program order. -/
inductive TCPEvent
  | logInfo (text : String) (addr : Option NetAddr)
  | logError (text : String) (err : Err)
  | handlerHandle (conn : Nat) (addr : Option NetAddr)
  | dialTCP (addr : NetAddr)
  | relay (conn : Nat)
  | rcClose
  | connClose (conn : Nat)
deriving DecidableEq, Repr

/-- The test `errors.Is(err, target)` for the errors of the model: `err` or
an error it wraps is `target`. -/
def Err.is (target : Err) : Err → Bool
  | Err.wrap t e => (Err.wrap t e == target) || Err.is target e
  | e => e == target

/-- The test `ne, ok := err.(net.Error); ok && ne.Timeout()`. -/
def Err.isNetTimeout : Err → Bool
  | Err.timeout => true
  | _ => false

/-- The method `Stack.HandleTCP`: the upstream handler is called with the
flow and the address. -/
def NetStack.HandleTCP (s : NetStack) (conn : TCPConn) (addr : Option NetAddr) :
    List TCPEvent × Option Err :=
  ([TCPEvent.handlerHandle conn.id addr], s.handlerResult conn.id addr)

/-- The method `Stack.HandleTCP2`: dial the destination and relay; the
deferred `rc.Close()` and `conn.Close()` run on return. The assertion
`addr.(*net.TCPAddr)` panics for any other address. -/
def NetStack.HandleTCP2 (s : NetStack) (conn : TCPConn) (addr : Option NetAddr) :
    Run (List TCPEvent × Option Err) :=
  match addr with
  | some (NetAddr.tcp ip port) =>
    match s.dialErr (NetAddr.tcp ip port) with
    | some e =>
      Run.done ([TCPEvent.dialTCP (NetAddr.tcp ip port), TCPEvent.connClose conn.id], some e)
    | none =>
      let evs := [TCPEvent.dialTCP (NetAddr.tcp ip port), TCPEvent.relay conn.id,
        TCPEvent.rcClose, TCPEvent.connClose conn.id]
      match s.relayErr conn.id with
      | none => Run.done (evs, none)
      | some e =>
        if e.isNetTimeout then Run.done (evs, none)
        else if Err.is Err.ErrClosedPipe e || Err.is Err.EOF e then Run.done (evs, none)
        else Run.done (evs, some (Err.wrap "relay error: " e))
  | _ => Run.panic

/-- The method `Stack.Handle` of `handle_unix.go`. The assertion
`conn.LocalAddr().(*net.TCPAddr)` panics when the local address is not a
TCP address. -/
def NetStack.Handle (s : NetStack) (conn : TCPConn) : Run (List TCPEvent) :=
  match conn.LocalAddr with
  | some (NetAddr.tcp ip port) =>
    let target := NetAddr.tcp ip port
    if !s.ipFilterLookup ip then
      (s.HandleTCP2 conn (some target)).bind fun (evs, err) =>
        Run.done ([TCPEvent.logInfo "direct" (some target)] ++ evs ++
          (match err with
            | some e => [TCPEvent.logError "handle tcp2 error: " e]
            | none => []))
    else
      match s.LookupAddr target with
      | (addr, err) =>
        if err = some Err.ErrNotFake then
          let (evs, herr) := s.HandleTCP conn (some target)
          Run.done ([TCPEvent.logInfo "proxy" (some target)] ++ evs ++
            (match herr with
              | some e => [TCPEvent.logError "handle tcp error: " e]
              | none => []))
        else if err = some Err.ErrNotFound then
          Run.done [TCPEvent.logError "handle tcp error: " Err.ErrNotFound,
            TCPEvent.connClose conn.id]
        else
          let (evs, herr) := s.HandleTCP conn addr
          Run.done ([TCPEvent.logInfo "proxy" addr] ++ evs ++
            (match herr with
              | some e => [TCPEvent.logError "handle tcp error: " e]
              | none => []))
  | _ => Run.panic

/-- The event is a call of the upstream proxy handler `Handler.Handle`. -/
def TCPEvent.isHandlerHandle : TCPEvent → Bool
  | TCPEvent.handlerHandle _ _ => true
  | _ => false

/-- The calls of the upstream proxy handler among the events, in order. -/
def proxyCalls (evs : List TCPEvent) : List TCPEvent :=
  evs.filter TCPEvent.isHandlerHandle

/-! ## The DNS hijack loop (`netstack/handle_udp.go`) -/

/-- The struct `Message`: the pooled buffer `b` (the `dns.Msg` it carries
is code outside the repository). -/
structure Message where
  b : List Nat
deriving DecidableEq, Repr

/-- The function `NewMessage`: `make([]byte, 1024)`. -/
def NewMessage : Message :=
  ⟨List.replicate 1024 0⟩

/-- How one pass of the loop of `HandleUDP3` ends: `continue` (a read
timeout), `return` with the error, or a goroutine started to answer the
`n` bytes read into `x.b[2:]` from `addr`. -/
inductive HijackPass
  | again
  | stop (err : Option Err)
  | serve (n : Nat) (addr : Option NetAddr) (b : List Nat)
deriving DecidableEq, Repr

/-- One pass of the loop of `Stack.HandleUDP3` up to the `go` statement:
the read `conn.ReadFrom(x.b[2:])` into the pooled message `x` and the test
of its error. -/
def HandleUDP3Pass (conn : UDPConn3) (x : Message) (deadlineFired : Bool) (pick : Nat) :
    Run (HijackPass × UDPConn3) :=
  (conn.ReadFrom (x.b.drop 2) deadlineFired pick).bind fun (r, conn1) =>
    match r.err with
    | some er =>
      if er.isNetTimeout then Run.done (HijackPass.again, conn1)
      else if Err.is Err.EOF er then Run.done (HijackPass.stop none, conn1)
      else Run.done (HijackPass.stop (some (Err.wrap "receive dns error: " er)), conn1)
    | none => Run.done (HijackPass.serve r.n r.addr (x.b.take 2 ++ r.buf), conn1)

/-! ## Relay and copy (`netstack/handle_tcp.go`, `gonet/gonet_extra_tcp.go`) -/

/-- The two ends of a relay: `c`, the accepted flow, and `rc`, the dialled
remote connection. -/
inductive Peer
  | c
  | rc
deriving DecidableEq, Repr

/-- The closing calls the two relay directions make on the ends. -/
inductive CloseCall
  | Close (p : Peer)
  | CloseRead (p : Peer)
  | CloseWrite (p : Peer)
deriving DecidableEq, Repr

/-- The function `relay2`, run as its own goroutine: `err` is what its
`Copy(rc, c)` ended with. Returns the closing calls it makes and the value
it sends on `errCh` (buffered, so the send never parks). -/
def relay2 (err : Option Err) : List CloseCall × Option Err :=
  match err with
  | some e => ([CloseCall.Close Peer.rc, CloseCall.Close Peer.c], some e)
  | none => ([CloseCall.CloseWrite Peer.rc, CloseCall.CloseRead Peer.c], none)

/-- What `relay` gives once both copies have ended. -/
structure RelayResult where
  calls : List CloseCall
  calls2 : List CloseCall
  err : Option Err
deriving DecidableEq, Repr

/-- The function `relay`: `err1` is what its own `Copy(c, rc)` ended with
and `err2` what the `Copy(rc, c)` of `relay2` ended with. `calls` are the
closing calls of the calling goroutine, `calls2` those of `relay2`; `relay`
receives from `errCh` before it returns, in either branch. -/
def relay (err1 err2 : Option Err) : RelayResult :=
  let calls := match err1 with
    | some _ => [CloseCall.Close Peer.c, CloseCall.Close Peer.rc]
    | none => [CloseCall.CloseWrite Peer.c, CloseCall.CloseRead Peer.rc]
  let (calls2, sent) := relay2 err2
  match err1 with
  | some e => ⟨calls, calls2, some e⟩
  | none => ⟨calls, calls2, sent⟩

/-- The function `Relay`: `isCoreConn` tells whether `c` is a `core.Conn`
(it is for every flow `Stack.Handle` passes on); a remote end that is no
`DuplexConn` is wrapped and relayed all the same. -/
def Relay (isCoreConn : Bool) (err1 err2 : Option Err) : RelayResult :=
  if isCoreConn then relay err1 err2
  else ⟨[], [], some (Err.msg "relay error")⟩

/-- The constant `MaxBufferSize` of `handle_tcp.go`, the size of the staging
buffer of `Copy`. -/
def MaxBufferSize : Nat := 4096

/-- A source as `Copy` sees it: what the successive `Read` calls return,
the bytes read (`nr` is their number) and the error. A `Read` beyond the
end of the script never returns. -/
abbrev ReadScript := List (List Nat × Option Err)

/-- A sink: given the writes made so far and the bytes of this `Write`, the
count `nw` and the error `ew` it returns. -/
abbrev Writer := List (List Nat) → List Nat → Nat × Option Err

/-- What a copy returns, `(n, err)`, together with the writes it made, in
order, and the number of reads it made. -/
structure CopyResult where
  n : Nat
  err : Option Err
  writes : List (List Nat)
  reads : Nat
deriving DecidableEq, Repr

/-- The loop of `Copy` (the same in `handle_tcp.go` and `handle_other.go`)
with `n` bytes copied, the writes `ws` and `k` reads made so far. A `Read`
that reports more bytes than the buffer holds makes `b[:nr]` panic. -/
def copyLoop (w : Writer) : ReadScript → Nat → List (List Nat) → Nat → Run CopyResult
  | [], _, _, _ => Run.blocked
  | (data, er) :: rest, n, ws, k =>
    if data.length > MaxBufferSize then Run.panic
    else if data.length > 0 then
      match w ws data with
      | (nw, some ew) => Run.done ⟨if nw > 0 then n + nw else n, some ew, ws ++ [data], k + 1⟩
      | (nw, none) =>
        if data.length ≠ nw then
          Run.done ⟨if nw > 0 then n + nw else n, some Err.ErrShortWrite, ws ++ [data], k + 1⟩
        else
          match er with
          | some e =>
            if e ≠ Err.EOF then
              Run.done ⟨if nw > 0 then n + nw else n, some e, ws ++ [data], k + 1⟩
            else Run.done ⟨if nw > 0 then n + nw else n, none, ws ++ [data], k + 1⟩
          | none => copyLoop w rest (if nw > 0 then n + nw else n) (ws ++ [data]) (k + 1)
    else
      match er with
      | some e =>
        if e ≠ Err.EOF then Run.done ⟨n, some e, ws, k + 1⟩
        else Run.done ⟨n, none, ws, k + 1⟩
      | none => copyLoop w rest n ws (k + 1)

/-- The function `Copy`: when the source is an `io.WriterTo` or the sink an
`io.ReaderFrom`, the result is that of the fast path (`fastPath`, code
outside the repository); otherwise the loop over a 4096-byte buffer. -/
def Copy (fastPath : Option (Nat × Option Err)) (w : Writer) (r : ReadScript) :
    Run CopyResult :=
  match fastPath with
  | some (n, err) => Run.done ⟨n, err, [], 0⟩
  | none => copyLoop w r 0 [] 0

/-- The loop of `TCPConn.WriteTo` (`gonet_extra_tcp.go`); the script holds
what the successive `commonRead` calls return. -/
def writeToLoop (w : Writer) : ReadScript → Nat → List (List Nat) → Nat → Run CopyResult
  | [], _, _, _ => Run.blocked
  | (bb, er) :: rest, n, ws, k =>
    if bb.length > 0 then
      match w ws bb with
      | (nw, some ew) => Run.done ⟨if nw > 0 then n + nw else n, some ew, ws ++ [bb], k + 1⟩
      | (nw, none) =>
        if bb.length ≠ nw then
          Run.done ⟨if nw > 0 then n + nw else n, some Err.ErrShortWrite, ws ++ [bb], k + 1⟩
        else
          match er with
          | some e =>
            if e ≠ Err.EOF then
              Run.done ⟨if nw > 0 then n + nw else n, some e, ws ++ [bb], k + 1⟩
            else Run.done ⟨if nw > 0 then n + nw else n, none, ws ++ [bb], k + 1⟩
          | none => writeToLoop w rest (if nw > 0 then n + nw else n) (ws ++ [bb]) (k + 1)
    else
      match er with
      | some e =>
        if e ≠ Err.EOF then Run.done ⟨n, some e, ws, k + 1⟩
        else Run.done ⟨n, none, ws, k + 1⟩
      | none => writeToLoop w rest n ws (k + 1)

/-- The method `TCPConn.WriteTo` of `gonet_extra_tcp.go`. -/
def TCPConn.WriteTo (w : Writer) (r : ReadScript) : Run CopyResult :=
  writeToLoop w r 0 [] 0

/-! ## The two goroutines of `relay` (`netstack/handle_tcp.go`)

`relay` starts `relay2` as a goroutine and both then run side by side. Each
is cut at its calls; an interleaving is a schedule saying which of the two
makes the next step. -/

/-- Where a goroutine of the relay stands: inside its `Copy`; with `Copy`
returned, before its first closing call; between its two closing calls;
after both, before its channel operation (`<-errCh` in `relay`,
`errCh <- err` in `relay2`); or returned. -/
inductive RelayPC
  | copying
  | copied
  | closedOne
  | closedBoth
  | returned
deriving DecidableEq, Repr

/-- The relay right after `go relay2(c, rc, errCh)`: where the goroutine of
`relay` (`pc`) and that of `relay2` (`pc2`) stand, the closing calls each
has made so far, the buffer of `errCh` (capacity one) and what `relay` has
returned, if it has. -/
structure RelayState where
  pc : RelayPC
  pc2 : RelayPC
  calls : List CloseCall
  calls2 : List CloseCall
  errCh : Option (Option Err)
  result : Option (Option Err)
deriving DecidableEq, Repr

/-- One step of the goroutine running `relay`, whose `Copy(c, rc)` ends with
`err1`. The receive `<-errCh` parks while the buffer is empty. -/
def relayStep (err1 : Option Err) (s : RelayState) : RelayState :=
  match s.pc with
  | RelayPC.copying => { s with pc := RelayPC.copied }
  | RelayPC.copied =>
    match err1 with
    | some _ => { s with pc := RelayPC.closedOne, calls := s.calls ++ [CloseCall.Close Peer.c] }
    | none =>
      { s with pc := RelayPC.closedOne, calls := s.calls ++ [CloseCall.CloseWrite Peer.c] }
  | RelayPC.closedOne =>
    match err1 with
    | some _ => { s with pc := RelayPC.closedBoth, calls := s.calls ++ [CloseCall.Close Peer.rc] }
    | none =>
      { s with pc := RelayPC.closedBoth, calls := s.calls ++ [CloseCall.CloseRead Peer.rc] }
  | RelayPC.closedBoth =>
    match s.errCh with
    | none => s
    | some v =>
      match err1 with
      | some e => { s with pc := RelayPC.returned, errCh := none, result := some (some e) }
      | none => { s with pc := RelayPC.returned, errCh := none, result := some v }
  | RelayPC.returned => s

/-- One step of the goroutine running `relay2`, whose `Copy(rc, c)` ends
with `err2`. The send `errCh <- err` parks while the buffer is full. -/
def relay2Step (err2 : Option Err) (s : RelayState) : RelayState :=
  match s.pc2 with
  | RelayPC.copying => { s with pc2 := RelayPC.copied }
  | RelayPC.copied =>
    match err2 with
    | some _ =>
      { s with pc2 := RelayPC.closedOne, calls2 := s.calls2 ++ [CloseCall.Close Peer.rc] }
    | none =>
      { s with pc2 := RelayPC.closedOne, calls2 := s.calls2 ++ [CloseCall.CloseWrite Peer.rc] }
  | RelayPC.closedOne =>
    match err2 with
    | some _ =>
      { s with pc2 := RelayPC.closedBoth, calls2 := s.calls2 ++ [CloseCall.Close Peer.c] }
    | none =>
      { s with pc2 := RelayPC.closedBoth, calls2 := s.calls2 ++ [CloseCall.CloseRead Peer.c] }
  | RelayPC.closedBoth =>
    match s.errCh with
    | none => { s with pc2 := RelayPC.returned, errCh := some err2 }
    | some _ => s
  | RelayPC.returned => s

/-- Both goroutines inside their `Copy`, no call made, `errCh` empty. -/
def relayStart : RelayState :=
  ⟨RelayPC.copying, RelayPC.copying, [], [], none, none⟩

/-- The relay run along a schedule: the goroutine of `relay2` moves where
the schedule says `true`, that of `relay` otherwise. -/
def relayRun (err1 err2 : Option Err) (schedule : List Bool) (s : RelayState) : RelayState :=
  schedule.foldl (fun st second => if second then relay2Step err2 st else relayStep err1 st) s

/-! ## Concurrent forwarder calls

`ForwardUDP` takes the table mutex only inside `Get`, `Add` and `Del`, so
between its steps another goroutine may run. A call is cut at those
points; an interleaving of two calls is a schedule saying which of the two
goroutines makes the next step. -/

/-- Where a goroutine running `ForwardUDP` stands: before the classification
and `s.Get(k)`; after a hit, before `conn.HandleRequest(rr)`; after a miss,
before `rr.CreateUDPConn2()`; with the conn created and `conn.Delete` set,
before `s.Add(k, conn)`; before `go s.Handler.HandlePacket2(conn)`;
returned; or parked or panicked. -/
inductive FwdPC
  | start
  | hit (p : Nat)
  | missed
  | created (p : Nat)
  | added (p : Nat)
  | finished
  | stuck
deriving DecidableEq, Repr

/-- One step of a goroutine running `ForwardUDP`. A request that is not
full-cone touches neither the table nor a full-cone conn and is served in
one step. -/
def Stack.forwardStep (addrString : UDPAddr → String) (ipFilterLookup : List Nat → Bool)
    (rr : ForwarderRequest) (reply : StackReply) (pick : Nat) :
    FwdPC × Stack → FwdPC × Stack
  | (FwdPC.start, s) =>
    match PickConnType ipFilterLookup ⟨rr.ID.LocalAddress, rr.ID.LocalPort⟩ with
    | PacketConnType.ConnType2 =>
      match s.Get (flowKey addrString rr) with
      | some p => (FwdPC.hit p, s)
      | none => (FwdPC.missed, s)
    | _ =>
      match Stack.ForwardUDP addrString ipFilterLookup s rr reply pick with
      | Run.done s1 => (FwdPC.finished, s1)
      | _ => (FwdPC.stuck, s)
  | (FwdPC.hit p, s) =>
    match s.heap2[p]? with
    | none => (FwdPC.stuck, s)
    | some conn =>
      match conn.HandleRequest rr reply with
      | (conn1, evs, some e) =>
        (FwdPC.finished, { s with
          heap2 := s.heap2.set p conn1
          trace := s.trace ++ evs ++ [Event.logError "ForwardUDP2 error: " e] })
      | (conn1, evs, none) =>
        (FwdPC.finished, { s with heap2 := s.heap2.set p conn1, trace := s.trace ++ evs })
  | (FwdPC.missed, s) =>
    match rr.CreateUDPConn2 reply pick with
    | (_, Run.panic) => (FwdPC.stuck, s)
    | (_, Run.blocked) => (FwdPC.stuck, s)
    | (evs, Run.done (Except.error e)) =>
      (FwdPC.finished, { s with
        trace := s.trace ++ evs ++ [Event.logError "ForwardUDP2 error: " e] })
    | (evs, Run.done (Except.ok conn)) =>
      let conn1 := { conn with Delete := some DeleteFn.stackDel }
      (FwdPC.created s.heap2.length,
        { s with heap2 := s.heap2 ++ [conn1], trace := s.trace ++ evs })
  | (FwdPC.created p, s) => (FwdPC.added p, s.Add (flowKey addrString rr) p)
  | (FwdPC.added p, s) =>
    (FwdPC.finished, { s with trace := s.trace ++ [Event.goHandlePacket2 p] })
  | (FwdPC.finished, s) => (FwdPC.finished, s)
  | (FwdPC.stuck, s) => (FwdPC.stuck, s)

/-- Two goroutines, each running `ForwardUDP` for its own request, on one
stack. -/
structure Race where
  pc1 : FwdPC
  pc2 : FwdPC
  stack : Stack

/-- One step of the race: the second goroutine moves when `second` is true,
the first otherwise. -/
def Race.step (addrString : UDPAddr → String) (ipFilterLookup : List Nat → Bool)
    (rr1 rr2 : ForwarderRequest) (reply1 reply2 : StackReply) (pick1 pick2 : Nat)
    (r : Race) (second : Bool) : Race :=
  if second then
    let (pc, s) := Stack.forwardStep addrString ipFilterLookup rr2 reply2 pick2 (r.pc2, r.stack)
    { r with pc2 := pc, stack := s }
  else
    let (pc, s) := Stack.forwardStep addrString ipFilterLookup rr1 reply1 pick1 (r.pc1, r.stack)
    { r with pc1 := pc, stack := s }

/-- The race run along a schedule. -/
def Race.run (addrString : UDPAddr → String) (ipFilterLookup : List Nat → Bool)
    (rr1 rr2 : ForwarderRequest) (reply1 reply2 : StackReply) (pick1 pick2 : Nat)
    (r : Race) (schedule : List Bool) : Race :=
  schedule.foldl (Race.step addrString ipFilterLookup rr1 rr2 reply1 reply2 pick1 pick2) r

/-- The steps of one goroutine run without interruption, at most `n` of them. -/
def Stack.forwardSolo (addrString : UDPAddr → String) (ipFilterLookup : List Nat → Bool)
    (rr : ForwarderRequest) (reply : StackReply) (pick : Nat) :
    Nat → FwdPC × Stack → FwdPC × Stack
  | 0, x => x
  | n + 1, x =>
    Stack.forwardSolo addrString ipFilterLookup rr reply pick n
      (Stack.forwardStep addrString ipFilterLookup rr reply pick x)

/-! ## Derived notions used in the statements -/

/-- A datagram is well-formed when its UDP header can be read and the
length field does not exceed the payload size plus the 8-byte header: the
negation of the malformed test of `HandlePacket`. -/
def PacketBuffer.wellFormed (pkt : PacketBuffer) : Bool :=
  match UDPLength pkt.TransportHeader with
  | some len => decide (len ≤ pkt.Data.length + UDPMinimumSize)
  | none => false

/-- The queue entry `UDPConn2.HandlePacket` builds for a datagram: the
payload tagged with the local part of the ID (the datagram's destination). -/
def packet2 (id : TransportEndpointID) (pkt : PacketBuffer) : Packet :=
  ⟨NetAddr.udp ⟨id.LocalAddress, id.LocalPort⟩, pkt.Data⟩

/-- The queue entry `UDPConn3.HandlePacket` builds for a datagram: the
payload tagged with the remote part of the ID (the datagram's source). -/
def packet3 (id : TransportEndpointID) (pkt : PacketBuffer) : Packet :=
  ⟨NetAddr.udp ⟨id.RemoteAddress, id.RemotePort⟩, pkt.Data⟩

/-- Datagrams handed in order to `UDPConn2.HandlePacket`, each with the
random choice of its `select`. -/
def UDPConn2.feed (c : UDPConn2) : List (TransportEndpointID × PacketBuffer × Nat) → Run UDPConn2
  | [] => Run.done c
  | (id, pkt, pick) :: rest =>
    (c.HandlePacket id pkt pick).2.bind fun c1 => UDPConn2.feed c1 rest

/-- Datagrams handed in order to `UDPConn3.HandlePacket`. -/
def UDPConn3.feed (c : UDPConn3) : List (TransportEndpointID × PacketBuffer × Nat) → Run UDPConn3
  | [] => Run.done c
  | (id, pkt, pick) :: rest =>
    (c.HandlePacket id pkt pick).2.bind fun c1 => UDPConn3.feed c1 rest

/-- Successive `ReadTo` calls on a full-cone conn, one per buffer, with no
expired deadline: the results in order and the conn afterwards. -/
def UDPConn2.readMany (c : UDPConn2) : List (List Nat × Nat) → Run (List ReadResult × UDPConn2)
  | [] => Run.done ([], c)
  | (b, pick) :: rest =>
    (c.ReadTo b false pick).bind fun (r, c1) =>
      (UDPConn2.readMany c1 rest).bind fun (rs, c2) => Run.done (r :: rs, c2)

/-- Successive `ReadFrom` calls on a listener conn, one per buffer, with no
expired deadline. -/
def UDPConn3.readMany (c : UDPConn3) : List (List Nat × Nat) → Run (List ReadResult × UDPConn3)
  | [] => Run.done ([], c)
  | (b, pick) :: rest =>
    (c.ReadFrom b false pick).bind fun (r, c1) =>
      (UDPConn3.readMany c1 rest).bind fun (rs, c2) => Run.done (r :: rs, c2)

/-- What a read returns for a queue entry `p` when the buffer `b` is large
enough: all of the payload, the entry's address and no error. -/
def fullRead (p : Packet) (b : List Nat) : ReadResult :=
  ⟨p.View.length, some p.Addr, none, p.View ++ b.drop p.View.length⟩

/-- What a read returns when it takes the queue entry `p` into the buffer
`b`: the stream branch of `ReadTo` / `ReadFrom`. -/
def dequeueResult (p : Packet) (b : List Nat) : ReadResult :=
  let n := min b.length p.View.length
  ⟨n, some p.Addr, if n < p.View.length then some Err.ErrShortBuffer else none,
    p.View.take n ++ b.drop n⟩

/-- The read result `r` hands the queue entry `p` over into the buffer `b`
(Go `copy` semantics): `n = min(len(b), len(p))`, the first `n` bytes of the
buffer are those of the payload and the rest of the buffer is untouched,
the address is the entry's, and the error is `ErrShortBuffer` exactly when
the buffer is shorter than the payload, nil otherwise. -/
def ReadResult.takes (r : ReadResult) (p : Packet) (b : List Nat) : Prop :=
  r.n = min b.length p.View.length ∧
  r.buf.take r.n = p.View.take r.n ∧
  r.buf.drop r.n = b.drop r.n ∧
  r.buf.length = b.length ∧
  r.addr = some p.Addr ∧
  (r.err = some Err.ErrShortBuffer ↔ b.length < p.View.length) ∧
  (¬ b.length < p.View.length → r.err = none)

/-- The calls `closeEndpoint` makes for a full-cone conn: for each stored
(route, endpoint ID) pair, in order, one unregistration, one port release
and one route release. -/
def UDPConn2.closeCalls (ep : UDPConn2) : List Event :=
  (ep.route.zip ep.tranID).flatMap fun (r, id) =>
    [Event.unregister ep.nicID r.NetProto id ep.unique,
      Event.releasePort r.NetProto id.LocalAddress id.LocalPort,
      Event.routeRelease r]

/-- The conn `CreateUDPConn2` builds for a request and `ForwardUDP` then
equips with its delete callback, when registration succeeds: one route, one
endpoint ID, and the first datagram in the queue unless it is malformed. -/
def firstConn2 (rr : ForwarderRequest) (reply : StackReply) : UDPConn2 :=
  { NewUDPConn2 rr reply with
    Delete := some DeleteFn.stackDel
    route := [rr.Route]
    tranID := [rr.ID]
    stream := if rr.Pkt.wellFormed then [packet2 rr.ID rr.Pkt] else [] }

/-- The counter `HandlePacket` increments for a datagram. -/
def statEvent (pkt : PacketBuffer) : Event :=
  if pkt.wellFormed then Event.receivedInc else Event.malformedInc

/-- The registration call of a full-cone conn with identity `unique` for a
request, with its outcome. -/
def registerEvent (rr : ForwarderRequest) (unique : Nat) (ok : Bool) : Event :=
  Event.register rr.Route.NICID rr.Route.NetProto rr.ID unique ok

/-- The event is an invocation of a handler entry point for a packet-conn. -/
def Event.isHandlerCall : Event → Bool
  | Event.goHandlePacket _ => true
  | Event.goHandlePacket2 _ => true
  | Event.goHandlePacket3 _ => true
  | _ => false

/-- Every full-cone conn of the stack holds at most one queued packet. -/
def Stack.queuesAtMostOne (s : Stack) : Prop :=
  ∀ c ∈ s.heap2, c.stream.length ≤ 1

/-- The invariant of the flow table and the full-cone conns: a conn sits in
the table only under the string form of its remote address, and every
allocated conn has its `Delete` callback set and as many routes as endpoint
IDs. -/
def Stack.Inv (addrString : UDPAddr → String) (s : Stack) : Prop :=
  (∀ (k : String) (p : Nat), s.conns k = some p →
    ∃ c : UDPConn2, s.heap2[p]? = some c ∧ addrString c.raddr = k) ∧
  (∀ (p : Nat) (c : UDPConn2), s.heap2[p]? = some c →
    c.Delete = some DeleteFn.stackDel ∧ c.route.length = c.tranID.length)

/-- The error is one `HandleTCP2` takes for a clean end of the relay: a
timeout (`net.Error` with `Timeout()`), or `io.ErrClosedPipe` or `io.EOF`
under `errors.Is`. -/
def Err.clean (e : Err) : Bool :=
  e.isNetTimeout || Err.is Err.ErrClosedPipe e || Err.is Err.EOF e

/-- A relay direction ended with a non-clean error. -/
def endedNonClean (err : Option Err) : Bool :=
  match err with
  | some e => !e.clean
  | none => false

/-- The chunks that lead to a write: `Copy` skips a read of no bytes. -/
def nonEmptyChunks (chunks : List (List Nat)) : List (List Nat) :=
  chunks.filter fun c => !c.isEmpty

/-- After the writes `hist`, the sink accepts each of the chunks in full
and without error when they are written in order. -/
def acceptsInFull (w : Writer) : List (List Nat) → List (List Nat) → Prop
  | _, [] => True
  | hist, c :: cs =>
    if c.isEmpty then acceptsInFull w hist cs
    else w hist c = (c.length, none) ∧ acceptsInFull w (hist ++ [c]) cs

/-- The reads of a source that yields the chunks without error. -/
def chunkReads (chunks : List (List Nat)) : ReadScript :=
  chunks.map fun c => (c, none)

/-- The calls of `r.WritePacket` among the calls of a send, in order. -/
def writtenPackets : List SendEvent → List WrittenPacket
  | [] => []
  | SendEvent.writePacket p :: evs => p :: writtenPackets evs
  | _ :: evs => writtenPackets evs

/-- The first nibble of a frame: the high four bits of its first byte; none
for the empty frame. -/
def firstNibble (b : List Nat) : Option Nat :=
  b.head?.map fun b0 => b0 % 256 / 16

/-- The handler invocations among the calls of `ForwardTCP`, in order. -/
def tcpHandlerCalls (evs : List TCPFwdEvent) : List TCPFwdEvent :=
  evs.filter fun e =>
    match e with
    | TCPFwdEvent.goHandle _ => true
    | _ => false

/-- The handshake completions among the calls of `ForwardTCP`: the
`sendReset` arguments of the `r.Complete` calls, in order (false accepts,
true rejects). -/
def completions : List TCPFwdEvent → List Bool
  | [] => []
  | TCPFwdEvent.complete sendReset :: evs => sendReset :: completions evs
  | _ :: evs => completions evs

/-- A sequence of `HandleRequest` calls on a full-cone conn, each with the
answer of the embedded stack to its registration: the conn afterwards and
the calls made. -/
def UDPConn2.handleRequests (c : UDPConn2) :
    List (ForwarderRequest × StackReply) → UDPConn2 × List Event
  | [] => (c, [])
  | (rr, reply) :: rest =>
    let (c1, evs, _) := c.HandleRequest rr reply
    let (c2, evs2) := UDPConn2.handleRequests c1 rest
    (c2, evs ++ evs2)

/-- The calls `closeEndpoint` makes for the (route, endpoint ID) pair of a
request. -/
def requestCalls (c : UDPConn2) (rr : ForwarderRequest) : List Event :=
  [Event.unregister c.nicID rr.Route.NetProto rr.ID c.unique,
    Event.releasePort rr.Route.NetProto rr.ID.LocalAddress rr.ID.LocalPort,
    Event.routeRelease rr.Route]

/-! ## Sample data -/

/-- A full-cone conn that is open, holds ten queued packets and has its
`Delete` callback set. -/
def fullConn2 : UDPConn2 :=
  { Delete := some DeleteFn.stackDel
    route := [⟨1, 2048, [10, 0, 0, 1], [10, 0, 0, 2]⟩]
    closed := false
    stream := List.replicate 10 ⟨NetAddr.udp ⟨[10, 0, 0, 1], 4000⟩, [7]⟩
    addr := ⟨[10, 0, 0, 1], 4000⟩
    raddr := ⟨[10, 0, 0, 2], 5000⟩
    nicID := 1
    unique := 1
    tranID := [⟨4000, [10, 0, 0, 1], 5000, [10, 0, 0, 2]⟩] }

/-- A listener conn that is open and holds ten queued packets. -/
def fullConn3 : UDPConn3 :=
  { route := ⟨1, 2048, [10, 0, 0, 1], [10, 0, 0, 2]⟩
    closed := false
    stream := List.replicate 10 ⟨NetAddr.udp ⟨[10, 0, 0, 2], 5000⟩, [7]⟩
    addr := ⟨[10, 0, 0, 1], 53⟩
    raddr := ⟨[10, 0, 0, 2], 5000⟩
    nicID := 1
    unique := 2
    tranID := ⟨53, [10, 0, 0, 1], 0, []⟩ }

/-- A well-formed datagram: a header whose length field is 9 and one byte
of payload. -/
def oneByteDatagram : PacketBuffer :=
  ⟨[19, 136, 15, 160, 0, 9, 0, 0], [42]⟩

/-- The endpoint ID of a datagram from `10.0.0.2:5000` to `10.0.0.1:4000`. -/
def sampleID : TransportEndpointID :=
  ⟨4000, [10, 0, 0, 1], 5000, [10, 0, 0, 2]⟩

/-- An open full-cone conn with an empty queue. -/
def emptyConn2 : UDPConn2 :=
  { fullConn2 with stream := [] }

/-- An open listener conn with an empty queue. -/
def emptyConn3 : UDPConn3 :=
  { fullConn3 with stream := [] }

/-- Two well-formed datagrams with payloads `[42]` and `[1, 2, 3]`. -/
def sampleDatagrams : List (TransportEndpointID × PacketBuffer × Nat) :=
  [(sampleID, oneByteDatagram, 0),
    (⟨4001, [10, 0, 0, 9], 5000, [10, 0, 0, 2]⟩, ⟨[19, 136, 15, 161, 0, 11, 0, 0], [1, 2, 3]⟩, 5)]

/-- Two read buffers of four bytes each. -/
def sampleBuffers : List (List Nat × Nat) :=
  [([0, 0, 0, 0], 0), ([9, 9, 9, 9], 3)]

/-- A full-cone conn holding one packet with the payload `[1, 2, 3]`. -/
def onePacketConn2 : UDPConn2 :=
  { fullConn2 with stream := [⟨NetAddr.udp ⟨[10, 0, 0, 1], 4000⟩, [1, 2, 3]⟩] }

/-- A listener conn holding one packet with the payload `[1, 2, 3]`. -/
def onePacketConn3 : UDPConn3 :=
  { fullConn3 with stream := [⟨NetAddr.udp ⟨[10, 0, 0, 1], 4000⟩, [1, 2, 3]⟩] }

/-- A stand-in for `net.UDPAddr.String` on sample data: the bytes of the
address in decimal, joined by dots, then a colon and the port. -/
def dottedString (a : UDPAddr) : String :=
  String.intercalate "." (a.IP.map toString) ++ ":" ++ toString a.Port

/-- An IP filter that holds no address. -/
def emptyFilter : List Nat → Bool :=
  fun _ => false

/-- The first datagram of a flow from `10.0.0.2:5000` to `10.0.0.1:4000`. -/
def sampleRequest : ForwarderRequest :=
  ⟨⟨1, 2048, [10, 0, 0, 1], [10, 0, 0, 2]⟩, sampleID, oneByteDatagram⟩

/-- The first datagram of a second flow from the same source,
`10.0.0.2:5000`, to another destination, `10.0.0.9:4001`. -/
def secondRequest : ForwarderRequest :=
  ⟨⟨1, 2048, [10, 0, 0, 9], [10, 0, 0, 2]⟩, ⟨4001, [10, 0, 0, 9], 5000, [10, 0, 0, 2]⟩,
    ⟨[19, 136, 15, 161, 0, 11, 0, 0], [1, 2, 3]⟩⟩

/-- The embedded stack accepts every registration and hands out 7 as
unique ID. -/
def sampleReply : StackReply :=
  ⟨none, none, 7⟩

/-- The stack after `ForwardUDP` has served `sampleRequest` on a fresh
stack: one full-cone conn, at pointer 0, under the key of the request. -/
def sampleStack : Stack :=
  { conns := Function.update Stack.init.conns (flowKey dottedString sampleRequest)
      (some Stack.init.heap2.length)
    heap2 := Stack.init.heap2 ++ [firstConn2 sampleRequest sampleReply]
    heap3 := Stack.init.heap3
    trace := Stack.init.trace
      ++ [registerEvent sampleRequest sampleReply.uniqueID true, statEvent sampleRequest.Pkt]
      ++ [Event.goHandlePacket2 Stack.init.heap2.length] }

/-- The first datagram of a flow from `10.0.0.2:5000` to `10.0.0.1:4000`
whose UDP length field (100) exceeds its one byte of payload plus 8. -/
def malformedRequest : ForwarderRequest :=
  ⟨⟨1, 2048, [10, 0, 0, 1], [10, 0, 0, 2]⟩, sampleID, ⟨[19, 136, 15, 160, 0, 100, 0, 0], [42]⟩⟩

/-- Two goroutines about to serve their requests on a fresh stack. -/
def raceStart : Race :=
  ⟨FwdPC.start, FwdPC.start, Stack.init⟩

/-- Both goroutines look the key up before either inserts: the first does
`Get`, the second does `Get`, then the first runs to its end, then the
second. -/
def racySchedule : List Bool :=
  [false, true, false, false, false, true, true, true]

/-- The first goroutine runs to its end, then the second. -/
def sequentialSchedule : List Bool :=
  [false, false, false, false, true, true]

/-- The handler invocations of a trace, in order. -/
def handlerCalls (t : List Event) : List Event :=
  t.filter Event.isHandlerCall

/-- A stack whose IP filter holds every address and whose reverse lookup
reports `ErrNotFound` for every address. -/
def notFoundStack : NetStack :=
  { ipFilterLookup := fun _ => true
    LookupAddr := fun _ => (none, some Err.ErrNotFound)
    handlerResult := fun _ _ => none
    dialErr := fun _ => none
    relayErr := fun _ => none }

/-- An accepted TCP flow from `10.0.0.2:5000` to `198.18.0.7:443`. -/
def sampleTCPConn : TCPConn :=
  ⟨1, some (NetAddr.tcp [198, 18, 0, 7] 443), some (NetAddr.tcp [10, 0, 0, 2] 5000)⟩

/-- A stack whose IP filter holds every address and whose reverse lookup
recovers the domain-form address `example:443` for every address. -/
def fakeIPStack : NetStack :=
  { ipFilterLookup := fun _ => true
    LookupAddr := fun _ => (some (NetAddr.domain [3, 7, 101, 120, 97, 109, 112, 108, 101, 1, 187]), none)
    handlerResult := fun _ _ => none
    dialErr := fun _ => none
    relayErr := fun _ => none }

/-- A stack on which every dial succeeds and every relay has its own
direction end with a timeout and the other direction end with a connection
reset. -/
def maskingStack : NetStack :=
  { ipFilterLookup := fun _ => false
    LookupAddr := fun _ => (none, some Err.ErrNotFake)
    handlerResult := fun _ _ => none
    dialErr := fun _ => none
    relayErr := fun _ =>
      (Relay true (some Err.timeout) (some (Err.msg "connection reset by peer"))).err }

/-- A sink that accepts every write in full. -/
def fullWriter : Writer :=
  fun _ d => (d.length, none)

/-- A sink that accepts at most two bytes of every write, without error. -/
def twoByteWriter : Writer :=
  fun _ d => (min 2 d.length, none)

/-- A stack on which every dial succeeds and every relay has its own
direction end without error and the other direction end with a connection
reset. -/
def resetStack : NetStack :=
  { ipFilterLookup := fun _ => false
    LookupAddr := fun _ => (none, some Err.ErrNotFake)
    handlerResult := fun _ _ => none
    dialErr := fun _ => none
    relayErr := fun _ => (Relay true none (some (Err.msg "connection reset by peer"))).err }

/-- A stand-in for the gVisor route methods on sample data: no TX checksum
offload, sums modulo `2^16` in place of the Internet checksum, TTL 64,
every write succeeds. -/
def plainLib : RouteLib :=
  { txChecksumOffload := fun _ => false
    PseudoHeaderChecksum := fun _ len => len
    Checksum := fun buf initial => (initial + buf.sum) % 65536
    DefaultTTL := fun _ => 64
    writeErr := fun _ => none }

/-- An IPv4 route from `10.0.0.1` to `10.0.0.2`. -/
def route4 : Route :=
  ⟨1, IPv4ProtocolNumber, [10, 0, 0, 1], [10, 0, 0, 2]⟩

/-- The IPv6 address `2001:db8::1`. -/
def addr6 : List Nat :=
  [32, 1, 13, 184, 0, 0, 0, 0, 0, 0, 0, 0, 0, 0, 0, 1]

/-- The IPv4-mapped IPv6 address `::ffff:10.0.0.2`. -/
def mapped6 : List Nat :=
  [0, 0, 0, 0, 0, 0, 0, 0, 0, 0, 255, 255, 10, 0, 0, 2]

/-- A stand-in for `net.UDPAddr.String` that, like it, prints an
IPv4-mapped address as the IPv4 address. -/
def mappedString (a : UDPAddr) : String :=
  dottedString ⟨(To4 a.IP).getD a.IP, a.Port⟩

/-- The first datagram of an IPv6 flow from `[::ffff:10.0.0.2]:5000` to
`[2001:db8::1]:4001`; its source prints as `10.0.0.2:5000`. -/
def mappedRequest : ForwarderRequest :=
  ⟨⟨1, IPv6ProtocolNumber, addr6, mapped6⟩, ⟨4001, addr6, 5000, mapped6⟩,
    ⟨[19, 136, 15, 161, 0, 11, 0, 0], [1, 2, 3]⟩⟩

/-- An open listener conn whose queue holds one DNS query of 1024 bytes. -/
def bigQueryConn : UDPConn3 :=
  { fullConn3 with stream := [⟨NetAddr.udp ⟨[10, 0, 0, 2], 5000⟩, List.replicate 1024 7⟩] }

/-- The embedded stack refuses the registration. -/
def refusingReply : StackReply :=
  ⟨some "port is in use", none, 7⟩

/-- The number of closing calls a relay goroutine has made when it stands
at `pc`. -/
def RelayPC.callsMade : RelayPC → Nat
  | RelayPC.copying => 0
  | RelayPC.copied => 0
  | RelayPC.closedOne => 1
  | RelayPC.closedBoth => 2
  | RelayPC.returned => 2

/-- The state of the relay when its goroutines stand at `pc` and `pc2`, as
far as `relay err1 err2` fixes it: each has made the first calls of its
list, `errCh` holds the error of `relay2` from its send to the receive, and
`relay` returns what the function gives. -/
def relayStateAt (err1 err2 : Option Err) (pc pc2 : RelayPC) : RelayState :=
  { pc := pc
    pc2 := pc2
    calls := (relay err1 err2).calls.take pc.callsMade
    calls2 := (relay err1 err2).calls2.take pc2.callsMade
    errCh := if pc2 = RelayPC.returned ∧ pc ≠ RelayPC.returned then some err2 else none
    result := if pc = RelayPC.returned then some (relay err1 err2).err else none }

/-- The schedule that lets `relay2` make four steps and then `relay` four. -/
def finishingSchedule : List Bool :=
  [true, true, true, true, false, false, false, false]

/-- The schedule in which the goroutine of `relay` runs as far as it can
before `relay2` makes its first step. -/
def relayFirstSchedule : List Bool :=
  [false, false, false, false, false, true, true, true, true, false]

/-- A malformed datagram: a header whose length field is 300 and one byte
of payload. -/
def oversizedDatagram : PacketBuffer :=
  ⟨[19, 136, 15, 160, 1, 44, 0, 0], [42]⟩

/-! ## Theorems: flow classification -/

/-- C1 (as stated, refuted): the destination `198.19.0.1:80` lies in
`198.18.0.0/15`, yet `PickConnType` returns the full-cone shape for it, not
the symmetric one, whatever the IP filter holds. -/
theorem C1_pick_symmetric_fails_on_198_19 :
    inFakeRange15 [198, 19, 0, 1] ∧
      (∀ f : List Nat → Bool,
        PickConnType f ⟨[198, 19, 0, 1], 80⟩ = PacketConnType.ConnType2) ∧
      ¬ (∀ (f : List Nat → Bool) (ip : List Nat) (port : Nat), inFakeRange15 ip →
        PickConnType f ⟨ip, port⟩ = PacketConnType.ConnType) := by
  have h15 : inFakeRange15 [198, 19, 0, 1] :=
    ⟨19, 0, 1, rfl, Or.inr rfl, by decide, by decide⟩
  refine ⟨h15, ?_, ?_⟩
  · intro f
    simp [PickConnType, fakeGuard, To4]
  · intro h
    have := h (fun _ => false) [198, 19, 0, 1] 80 h15
    simp [PickConnType, fakeGuard, To4] at this

/-- C1 (amended): for every UDP destination whose IPv4 address lies in
`198.18.0.0/16` (first two octets 198 and 18), for every port and every
IP-filter content, `PickConnType` returns the symmetric shape. -/
theorem C1_pick_symmetric_on_198_18 (f : List Nat → Bool) (ip : List Nat) (port : Nat)
    (h : inFakeRange16 ip) :
    PickConnType f ⟨ip, port⟩ = PacketConnType.ConnType := by
  obtain ⟨c, d, h4, _, _⟩ := h
  simp [PickConnType, fakeGuard, h4]

/-- Witness for C1 (amended) at `198.18.7.9:53` with a filter holding every
address. -/
theorem C1_pick_symmetric_on_198_18_witness :
    inFakeRange16 [198, 18, 7, 9] ∧
      PickConnType (fun _ => true) ⟨[198, 18, 7, 9], 53⟩ = PacketConnType.ConnType :=
  ⟨⟨7, 9, rfl, by decide, by decide⟩,
    C1_pick_symmetric_on_198_18 (fun _ => true) [198, 18, 7, 9] 53
      ⟨7, 9, rfl, by decide, by decide⟩⟩

/-- C2: whenever `PickConnType` does not classify a destination as symmetric,
it returns the listener shape exactly when the port is 53 and the IP is not
in the IP filter, and the full-cone shape in every other case; and the
result is always one of the three shapes. -/
theorem C2_pick_listener_or_fullcone (f : List Nat → Bool) (addr : UDPAddr) :
    (PickConnType f addr ≠ PacketConnType.ConnType →
      ((PickConnType f addr = PacketConnType.ConnType3 ↔
          (addr.Port = 53 ∧ f addr.IP = false)) ∧
       (¬ (addr.Port = 53 ∧ f addr.IP = false) →
          PickConnType f addr = PacketConnType.ConnType2))) ∧
    (PickConnType f addr = PacketConnType.ConnType ∨
      PickConnType f addr = PacketConnType.ConnType2 ∨
      PickConnType f addr = PacketConnType.ConnType3) := by
  unfold PickConnType
  cases hs : fakeGuard addr.IP <;>
    by_cases hp : addr.Port = 53 <;> cases hf : f addr.IP <;> simp [hp, hf]

/-- Witness for C2: `8.8.8.8:53` with an empty IP filter is not symmetric and
gets the listener shape. -/
theorem C2_pick_listener_or_fullcone_witness :
    PickConnType (fun _ => false) ⟨[8, 8, 8, 8], 53⟩ = PacketConnType.ConnType3 :=
  ((C2_pick_listener_or_fullcone (fun _ => false) ⟨[8, 8, 8, 8], 53⟩).1
    (by simp [PickConnType, fakeGuard, To4])).1.2 ⟨rfl, rfl⟩

/-! ## Auxiliary lemmas -/

@[simp]
theorem Run.bind_done {α β : Type} (a : α) (f : α → Run β) :
    (Run.done a).bind f = f a := rfl

@[simp]
theorem Run.bind_blocked {α β : Type} (f : α → Run β) :
    (Run.blocked : Run α).bind f = Run.blocked := rfl

@[simp]
theorem Run.bind_panic {α β : Type} (f : α → Run β) :
    (Run.panic : Run α).bind f = Run.panic := rfl

@[simp]
theorem selectCase_nil {α : Type} (pick : Nat) :
    selectCase ([] : List α) pick = none := by
  simp [selectCase]

@[simp]
theorem selectCase_singleton {α : Type} (a : α) (pick : Nat) :
    selectCase [a] pick = some a := by
  simp [selectCase, Nat.mod_one]

theorem wellFormed_iff (pkt : PacketBuffer) :
    pkt.wellFormed = true ↔
      ∃ len, UDPLength pkt.TransportHeader = some len ∧
        len ≤ pkt.Data.length + UDPMinimumSize := by
  unfold PacketBuffer.wellFormed
  cases h : UDPLength pkt.TransportHeader <;> simp

/-- On an open full-cone conn with room in the queue a well-formed datagram is enqueued. -/
theorem conn2_HandlePacket_open_room (c : UDPConn2) (id : TransportEndpointID)
    (pkt : PacketBuffer) (pick : Nat) (hopen : c.closed = false)
    (hroom : c.stream.length < streamCap) (hwf : pkt.wellFormed = true) :
    c.HandlePacket id pkt pick =
      ([Event.receivedInc], Run.done { c with stream := c.stream ++ [packet2 id pkt] }) := by
  obtain ⟨len, hlen, hle⟩ := (wellFormed_iff pkt).1 hwf
  simp [UDPConn2.HandlePacket, hlen, Nat.not_lt.2 hle, hopen, hroom, packet2]

/-- On an open full-cone conn with a full queue a well-formed datagram parks the caller. -/
theorem conn2_HandlePacket_open_full (c : UDPConn2) (id : TransportEndpointID)
    (pkt : PacketBuffer) (pick : Nat) (hopen : c.closed = false)
    (hfull : c.stream.length = streamCap) (hwf : pkt.wellFormed = true) :
    c.HandlePacket id pkt pick = ([Event.receivedInc], Run.blocked) := by
  obtain ⟨len, hlen, hle⟩ := (wellFormed_iff pkt).1 hwf
  simp [UDPConn2.HandlePacket, hlen, Nat.not_lt.2 hle, hopen, hfull]

/-- On a closed full-cone conn with a full queue a well-formed datagram is dropped. -/
theorem conn2_HandlePacket_closed_full (c : UDPConn2) (id : TransportEndpointID)
    (pkt : PacketBuffer) (pick : Nat) (hclosed : c.closed = true)
    (hfull : c.stream.length = streamCap) (hwf : pkt.wellFormed = true) :
    c.HandlePacket id pkt pick = ([Event.receivedInc], Run.done c) := by
  obtain ⟨len, hlen, hle⟩ := (wellFormed_iff pkt).1 hwf
  simp [UDPConn2.HandlePacket, hlen, Nat.not_lt.2 hle, hclosed, hfull]

/-- The queue bound is kept by `UDPConn2.HandlePacket`. -/
theorem conn2_HandlePacket_bound (c c1 : UDPConn2) (id : TransportEndpointID)
    (pkt : PacketBuffer) (pick : Nat) (hb : c.stream.length ≤ streamCap)
    (h : (c.HandlePacket id pkt pick).2 = Run.done c1) :
    c1.stream.length ≤ streamCap := by
  unfold UDPConn2.HandlePacket at h
  split at h
  · simp at h
  · split at h
    · simp at h; subst h; exact hb
    · simp only at h
      split at h
      · simp at h
      · simp at h; subst h; exact hb
      · rename_i hsel
        simp at h; subst h
        by_cases hroom : c.stream.length < streamCap
        · simp; omega
        · exfalso
          cases hc : c.closed <;> simp [hc, hroom] at hsel

/-- On an open listener conn with room in the queue a well-formed datagram is enqueued. -/
theorem conn3_HandlePacket_open_room (c : UDPConn3) (id : TransportEndpointID)
    (pkt : PacketBuffer) (pick : Nat) (hopen : c.closed = false)
    (hroom : c.stream.length < streamCap) (hwf : pkt.wellFormed = true) :
    c.HandlePacket id pkt pick =
      ([Event.receivedInc], Run.done { c with stream := c.stream ++ [packet3 id pkt] }) := by
  obtain ⟨len, hlen, hle⟩ := (wellFormed_iff pkt).1 hwf
  simp [UDPConn3.HandlePacket, hlen, Nat.not_lt.2 hle, hopen, hroom, packet3]

/-- On an open listener conn with a full queue a well-formed datagram parks the caller. -/
theorem conn3_HandlePacket_open_full (c : UDPConn3) (id : TransportEndpointID)
    (pkt : PacketBuffer) (pick : Nat) (hopen : c.closed = false)
    (hfull : c.stream.length = streamCap) (hwf : pkt.wellFormed = true) :
    c.HandlePacket id pkt pick = ([Event.receivedInc], Run.blocked) := by
  obtain ⟨len, hlen, hle⟩ := (wellFormed_iff pkt).1 hwf
  simp [UDPConn3.HandlePacket, hlen, Nat.not_lt.2 hle, hopen, hfull]

/-- On a closed listener conn with a full queue a well-formed datagram is dropped. -/
theorem conn3_HandlePacket_closed_full (c : UDPConn3) (id : TransportEndpointID)
    (pkt : PacketBuffer) (pick : Nat) (hclosed : c.closed = true)
    (hfull : c.stream.length = streamCap) (hwf : pkt.wellFormed = true) :
    c.HandlePacket id pkt pick = ([Event.receivedInc], Run.done c) := by
  obtain ⟨len, hlen, hle⟩ := (wellFormed_iff pkt).1 hwf
  simp [UDPConn3.HandlePacket, hlen, Nat.not_lt.2 hle, hclosed, hfull]

/-- The queue bound is kept by `UDPConn3.HandlePacket`. -/
theorem conn3_HandlePacket_bound (c c1 : UDPConn3) (id : TransportEndpointID)
    (pkt : PacketBuffer) (pick : Nat) (hb : c.stream.length ≤ streamCap)
    (h : (c.HandlePacket id pkt pick).2 = Run.done c1) :
    c1.stream.length ≤ streamCap := by
  unfold UDPConn3.HandlePacket at h
  split at h
  · simp at h
  · split at h
    · simp at h; subst h; exact hb
    · simp only at h
      split at h
      · simp at h
      · simp at h; subst h; exact hb
      · rename_i hsel
        simp at h; subst h
        by_cases hroom : c.stream.length < streamCap
        · simp; omega
        · exfalso
          cases hc : c.closed <;> simp [hc, hroom] at hsel

/-! ## Theorems: the bounded inbound queue -/

/-- C5 (as stated, refuted): on an open full-cone conn and on an open
listener conn whose queue holds 10 packets, `HandlePacket` with a
well-formed datagram does not return, whatever the random choice of the
`select`: the caller is parked on the channel send. -/
theorem C5_full_queue_blocks :
    oneByteDatagram.wellFormed = true ∧
    fullConn2.closed = false ∧ fullConn2.stream.length = 10 ∧
    fullConn3.closed = false ∧ fullConn3.stream.length = 10 ∧
    (∀ pick, (fullConn2.HandlePacket sampleID oneByteDatagram pick).2 = Run.blocked) ∧
    (∀ pick, (fullConn3.HandlePacket sampleID oneByteDatagram pick).2 = Run.blocked) := by
  refine ⟨by decide, rfl, rfl, rfl, rfl, ?_, ?_⟩
  · intro pick
    rw [conn2_HandlePacket_open_full fullConn2 sampleID oneByteDatagram pick rfl rfl
      (by decide)]
  · intro pick
    rw [conn3_HandlePacket_open_full fullConn3 sampleID oneByteDatagram pick rfl rfl
      (by decide)]

/-- C5 (amended): for an open full-cone or listener conn whose queue holds
10 packets, `HandlePacket` with a well-formed datagram parks its caller and
leaves the queue as it is; the parked call goes through once a packet has
been taken off the queue (the datagram is then enqueued last) and returns
without enqueuing once the conn has been closed; and no call of
`HandlePacket` makes a queue of at most 10 packets longer than 10. -/
theorem C5_full_queue_parks_until_room_or_close
    (c : UDPConn2) (l : UDPConn3) (id : TransportEndpointID) (pkt : PacketBuffer)
    (pick : Nat) (hwf : pkt.wellFormed = true)
    (hc : c.closed = false) (hcfull : c.stream.length = streamCap)
    (hl : l.closed = false) (hlfull : l.stream.length = streamCap) :
    (c.HandlePacket id pkt pick).2 = Run.blocked ∧
    ({ c with stream := c.stream.tail }.HandlePacket id pkt pick).2 =
      Run.done { c with stream := c.stream.tail ++ [packet2 id pkt] } ∧
    ({ c with closed := true }.HandlePacket id pkt pick).2 =
      Run.done { c with closed := true } ∧
    (l.HandlePacket id pkt pick).2 = Run.blocked ∧
    ({ l with stream := l.stream.tail }.HandlePacket id pkt pick).2 =
      Run.done { l with stream := l.stream.tail ++ [packet3 id pkt] } ∧
    ({ l with closed := true }.HandlePacket id pkt pick).2 =
      Run.done { l with closed := true } ∧
    (∀ (c0 c1 : UDPConn2) (id0 : TransportEndpointID) (pkt0 : PacketBuffer) (pick0 : Nat),
      c0.stream.length ≤ streamCap →
      (c0.HandlePacket id0 pkt0 pick0).2 = Run.done c1 → c1.stream.length ≤ streamCap) ∧
    (∀ (l0 l1 : UDPConn3) (id0 : TransportEndpointID) (pkt0 : PacketBuffer) (pick0 : Nat),
      l0.stream.length ≤ streamCap →
      (l0.HandlePacket id0 pkt0 pick0).2 = Run.done l1 → l1.stream.length ≤ streamCap) := by
  have hct : c.stream.tail.length < streamCap := by
    rw [List.length_tail, hcfull]; decide
  have hlt : l.stream.tail.length < streamCap := by
    rw [List.length_tail, hlfull]; decide
  refine ⟨?_, ?_, ?_, ?_, ?_, ?_, ?_, ?_⟩
  · rw [conn2_HandlePacket_open_full c id pkt pick hc hcfull hwf]
  · rw [conn2_HandlePacket_open_room { c with stream := c.stream.tail } id pkt pick hc
      hct hwf]
  · rw [conn2_HandlePacket_closed_full { c with closed := true } id pkt pick rfl
      hcfull hwf]
  · rw [conn3_HandlePacket_open_full l id pkt pick hl hlfull hwf]
  · rw [conn3_HandlePacket_open_room { l with stream := l.stream.tail } id pkt pick hl
      hlt hwf]
  · rw [conn3_HandlePacket_closed_full { l with closed := true } id pkt pick rfl
      hlfull hwf]
  · intro c0 c1 id0 pkt0 pick0 hb h
    exact conn2_HandlePacket_bound c0 c1 id0 pkt0 pick0 hb h
  · intro l0 l1 id0 pkt0 pick0 hb h
    exact conn3_HandlePacket_bound l0 l1 id0 pkt0 pick0 hb h

/-- Witness for C5 (amended): the full conns above and a one-byte datagram. -/
theorem C5_full_queue_parks_until_room_or_close_witness :
    (fullConn2.HandlePacket sampleID oneByteDatagram 0).2 = Run.blocked ∧
    ({ fullConn2 with stream := fullConn2.stream.tail }.HandlePacket
        sampleID oneByteDatagram 0).2 =
      Run.done { fullConn2 with
        stream := fullConn2.stream.tail ++ [packet2 sampleID oneByteDatagram] } :=
  let h := C5_full_queue_parks_until_room_or_close fullConn2 fullConn3 sampleID
    oneByteDatagram 0 (by decide) rfl rfl rfl rfl
  ⟨h.1, h.2.1⟩

/-! ## Auxiliary lemmas: reads -/

theorem conn2_ReadTo_open (c : UDPConn2) (b : List Nat) (pick : Nat) (p : Packet)
    (rest : List Packet) (hopen : c.closed = false) (hs : c.stream = p :: rest) :
    c.ReadTo b false pick = Run.done (dequeueResult p b, { c with stream := rest }) := by
  unfold UDPConn2.ReadTo
  simp only [hopen, hs, List.isEmpty_cons, Bool.false_eq_true, if_false, List.nil_append,
    List.append_nil, selectCase_singleton, goCopy, dequeueResult]
  split <;> rfl

theorem conn3_ReadFrom_open (c : UDPConn3) (b : List Nat) (pick : Nat) (p : Packet)
    (rest : List Packet) (hopen : c.closed = false) (hs : c.stream = p :: rest) :
    c.ReadFrom b false pick = Run.done (dequeueResult p b, { c with stream := rest }) := by
  unfold UDPConn3.ReadFrom
  simp only [hopen, hs, List.isEmpty_cons, Bool.false_eq_true, if_false, List.nil_append,
    List.append_nil, selectCase_singleton, goCopy, dequeueResult]
  split <;> rfl

theorem conn2_ReadTo_dequeue (c c1 : UDPConn2) (b : List Nat) (d : Bool) (pick : Nat)
    (p : Packet) (rest : List Packet) (r : ReadResult) (hs : c.stream = p :: rest)
    (h : c.ReadTo b d pick = Run.done (r, c1)) (hne : c1.stream ≠ c.stream) :
    r = dequeueResult p b ∧ c1 = { c with stream := rest } := by
  unfold UDPConn2.ReadTo at h
  simp only [hs] at h
  split at h
  · simp at h
  · simp only [Run.done.injEq, Prod.mk.injEq] at h
    exact absurd (by rw [← h.2]) hne
  · simp only [Run.done.injEq, Prod.mk.injEq] at h
    exact absurd (by rw [← h.2]) hne
  · simp only [goCopy, dequeueResult] at h ⊢
    split at h <;> simp only [Run.done.injEq, Prod.mk.injEq] at h <;>
      rename_i hlt <;> simp [← h.1, ← h.2, hlt]

theorem conn3_ReadFrom_dequeue (c c1 : UDPConn3) (b : List Nat) (d : Bool) (pick : Nat)
    (p : Packet) (rest : List Packet) (r : ReadResult) (hs : c.stream = p :: rest)
    (h : c.ReadFrom b d pick = Run.done (r, c1)) (hne : c1.stream ≠ c.stream) :
    r = dequeueResult p b ∧ c1 = { c with stream := rest } := by
  unfold UDPConn3.ReadFrom at h
  simp only [hs] at h
  split at h
  · simp at h
  · simp only [Run.done.injEq, Prod.mk.injEq] at h
    exact absurd (by rw [← h.2]) hne
  · simp only [Run.done.injEq, Prod.mk.injEq] at h
    exact absurd (by rw [← h.2]) hne
  · simp only [goCopy, dequeueResult] at h ⊢
    split at h <;> simp only [Run.done.injEq, Prod.mk.injEq] at h <;>
      rename_i hlt <;> simp [← h.1, ← h.2, hlt]

theorem dequeueResult_spec (p : Packet) (b : List Nat) :
    (dequeueResult p b).n = min b.length p.View.length ∧
    (dequeueResult p b).buf.take (dequeueResult p b).n = p.View.take (dequeueResult p b).n ∧
    (dequeueResult p b).buf.length = b.length ∧
    (dequeueResult p b).addr = some p.Addr ∧
    ((dequeueResult p b).err = some Err.ErrShortBuffer ↔ b.length < p.View.length) ∧
    (¬ b.length < p.View.length → (dequeueResult p b).err = none) := by
  simp only [dequeueResult]
  refine ⟨trivial, ?_, ?_, trivial, ?_, ?_⟩
  · rw [List.take_append_of_le_length (by simp)]
    simp
  · simp only [List.length_append, List.length_take, List.length_drop]
    omega
  · constructor
    · intro h
      split at h
      · omega
      · simp at h
    · intro h
      simp [h]
  · intro h
    have : ¬ min b.length p.View.length < p.View.length := by omega
    simp [this]

theorem dequeueResult_fits (p : Packet) (b : List Nat) (h : p.View.length ≤ b.length) :
    dequeueResult p b = fullRead p b := by
  simp [dequeueResult, fullRead, Nat.min_eq_right h]

/-! ## Auxiliary lemmas: sequences of datagrams and reads -/

theorem conn2_feed_open (ds : List (TransportEndpointID × PacketBuffer × Nat)) :
    ∀ c : UDPConn2, c.closed = false → c.stream.length + ds.length ≤ streamCap →
      (∀ d ∈ ds, d.2.1.wellFormed = true) →
      c.feed ds =
        Run.done { c with stream := c.stream ++ ds.map fun d => packet2 d.1 d.2.1 } := by
  induction ds with
  | nil => intro c _ _ _; simp [UDPConn2.feed]
  | cons d ds ih =>
    intro c hopen hlen hwf
    obtain ⟨id, pkt, pick⟩ := d
    simp only [List.length_cons] at hlen
    have hw : pkt.wellFormed = true := hwf (id, pkt, pick) (List.mem_cons_self _ _)
    simp only [UDPConn2.feed]
    rw [conn2_HandlePacket_open_room c id pkt pick hopen (by omega) hw]
    simp only [Run.bind_done]
    rw [ih { c with stream := c.stream ++ [packet2 id pkt] } hopen
      (by simp only [List.length_append, List.length_singleton]; omega)
      (fun d hd => hwf d (List.mem_cons_of_mem _ hd))]
    simp

theorem conn3_feed_open (ds : List (TransportEndpointID × PacketBuffer × Nat)) :
    ∀ c : UDPConn3, c.closed = false → c.stream.length + ds.length ≤ streamCap →
      (∀ d ∈ ds, d.2.1.wellFormed = true) →
      c.feed ds =
        Run.done { c with stream := c.stream ++ ds.map fun d => packet3 d.1 d.2.1 } := by
  induction ds with
  | nil => intro c _ _ _; simp [UDPConn3.feed]
  | cons d ds ih =>
    intro c hopen hlen hwf
    obtain ⟨id, pkt, pick⟩ := d
    simp only [List.length_cons] at hlen
    have hw : pkt.wellFormed = true := hwf (id, pkt, pick) (List.mem_cons_self _ _)
    simp only [UDPConn3.feed]
    rw [conn3_HandlePacket_open_room c id pkt pick hopen (by omega) hw]
    simp only [Run.bind_done]
    rw [ih { c with stream := c.stream ++ [packet3 id pkt] } hopen
      (by simp only [List.length_append, List.length_singleton]; omega)
      (fun d hd => hwf d (List.mem_cons_of_mem _ hd))]
    simp

theorem conn2_readMany_open (ps : List Packet) (bufs : List (List Nat × Nat))
    (hb : List.Forall₂ (fun (p : Packet) (b : List Nat × Nat) => p.View.length ≤ b.1.length)
      ps bufs) :
    ∀ c : UDPConn2, c.closed = false → c.stream = ps →
      c.readMany bufs =
        Run.done (List.zipWith (fun p b => fullRead p b.1) ps bufs,
          { c with stream := [] }) := by
  induction hb with
  | nil => intro c _ hs; simp [UDPConn2.readMany, ← hs]
  | @cons p b ps bufs hpb _ ih =>
    intro c hopen hs
    obtain ⟨buf, pick⟩ := b
    simp only [UDPConn2.readMany]
    rw [conn2_ReadTo_open c buf pick p ps hopen hs]
    simp only [Run.bind_done]
    rw [ih { c with stream := ps } hopen rfl]
    simp [dequeueResult_fits p buf hpb]

theorem conn3_readMany_open (ps : List Packet) (bufs : List (List Nat × Nat))
    (hb : List.Forall₂ (fun (p : Packet) (b : List Nat × Nat) => p.View.length ≤ b.1.length)
      ps bufs) :
    ∀ c : UDPConn3, c.closed = false → c.stream = ps →
      c.readMany bufs =
        Run.done (List.zipWith (fun p b => fullRead p b.1) ps bufs,
          { c with stream := [] }) := by
  induction hb with
  | nil => intro c _ hs; simp [UDPConn3.readMany, ← hs]
  | @cons p b ps bufs hpb _ ih =>
    intro c hopen hs
    obtain ⟨buf, pick⟩ := b
    simp only [UDPConn3.readMany]
    rw [conn3_ReadFrom_open c buf pick p ps hopen hs]
    simp only [Run.bind_done]
    rw [ih { c with stream := ps } hopen rfl]
    simp [dequeueResult_fits p buf hpb]

/-! ## Theorems: order of delivery and truncation -/

/-- C9: at most 10 well-formed datagrams handed in order to `HandlePacket`
of an open full-cone (listener) conn with an empty queue are all accepted
without parking, and successive `ReadTo` (`ReadFrom`) calls with no expired
deadline and buffers at least as long as the payloads return exactly those
payloads in the same order, in full and without error, each with the
address tagged on its datagram; the queue is empty afterwards. -/
theorem C9_reads_return_datagrams_in_order
    (c : UDPConn2) (l : UDPConn3)
    (ds : List (TransportEndpointID × PacketBuffer × Nat)) (bufs : List (List Nat × Nat))
    (hc : c.closed = false) (hce : c.stream = [])
    (hl : l.closed = false) (hle : l.stream = [])
    (hn : ds.length ≤ 10) (hwf : ∀ d ∈ ds, d.2.1.wellFormed = true)
    (hb : List.Forall₂
      (fun (d : TransportEndpointID × PacketBuffer × Nat) (b : List Nat × Nat) =>
        d.2.1.Data.length ≤ b.1.length) ds bufs) :
    (∃ c1 c2, c.feed ds = Run.done c1 ∧
      c1.readMany bufs =
        Run.done (List.zipWith
          (fun d b => (⟨d.2.1.Data.length,
            some (NetAddr.udp ⟨d.1.LocalAddress, d.1.LocalPort⟩), none,
            d.2.1.Data ++ b.1.drop d.2.1.Data.length⟩ : ReadResult)) ds bufs, c2) ∧
      c2.stream = []) ∧
    (∃ l1 l2, l.feed ds = Run.done l1 ∧
      l1.readMany bufs =
        Run.done (List.zipWith
          (fun d b => (⟨d.2.1.Data.length,
            some (NetAddr.udp ⟨d.1.RemoteAddress, d.1.RemotePort⟩), none,
            d.2.1.Data ++ b.1.drop d.2.1.Data.length⟩ : ReadResult)) ds bufs, l2) ∧
      l2.stream = []) := by
  have hcap : streamCap = 10 := rfl
  constructor
  · refine ⟨{ c with stream := c.stream ++ ds.map fun d => packet2 d.1 d.2.1 },
      { c with stream := [] },
      conn2_feed_open ds c hc (by simp [hce, hcap, hn]) hwf, ?_, rfl⟩
    have hb2 : List.Forall₂
        (fun (p : Packet) (b : List Nat × Nat) => p.View.length ≤ b.1.length)
        (ds.map fun d => packet2 d.1 d.2.1) bufs := by
      rw [List.forall₂_map_left_iff]
      exact hb
    rw [conn2_readMany_open _ bufs hb2
      { c with stream := c.stream ++ ds.map fun d => packet2 d.1 d.2.1 } hc (by simp [hce])]
    simp [List.zipWith_map_left, fullRead, packet2]
  · refine ⟨{ l with stream := l.stream ++ ds.map fun d => packet3 d.1 d.2.1 },
      { l with stream := [] },
      conn3_feed_open ds l hl (by simp [hle, hcap, hn]) hwf, ?_, rfl⟩
    have hb3 : List.Forall₂
        (fun (p : Packet) (b : List Nat × Nat) => p.View.length ≤ b.1.length)
        (ds.map fun d => packet3 d.1 d.2.1) bufs := by
      rw [List.forall₂_map_left_iff]
      exact hb
    rw [conn3_readMany_open _ bufs hb3
      { l with stream := l.stream ++ ds.map fun d => packet3 d.1 d.2.1 } hl (by simp [hle])]
    simp [List.zipWith_map_left, fullRead, packet3]

theorem dequeueResult_takes (p : Packet) (b : List Nat) :
    (dequeueResult p b).takes p b := by
  obtain ⟨h1, h2, h3, h4, h5, h6⟩ := dequeueResult_spec p b
  refine ⟨h1, h2, ?_, h3, h4, h5, h6⟩
  simp only [dequeueResult]
  rw [List.drop_append_of_le_length (by simp)]
  simp

/-- Witness for C9: two datagrams through the empty conns above; the reads
return `[42]` from `10.0.0.1:4000` and then `[1, 2, 3]` from
`10.0.0.9:4001` on the full-cone conn. -/
theorem C9_reads_return_datagrams_in_order_witness :
    (∃ c1 c2, emptyConn2.feed sampleDatagrams = Run.done c1 ∧
      c1.readMany sampleBuffers =
        Run.done ([⟨1, some (NetAddr.udp ⟨[10, 0, 0, 1], 4000⟩), none, [42, 0, 0, 0]⟩,
          ⟨3, some (NetAddr.udp ⟨[10, 0, 0, 9], 4001⟩), none, [1, 2, 3, 9]⟩], c2) ∧
      c2.stream = []) ∧
    (∃ l1 l2, emptyConn3.feed sampleDatagrams = Run.done l1 ∧
      l1.readMany sampleBuffers =
        Run.done ([⟨1, some (NetAddr.udp ⟨[10, 0, 0, 2], 5000⟩), none, [42, 0, 0, 0]⟩,
          ⟨3, some (NetAddr.udp ⟨[10, 0, 0, 2], 5000⟩), none, [1, 2, 3, 9]⟩], l2) ∧
      l2.stream = []) :=
  C9_reads_return_datagrams_in_order emptyConn2 emptyConn3 sampleDatagrams sampleBuffers
    rfl rfl rfl rfl (by decide) (by decide)
    (List.Forall₂.cons (by decide) (List.Forall₂.cons (by decide) List.Forall₂.nil))

/-- C10: when a `ReadTo` on a full-cone conn or a `ReadFrom` on a listener
conn takes the head packet `p` of the queue into a buffer `b`, it returns
`n = min(len(b), len(p))` with the first `n` bytes of `b` equal to those of
`p`, the address of the packet, and `ErrShortBuffer` exactly when
`len(b) < len(p)` (nil otherwise); the queue afterwards is the rest of the
queue, so nothing of `p` is left for a later read. On an open conn with no
expired deadline the read does take the head packet. -/
theorem C10_read_copies_and_consumes
    (c : UDPConn2) (l : UDPConn3) (b : List Nat) (p : Packet) (rest : List Packet)
    (pick : Nat) (hcs : c.stream = p :: rest) (hls : l.stream = p :: rest) :
    (∀ (d : Bool) (r : ReadResult) (c1 : UDPConn2),
      c.ReadTo b d pick = Run.done (r, c1) → c1.stream ≠ c.stream →
        r.takes p b ∧ c1 = { c with stream := rest }) ∧
    (c.closed = false →
      ∃ r, c.ReadTo b false pick = Run.done (r, { c with stream := rest }) ∧ r.takes p b) ∧
    (∀ (d : Bool) (r : ReadResult) (l1 : UDPConn3),
      l.ReadFrom b d pick = Run.done (r, l1) → l1.stream ≠ l.stream →
        r.takes p b ∧ l1 = { l with stream := rest }) ∧
    (l.closed = false →
      ∃ r, l.ReadFrom b false pick = Run.done (r, { l with stream := rest }) ∧
        r.takes p b) := by
  refine ⟨?_, ?_, ?_, ?_⟩
  · intro d r c1 h hne
    obtain ⟨hr, hc1⟩ := conn2_ReadTo_dequeue c c1 b d pick p rest r hcs h hne
    exact ⟨hr ▸ dequeueResult_takes p b, hc1⟩
  · intro hopen
    exact ⟨_, conn2_ReadTo_open c b pick p rest hopen hcs, dequeueResult_takes p b⟩
  · intro d r l1 h hne
    obtain ⟨hr, hl1⟩ := conn3_ReadFrom_dequeue l l1 b d pick p rest r hls h hne
    exact ⟨hr ▸ dequeueResult_takes p b, hl1⟩
  · intro hopen
    exact ⟨_, conn3_ReadFrom_open l b pick p rest hopen hls, dequeueResult_takes p b⟩

/-- Witness for C10: a three-byte payload read into a two-byte buffer on an
open conn. -/
theorem C10_read_copies_and_consumes_witness :
    ∃ r, onePacketConn2.ReadTo [0, 0] false 0 =
        Run.done (r, { onePacketConn2 with stream := [] }) ∧
      r.takes ⟨NetAddr.udp ⟨[10, 0, 0, 1], 4000⟩, [1, 2, 3]⟩ [0, 0] :=
  (C10_read_copies_and_consumes onePacketConn2 onePacketConn3 [0, 0]
    ⟨NetAddr.udp ⟨[10, 0, 0, 1], 4000⟩, [1, 2, 3]⟩ [] 0 rfl rfl).2.1 rfl

/-! ## Auxiliary lemmas: close -/

theorem list_set_same {α : Type} (l : List α) (p : Nat) (a : α) (h : l[p]? = some a) :
    l.set p a = l := by
  apply List.ext_getElem?
  intro j
  rw [List.getElem?_set]
  by_cases hj : p = j
  · subst hj
    obtain ⟨hlt, _⟩ := List.getElem?_eq_some.1 h
    simp [hlt, h]
  · simp [hj]

theorem closeEndpointFrom_eq (ep : UDPConn2) :
    ∀ (rs : List Route) (i : Nat), rs.length = (ep.tranID.drop i).length →
      ep.closeEndpointFrom rs i =
        Run.done ((rs.zip (ep.tranID.drop i)).flatMap fun (r, id) =>
          [Event.unregister ep.nicID r.NetProto id ep.unique,
            Event.releasePort r.NetProto id.LocalAddress id.LocalPort,
            Event.routeRelease r]) := by
  intro rs
  induction rs with
  | nil => intro i _; simp [UDPConn2.closeEndpointFrom]
  | cons r rs ih =>
    intro i hlen
    have hi : i < ep.tranID.length := by
      simp only [List.length_cons, List.length_drop] at hlen
      omega
    have hdrop := List.drop_eq_getElem_cons hi
    have hlen2 : rs.length = (ep.tranID.drop (i + 1)).length := by
      simp only [List.length_cons, List.length_drop] at hlen ⊢
      omega
    simp only [UDPConn2.closeEndpointFrom, List.getElem?_eq_getElem hi, ih (i + 1) hlen2,
      Run.bind_done, hdrop, List.zip_cons_cons, List.flatMap_cons]

theorem closeEndpoint_eq (ep : UDPConn2) (h : ep.route.length = ep.tranID.length) :
    ep.closeEndpoint = Run.done ep.closeCalls := by
  unfold UDPConn2.closeEndpoint UDPConn2.closeCalls
  have := closeEndpointFrom_eq ep ep.route 0 (by simpa using h)
  simpa using this

theorem conn2_Close_open (addrString : UDPAddr → String) (c : UDPConn2)
    (hopen : c.closed = false) (hdel : c.Delete = some DeleteFn.stackDel)
    (hlen : c.route.length = c.tranID.length) :
    c.Close addrString =
      Run.done (none, { c with closed := true },
        c.closeCalls ++ [Event.delete (addrString c.raddr)]) := by
  unfold UDPConn2.Close
  simp only [hopen, Bool.false_eq_true, if_false]
  rw [closeEndpoint_eq { c with closed := true } hlen]
  simp only [Run.bind_done, hdel]
  rfl

theorem conn2_Close_closed (addrString : UDPAddr → String) (c : UDPConn2)
    (hclosed : c.closed = true) :
    c.Close addrString = Run.done (none, c, []) := by
  simp [UDPConn2.Close, hclosed]

theorem runCallbacks_append (evs evs2 : List Event) :
    ∀ s : Stack, s.runCallbacks (evs ++ evs2) = (s.runCallbacks evs).runCallbacks evs2 := by
  induction evs with
  | nil => intro s; rfl
  | cons e evs ih =>
    intro s
    cases e <;> simp [Stack.runCallbacks, ih]

theorem runCallbacks_closeCalls (c : UDPConn2) (s : Stack) :
    s.runCallbacks c.closeCalls = s := by
  unfold UDPConn2.closeCalls
  induction c.route.zip c.tranID with
  | nil => rfl
  | cons x xs ih =>
    simp only [List.flatMap_cons, List.cons_append, List.nil_append, Stack.runCallbacks]
    exact ih

theorem Close2_open (addrString : UDPAddr → String) (s : Stack) (p : Nat) (c : UDPConn2)
    (hp : s.heap2[p]? = some c) (hopen : c.closed = false)
    (hdel : c.Delete = some DeleteFn.stackDel) (hlen : c.route.length = c.tranID.length) :
    Stack.Close2 addrString s p =
      Run.done (none,
        { conns := Function.update s.conns (addrString c.raddr) none
          heap2 := s.heap2.set p { c with closed := true }
          heap3 := s.heap3
          trace := s.trace ++ (c.closeCalls ++ [Event.delete (addrString c.raddr)]) }) := by
  unfold Stack.Close2
  simp only [hp, conn2_Close_open addrString c hopen hdel hlen, Run.bind_done,
    runCallbacks_append, runCallbacks_closeCalls]
  rfl

theorem Close2_closed (addrString : UDPAddr → String) (s : Stack) (p : Nat) (c : UDPConn2)
    (hp : s.heap2[p]? = some c) (hclosed : c.closed = true) :
    Stack.Close2 addrString s p = Run.done (none, s) := by
  unfold Stack.Close2
  simp only [hp, conn2_Close_closed addrString c hclosed, Run.bind_done, List.append_nil,
    list_set_same s.heap2 p c hp]
  rfl

theorem Close2Times_closed (addrString : UDPAddr → String) (s : Stack) (p : Nat)
    (c : UDPConn2) (hp : s.heap2[p]? = some c) (hclosed : c.closed = true) (n : Nat) :
    Stack.Close2Times addrString s p n = Run.done (List.replicate n none, s) := by
  induction n with
  | zero => rfl
  | succ n ih =>
    simp only [Stack.Close2Times, Close2_closed addrString s p c hp hclosed, Run.bind_done,
      ih, List.replicate_succ]

theorem conn3_CloseTimes_closed (c : UDPConn3) (hclosed : c.closed = true) (n : Nat) :
    c.CloseTimes n = Run.done (List.replicate n none, c, []) := by
  induction n with
  | zero => rfl
  | succ n ih =>
    simp [UDPConn3.CloseTimes, UDPConn3.Close, hclosed, ih, List.replicate_succ]

/-! ## Theorems: close -/

/-- C4: for a full-cone conn that is open, sits at pointer `p` of a stack
satisfying the table invariant, and is closed `k ≥ 1` times in sequence,
every `Close` returns nil; the calls made are those of the first `Close`
alone: one unregistration, one port release and one route release per
stored (route, endpoint ID) pair, then one call of the delete callback. The
callback gets the string form of the conn's remote address, which is the
only key under which the table can hold the conn, so afterwards no key of
the table maps to it. For a listener conn that is open and closed `k ≥ 1`
times every `Close` returns nil as well, and the calls made are three: one
unregistration of its endpoint ID, one release of its local port and one
release of its route, each once, with no delete callback. -/
theorem C4_close_is_one_shot (addrString : UDPAddr → String) (s : Stack) (p : Nat)
    (c : UDPConn2) (l : UDPConn3) (k : Nat)
    (hinv : s.Inv addrString) (hp : s.heap2[p]? = some c) (hopen : c.closed = false)
    (hl : l.closed = false) (hk : 1 ≤ k) :
    (∃ s1, Stack.Close2Times addrString s p k = Run.done (List.replicate k none, s1) ∧
      Stack.Close2Times addrString s p 1 = Run.done ([none], s1) ∧
      s1.trace = s.trace ++ c.closeCalls ++ [Event.delete (addrString c.raddr)] ∧
      (∀ key, s.conns key = some p → key = addrString c.raddr) ∧
      s1.conns = Function.update s.conns (addrString c.raddr) none ∧
      (∀ key, s1.conns key ≠ some p) ∧
      s1.heap2[p]? = some { c with closed := true }) ∧
    l.CloseTimes k =
      Run.done (List.replicate k none, { l with closed := true },
        [Event.unregister l.nicID l.route.NetProto l.tranID l.unique,
          Event.releasePort l.route.NetProto l.tranID.LocalAddress l.tranID.LocalPort,
          Event.routeRelease l.route]) := by
  obtain ⟨n, rfl⟩ : ∃ n, k = n + 1 := ⟨k - 1, by omega⟩
  obtain ⟨hdel, hlen⟩ := hinv.2 p c hp
  have hkey : ∀ key, s.conns key = some p → key = addrString c.raddr := by
    intro key hkp
    obtain ⟨c0, hc0, hk0⟩ := hinv.1 key p hkp
    rw [hp] at hc0
    cases hc0
    exact hk0.symm
  have hplt : p < s.heap2.length := (List.getElem?_eq_some.1 hp).1
  have hp1 : (s.heap2.set p { c with closed := true })[p]? = some { c with closed := true } := by
    rw [List.getElem?_set]
    simp [hplt]
  constructor
  · refine ⟨{ conns := Function.update s.conns (addrString c.raddr) none
              heap2 := s.heap2.set p { c with closed := true }
              heap3 := s.heap3
              trace := s.trace ++ (c.closeCalls ++ [Event.delete (addrString c.raddr)]) },
      ?_, ?_, ?_, hkey, rfl, ?_, hp1⟩
    · simp only [Stack.Close2Times, Close2_open addrString s p c hp hopen hdel hlen,
        Run.bind_done]
      rw [Close2Times_closed addrString _ p { c with closed := true } hp1 rfl n]
      simp [List.replicate_succ]
    · simp only [Stack.Close2Times, Close2_open addrString s p c hp hopen hdel hlen,
        Run.bind_done]
    · simp
    · intro key
      by_cases hk0 : key = addrString c.raddr
      · subst hk0
        simp
      · simp only [Function.update_noteq hk0]
        intro hkp
        exact hk0 (hkey key hkp)
  · simp only [UDPConn3.CloseTimes, UDPConn3.Close, hl, Bool.false_eq_true, if_false,
      Run.bind_done]
    rw [conn3_CloseTimes_closed { l with closed := true } rfl n]
    simp [List.replicate_succ, UDPConn3.closeEndpoint]

/-! ## Auxiliary lemmas: the UDP forwarder -/

theorem CreateUDPConn2_ok (rr : ForwarderRequest) (reply : StackReply) (pick len : Nat)
    (hreg : reply.registerErr = none) (hhdr : UDPLength rr.Pkt.TransportHeader = some len) :
    rr.CreateUDPConn2 reply pick =
      ([registerEvent rr reply.uniqueID true, statEvent rr.Pkt],
        Run.done (Except.ok { firstConn2 rr reply with Delete := none })) := by
  by_cases hle : len ≤ rr.Pkt.Data.length + UDPMinimumSize
  · have hwf : rr.Pkt.wellFormed = true := (wellFormed_iff _).2 ⟨len, hhdr, hle⟩
    simp only [ForwarderRequest.CreateUDPConn2, UDPConn2.HandleRequest, hreg]
    rw [conn2_HandlePacket_open_room _ rr.ID rr.Pkt pick rfl
      (by simp [NewUDPConn2, streamCap]) hwf]
    simp [firstConn2, statEvent, registerEvent, hwf, NewUDPConn2]
  · have hwf : rr.Pkt.wellFormed = false := by
      simp [PacketBuffer.wellFormed, hhdr, hle]
    simp [ForwarderRequest.CreateUDPConn2, UDPConn2.HandleRequest, hreg,
      UDPConn2.HandlePacket, hhdr, Nat.lt_of_not_le hle, firstConn2, statEvent,
      registerEvent, hwf, NewUDPConn2]

theorem CreateUDPConn2_fail (rr : ForwarderRequest) (reply : StackReply) (pick : Nat)
    (e : String) (hreg : reply.registerErr = some e) :
    rr.CreateUDPConn2 reply pick =
      ([registerEvent rr reply.uniqueID false], Run.done (Except.error (Err.msg e))) := by
  simp [ForwarderRequest.CreateUDPConn2, UDPConn2.HandleRequest, hreg, registerEvent,
    NewUDPConn2]

theorem ForwardUDP_miss_ok (addrString : UDPAddr → String) (f : List Nat → Bool)
    (s : Stack) (rr : ForwarderRequest) (reply : StackReply) (pick len : Nat)
    (hpick : PickConnType f ⟨rr.ID.LocalAddress, rr.ID.LocalPort⟩ = PacketConnType.ConnType2)
    (hmiss : s.Get (flowKey addrString rr) = none)
    (hreg : reply.registerErr = none) (hhdr : UDPLength rr.Pkt.TransportHeader = some len) :
    Stack.ForwardUDP addrString f s rr reply pick =
      Run.done
        { conns := Function.update s.conns (flowKey addrString rr) (some s.heap2.length)
          heap2 := s.heap2 ++ [firstConn2 rr reply]
          heap3 := s.heap3
          trace := s.trace ++ [registerEvent rr reply.uniqueID true, statEvent rr.Pkt]
            ++ [Event.goHandlePacket2 s.heap2.length] } := by
  unfold Stack.ForwardUDP
  simp only [hpick, hmiss, CreateUDPConn2_ok rr reply pick len hreg hhdr]
  rfl

theorem ForwardUDP_miss_fail (addrString : UDPAddr → String) (f : List Nat → Bool)
    (s : Stack) (rr : ForwarderRequest) (reply : StackReply) (pick : Nat) (e : String)
    (hpick : PickConnType f ⟨rr.ID.LocalAddress, rr.ID.LocalPort⟩ = PacketConnType.ConnType2)
    (hmiss : s.Get (flowKey addrString rr) = none)
    (hreg : reply.registerErr = some e) :
    Stack.ForwardUDP addrString f s rr reply pick =
      Run.done { s with
        trace := s.trace ++ [registerEvent rr reply.uniqueID false]
          ++ [Event.logError "ForwardUDP2 error: " (Err.msg e)] } := by
  unfold Stack.ForwardUDP
  simp only [hpick, hmiss, CreateUDPConn2_fail rr reply pick e hreg]

theorem ForwardUDP_hit (addrString : UDPAddr → String) (f : List Nat → Bool)
    (s : Stack) (rr : ForwarderRequest) (reply : StackReply) (pick p : Nat) (conn : UDPConn2)
    (hpick : PickConnType f ⟨rr.ID.LocalAddress, rr.ID.LocalPort⟩ = PacketConnType.ConnType2)
    (hhit : s.Get (flowKey addrString rr) = some p) (hp : s.heap2[p]? = some conn) :
    Stack.ForwardUDP addrString f s rr reply pick =
      Run.done { s with
        heap2 := s.heap2.set p
          { conn with route := conn.route ++ [rr.Route], tranID := conn.tranID ++ [rr.ID] }
        trace := s.trace ++ [registerEvent rr conn.unique reply.registerErr.isNone]
          ++ (match reply.registerErr with
            | some e => [Event.logError "ForwardUDP2 error: " (Err.msg e)]
            | none => []) } := by
  unfold Stack.ForwardUDP
  simp only [hpick, hhit, hp, UDPConn2.HandleRequest]
  cases hreg : reply.registerErr <;> simp [registerEvent]

/-! ## Auxiliary lemmas: the table invariant -/

theorem Inv_init (addrString : UDPAddr → String) : Stack.init.Inv addrString := by
  constructor
  · intro k p h
    simp [Stack.init] at h
  · intro p c h
    simp [Stack.init] at h

theorem Inv_of_trace (addrString : UDPAddr → String) (s : Stack) (t : List Event)
    (h : s.Inv addrString) : ({ s with trace := t } : Stack).Inv addrString := h

theorem Inv_set (addrString : UDPAddr → String) (s : Stack) (p : Nat) (c c1 : UDPConn2)
    (t : List Event) (h : s.Inv addrString) (hp : s.heap2[p]? = some c)
    (hr : c1.raddr = c.raddr) (hd : c1.Delete = c.Delete)
    (hl : c.route.length = c.tranID.length → c1.route.length = c1.tranID.length) :
    ({ s with heap2 := s.heap2.set p c1, trace := t } : Stack).Inv addrString := by
  have hplt : p < s.heap2.length := (List.getElem?_eq_some.1 hp).1
  constructor
  · intro k q hkq
    obtain ⟨c0, hc0, hk0⟩ := h.1 k q hkq
    by_cases hq : p = q
    · subst hq
      rw [hp] at hc0
      cases hc0
      exact ⟨c1, by simp [List.getElem?_set, hplt], by rw [hr]; exact hk0⟩
    · exact ⟨c0, by simp only [List.getElem?_set_ne hq]; exact hc0, hk0⟩
  · intro q c0 hq0
    by_cases hq : p = q
    · subst hq
      simp only [List.getElem?_set, hplt, if_true] at hq0
      cases hq0
      obtain ⟨hdel, hlen⟩ := h.2 p c hp
      exact ⟨by rw [hd]; exact hdel, hl hlen⟩
    · simp only [List.getElem?_set_ne hq] at hq0
      exact h.2 q c0 hq0

theorem Inv_ForwardUDP (addrString : UDPAddr → String) (f : List Nat → Bool)
    (s s1 : Stack) (rr : ForwarderRequest) (reply : StackReply) (pick : Nat)
    (h : s.Inv addrString)
    (hrun : Stack.ForwardUDP addrString f s rr reply pick = Run.done s1) :
    s1.Inv addrString := by
  cases hpick : PickConnType f ⟨rr.ID.LocalAddress, rr.ID.LocalPort⟩ with
  | ConnType =>
    unfold Stack.ForwardUDP at hrun
    simp only [hpick] at hrun
    split at hrun <;> cases hrun <;> exact Inv_of_trace addrString s _ h
  | ConnType3 =>
    unfold Stack.ForwardUDP at hrun
    simp only [hpick] at hrun
    split at hrun
    · cases hrun
    · cases hrun
    · cases hrun; exact Inv_of_trace addrString s _ h
    · cases hrun; exact h
  | ConnType2 =>
    cases hget : s.Get (flowKey addrString rr) with
    | some p =>
      cases hp : s.heap2[p]? with
      | none =>
        unfold Stack.ForwardUDP at hrun
        simp [hpick, hget, hp] at hrun
      | some conn =>
        rw [ForwardUDP_hit addrString f s rr reply pick p conn hpick hget hp] at hrun
        cases hrun
        exact Inv_set addrString s p conn _ _ h hp rfl rfl (by simp)
    | none =>
      cases hreg : reply.registerErr with
      | some e =>
        rw [ForwardUDP_miss_fail addrString f s rr reply pick e hpick hget hreg] at hrun
        cases hrun
        exact Inv_of_trace addrString s _ h
      | none =>
        cases hhdr : UDPLength rr.Pkt.TransportHeader with
        | none =>
          unfold Stack.ForwardUDP at hrun
          simp [hpick, hget, ForwarderRequest.CreateUDPConn2, UDPConn2.HandleRequest, hreg,
            UDPConn2.HandlePacket, hhdr] at hrun
        | some len =>
          rw [ForwardUDP_miss_ok addrString f s rr reply pick len hpick hget hreg hhdr] at hrun
          cases hrun
          constructor
          · intro k q hkq
            by_cases hk : k = flowKey addrString rr
            · subst hk
              simp only [Function.update_same, Option.some.injEq] at hkq
              subst hkq
              exact ⟨firstConn2 rr reply, by simp, rfl⟩
            · simp only [Function.update_noteq hk] at hkq
              obtain ⟨c0, hc0, hk0⟩ := h.1 k q hkq
              have hq : q < s.heap2.length := (List.getElem?_eq_some.1 hc0).1
              exact ⟨c0, by simp only [List.getElem?_append_left hq]; exact hc0, hk0⟩
          · intro q c0 hq0
            by_cases hq : q < s.heap2.length
            · simp only [List.getElem?_append_left hq] at hq0
              exact h.2 q c0 hq0
            · simp only [List.getElem?_append_right (Nat.le_of_not_lt hq)] at hq0
              have hq1 : q - s.heap2.length = 0 := by
                by_contra hne
                have : 1 ≤ q - s.heap2.length := by omega
                simp [List.getElem?_eq_none, this] at hq0
              simp only [hq1, List.getElem?_cons_zero, Option.some.injEq] at hq0
              subst hq0
              exact ⟨rfl, rfl⟩

theorem sampleRequest_fullcone :
    PickConnType emptyFilter ⟨sampleRequest.ID.LocalAddress, sampleRequest.ID.LocalPort⟩ =
      PacketConnType.ConnType2 := by
  decide

theorem secondRequest_fullcone :
    PickConnType emptyFilter ⟨secondRequest.ID.LocalAddress, secondRequest.ID.LocalPort⟩ =
      PacketConnType.ConnType2 := by
  decide

theorem sampleStack_reached :
    Stack.ForwardUDP dottedString emptyFilter Stack.init sampleRequest sampleReply 0 =
      Run.done sampleStack :=
  ForwardUDP_miss_ok dottedString emptyFilter Stack.init sampleRequest sampleReply 0 9
    sampleRequest_fullcone rfl rfl rfl

theorem sampleStack_Inv : sampleStack.Inv dottedString :=
  Inv_ForwardUDP dottedString emptyFilter Stack.init sampleStack sampleRequest sampleReply 0
    (Inv_init dottedString) sampleStack_reached

/-- Witness for C4: the conn that `ForwardUDP` created for `sampleRequest`,
closed twice, and an open listener conn on `10.0.0.1:53` closed twice: the
second `Close` adds no call to the three of the first. -/
theorem C4_close_is_one_shot_witness :
    (∃ s1, Stack.Close2Times dottedString sampleStack 0 2 = Run.done ([none, none], s1) ∧
      s1.trace = sampleStack.trace ++ (firstConn2 sampleRequest sampleReply).closeCalls
        ++ [Event.delete (flowKey dottedString sampleRequest)] ∧
      (∀ key, s1.conns key ≠ some 0)) ∧
    emptyConn3.CloseTimes 2 =
      Run.done ([none, none], { emptyConn3 with closed := true },
        [Event.unregister 1 2048 ⟨53, [10, 0, 0, 1], 0, []⟩ 2,
          Event.releasePort 2048 [10, 0, 0, 1] 53,
          Event.routeRelease ⟨1, 2048, [10, 0, 0, 1], [10, 0, 0, 2]⟩]) := by
  obtain ⟨⟨s1, h1, _, h3, _, _, h6, _⟩, hl⟩ :=
    C4_close_is_one_shot dottedString sampleStack 0 (firstConn2 sampleRequest sampleReply)
      emptyConn3 2 sampleStack_Inv rfl rfl rfl (by decide)
  exact ⟨⟨s1, h1, h3, h6⟩, hl⟩

theorem sampleStack_hit :
    sampleStack.Get (flowKey dottedString secondRequest) = some 0 := by
  show Function.update Stack.init.conns (flowKey dottedString sampleRequest) (some 0)
    (flowKey dottedString sampleRequest) = some 0
  exact Function.update_same _ _ _

theorem drop_append_self {α : Type} (l t : List α) : (l ++ t).drop l.length = t := by
  simp

/-! ## Theorems: the UDP forwarder and the flow table -/

/-- C6 (what the code does on a hit): when the key of a full-cone request is
already in the flow table, `ForwardUDP` returns having created no conn,
left the table as it was and invoked no handler, having made one
registration call for the request and appended the request's route and
endpoint ID to the lists of the existing conn; but the queue of the
existing conn is left as it was: the triggering datagram is not forwarded
into it. -/
theorem C6_hit_appends_but_does_not_enqueue (addrString : UDPAddr → String)
    (f : List Nat → Bool) (s : Stack) (rr : ForwarderRequest) (reply : StackReply)
    (pick p : Nat) (conn : UDPConn2)
    (hpick : PickConnType f ⟨rr.ID.LocalAddress, rr.ID.LocalPort⟩ = PacketConnType.ConnType2)
    (hhit : s.Get (flowKey addrString rr) = some p) (hp : s.heap2[p]? = some conn) :
    ∃ s1 conn1, Stack.ForwardUDP addrString f s rr reply pick = Run.done s1 ∧
      s1.heap2.length = s.heap2.length ∧ s1.conns = s.conns ∧
      (∀ e ∈ s1.trace.drop s.trace.length, e.isHandlerCall = false) ∧
      registerEvent rr conn.unique reply.registerErr.isNone ∈ s1.trace.drop s.trace.length ∧
      s1.heap2[p]? = some conn1 ∧
      conn1.route = conn.route ++ [rr.Route] ∧ conn1.tranID = conn.tranID ++ [rr.ID] ∧
      conn1.stream = conn.stream := by
  have hplt : p < s.heap2.length := (List.getElem?_eq_some.1 hp).1
  refine ⟨_, { conn with route := conn.route ++ [rr.Route], tranID := conn.tranID ++ [rr.ID] },
    ForwardUDP_hit addrString f s rr reply pick p conn hpick hhit hp, ?_, rfl, ?_, ?_, ?_,
    rfl, rfl, rfl⟩
  · simp
  · intro e he
    simp only [List.append_assoc, drop_append_self] at he
    cases hreg : reply.registerErr <;> simp [hreg, registerEvent] at he <;>
      rcases he with rfl | rfl <;> rfl
  · simp only [List.append_assoc, drop_append_self]
    simp
  · simp [List.getElem?_set, hplt]

/-- Witness for C6: after `sampleRequest` created the conn, the first
datagram of `secondRequest` (same source, other destination) hits the same
key; the conn then holds two routes and still only the first datagram. -/
theorem C6_hit_appends_but_does_not_enqueue_witness :
    ∃ s1 conn1,
      Stack.ForwardUDP dottedString emptyFilter sampleStack secondRequest sampleReply 0 =
        Run.done s1 ∧
      s1.heap2[0]? = some conn1 ∧
      conn1.route = [sampleRequest.Route, secondRequest.Route] ∧
      conn1.stream = [packet2 sampleRequest.ID sampleRequest.Pkt] := by
  obtain ⟨s1, conn1, h1, _, _, _, _, h6, h7, _, h9⟩ :=
    C6_hit_appends_but_does_not_enqueue dottedString emptyFilter sampleStack secondRequest
      sampleReply 0 0 (firstConn2 sampleRequest sampleReply) secondRequest_fullcone
      sampleStack_hit rfl
  exact ⟨s1, conn1, h1, h6, h7, h9⟩

/-- C7 (as stated, refuted): the first datagram of `malformedRequest` misses
the table of a fresh stack and registration succeeds; afterwards the table
maps the key to the new conn and `HandlePacket2` has been invoked with it,
yet the queue of the conn is empty: the datagram was dropped as malformed. -/
theorem C7_malformed_first_datagram_not_queued :
    Stack.init.Get (flowKey dottedString malformedRequest) = none ∧
    sampleReply.registerErr = none ∧
    ∃ s1 conn,
      Stack.ForwardUDP dottedString emptyFilter Stack.init malformedRequest sampleReply 0 =
        Run.done s1 ∧
      s1.Get (flowKey dottedString malformedRequest) = some 0 ∧
      s1.heap2[0]? = some conn ∧
      Event.goHandlePacket2 0 ∈ s1.trace ∧
      conn.stream = [] := by
  have h := ForwardUDP_miss_ok dottedString emptyFilter Stack.init malformedRequest
    sampleReply 0 100 (by decide) rfl rfl rfl
  refine ⟨rfl, rfl, _, firstConn2 malformedRequest sampleReply, h, ?_, rfl, ?_, ?_⟩
  · show Function.update Stack.init.conns (flowKey dottedString malformedRequest) (some 0)
      (flowKey dottedString malformedRequest) = some 0
    exact Function.update_same _ _ _
  · simp [Stack.init]
  · rfl

/-- C7 (amended): when a full-cone datagram misses the flow table and
registration succeeds, `ForwardUDP` returns; the table then maps the key
to the newly created conn and is otherwise unchanged, the delete callback
of the conn is the `Del` of the table, the queue of the conn holds exactly
the first datagram when that datagram is well-formed and is empty when it
is malformed, and `HandlePacket2` is the one handler invocation made, with
that conn. When registration fails, the table and the conns are unchanged
and no handler is invoked. -/
theorem C7_miss_creates_and_inserts_one_conn (addrString : UDPAddr → String)
    (f : List Nat → Bool) (s : Stack) (rr : ForwarderRequest) (reply : StackReply)
    (pick len : Nat)
    (hpick : PickConnType f ⟨rr.ID.LocalAddress, rr.ID.LocalPort⟩ = PacketConnType.ConnType2)
    (hmiss : s.Get (flowKey addrString rr) = none)
    (hhdr : UDPLength rr.Pkt.TransportHeader = some len) :
    (reply.registerErr = none →
      ∃ s1 conn, Stack.ForwardUDP addrString f s rr reply pick = Run.done s1 ∧
        s1.heap2 = s.heap2 ++ [conn] ∧
        s1.Get (flowKey addrString rr) = some s.heap2.length ∧
        (∀ k, k ≠ flowKey addrString rr → s1.Get k = s.Get k) ∧
        conn.Delete = some DeleteFn.stackDel ∧
        addrString conn.raddr = flowKey addrString rr ∧
        conn.closed = false ∧
        conn.stream = (if rr.Pkt.wellFormed then [packet2 rr.ID rr.Pkt] else []) ∧
        (s1.trace.drop s.trace.length).filter Event.isHandlerCall =
          [Event.goHandlePacket2 s.heap2.length]) ∧
    (∀ e, reply.registerErr = some e →
      ∃ s1, Stack.ForwardUDP addrString f s rr reply pick = Run.done s1 ∧
        s1.conns = s.conns ∧ s1.heap2 = s.heap2 ∧
        (s1.trace.drop s.trace.length).filter Event.isHandlerCall = []) := by
  constructor
  · intro hreg
    refine ⟨_, firstConn2 rr reply,
      ForwardUDP_miss_ok addrString f s rr reply pick len hpick hmiss hreg hhdr,
      rfl, ?_, ?_, rfl, rfl, rfl, rfl, ?_⟩
    · exact Function.update_same _ _ _
    · intro k hk
      exact Function.update_noteq hk _ _
    · simp only [List.append_assoc, drop_append_self]
      cases hw : rr.Pkt.wellFormed <;>
        simp [registerEvent, statEvent, hw, List.filter, Event.isHandlerCall]
  · intro e hreg
    refine ⟨_, ForwardUDP_miss_fail addrString f s rr reply pick e hpick hmiss hreg,
      rfl, rfl, ?_⟩
    simp only [List.append_assoc, drop_append_self]
    simp [registerEvent, List.filter, Event.isHandlerCall]

/-- Witness for C7 (amended): `sampleRequest` on a fresh stack. -/
theorem C7_miss_creates_and_inserts_one_conn_witness :
    ∃ s1 conn,
      Stack.ForwardUDP dottedString emptyFilter Stack.init sampleRequest sampleReply 0 =
        Run.done s1 ∧
      s1.heap2 = [conn] ∧
      s1.Get (flowKey dottedString sampleRequest) = some 0 ∧
      conn.stream = [packet2 sampleRequest.ID sampleRequest.Pkt] := by
  obtain ⟨s1, conn, h1, h2, h3, _, _, _, _, h8, _⟩ :=
    (C7_miss_creates_and_inserts_one_conn dottedString emptyFilter Stack.init sampleRequest
      sampleReply 0 9 sampleRequest_fullcone rfl rfl).1 rfl
  exact ⟨s1, conn, h1, h2, h3, h8⟩

/-! ## Auxiliary lemmas: interleaved forwarder calls -/

/-- Run without interruption, the steps of a goroutine amount to the call
`ForwardUDP`. -/
theorem forwardSolo_eq_ForwardUDP (addrString : UDPAddr → String) (f : List Nat → Bool)
    (s s1 : Stack) (rr : ForwarderRequest) (reply : StackReply) (pick : Nat)
    (hrun : Stack.ForwardUDP addrString f s rr reply pick = Run.done s1) :
    Stack.forwardSolo addrString f rr reply pick 4 (FwdPC.start, s) = (FwdPC.finished, s1) := by
  cases hpick : PickConnType f ⟨rr.ID.LocalAddress, rr.ID.LocalPort⟩ with
  | ConnType =>
    simp [Stack.forwardSolo, Stack.forwardStep, hpick, hrun]
  | ConnType3 =>
    simp [Stack.forwardSolo, Stack.forwardStep, hpick, hrun]
  | ConnType2 =>
    cases hget : s.Get (flowKey addrString rr) with
    | some p =>
      cases hp : s.heap2[p]? with
      | none =>
        unfold Stack.ForwardUDP at hrun
        simp [hpick, hget, hp] at hrun
      | some conn =>
        rw [ForwardUDP_hit addrString f s rr reply pick p conn hpick hget hp] at hrun
        cases hrun
        cases hreg : reply.registerErr <;>
          simp [Stack.forwardSolo, Stack.forwardStep, hpick, hget, hp, UDPConn2.HandleRequest,
            hreg, registerEvent]
    | none =>
      cases hreg : reply.registerErr with
      | some e =>
        rw [ForwardUDP_miss_fail addrString f s rr reply pick e hpick hget hreg] at hrun
        cases hrun
        simp [Stack.forwardSolo, Stack.forwardStep, hpick, hget,
          CreateUDPConn2_fail rr reply pick e hreg]
      | none =>
        cases hhdr : UDPLength rr.Pkt.TransportHeader with
        | none =>
          unfold Stack.ForwardUDP at hrun
          simp [hpick, hget, ForwarderRequest.CreateUDPConn2, UDPConn2.HandleRequest, hreg,
            UDPConn2.HandlePacket, hhdr] at hrun
        | some len =>
          rw [ForwardUDP_miss_ok addrString f s rr reply pick len hpick hget hreg hhdr] at hrun
          cases hrun
          simp [Stack.forwardSolo, Stack.forwardStep, hpick, hget,
            CreateUDPConn2_ok rr reply pick len hreg hhdr, Stack.Add, firstConn2]

theorem conn2_HandlePacket_grows_by_one (c c1 : UDPConn2) (id : TransportEndpointID)
    (pkt : PacketBuffer) (pick : Nat) (h : (c.HandlePacket id pkt pick).2 = Run.done c1) :
    c1.stream.length ≤ c.stream.length + 1 := by
  unfold UDPConn2.HandlePacket at h
  split at h
  · simp at h
  · split at h
    · simp at h; subst h; omega
    · simp only at h
      split at h
      · simp at h
      · simp at h; subst h; omega
      · simp at h; subst h; simp

theorem CreateUDPConn2_queue (rr : ForwarderRequest) (reply : StackReply) (pick : Nat)
    (evs : List Event) (conn : UDPConn2)
    (h : rr.CreateUDPConn2 reply pick = (evs, Run.done (Except.ok conn))) :
    conn.stream.length ≤ 1 := by
  unfold ForwarderRequest.CreateUDPConn2 at h
  simp only [UDPConn2.HandleRequest] at h
  cases hreg : reply.registerErr with
  | some e => simp [hreg] at h
  | none =>
    simp only [hreg, Prod.mk.injEq] at h
    obtain ⟨_, h2⟩ := h
    generalize hrun : (UDPConn2.HandlePacket _ rr.ID rr.Pkt pick).2 = r at h2
    cases r with
    | done c1 =>
      simp only [Run.bind_done, Run.done.injEq, Except.ok.injEq] at h2
      subst h2
      have := conn2_HandlePacket_grows_by_one _ c1 rr.ID rr.Pkt pick hrun
      simpa [NewUDPConn2] using this
    | blocked => simp at h2
    | panic => simp at h2

theorem ForwardUDP_other_heap2 (addrString : UDPAddr → String) (f : List Nat → Bool)
    (s s1 : Stack) (rr : ForwarderRequest) (reply : StackReply) (pick : Nat)
    (hpick : PickConnType f ⟨rr.ID.LocalAddress, rr.ID.LocalPort⟩ ≠ PacketConnType.ConnType2)
    (hrun : Stack.ForwardUDP addrString f s rr reply pick = Run.done s1) :
    s1.heap2 = s.heap2 := by
  unfold Stack.ForwardUDP at hrun
  cases hp : PickConnType f ⟨rr.ID.LocalAddress, rr.ID.LocalPort⟩ with
  | ConnType =>
    simp only [hp] at hrun
    split at hrun <;> cases hrun <;> rfl
  | ConnType2 => exact absurd hp hpick
  | ConnType3 =>
    simp only [hp] at hrun
    split at hrun
    · cases hrun
    · cases hrun
    · cases hrun; rfl
    · cases hrun; rfl

theorem forwardStep_queues (addrString : UDPAddr → String) (f : List Nat → Bool)
    (rr : ForwarderRequest) (reply : StackReply) (pick : Nat) (pc : FwdPC) (s : Stack)
    (h : s.queuesAtMostOne) :
    (Stack.forwardStep addrString f rr reply pick (pc, s)).2.queuesAtMostOne := by
  cases pc with
  | start =>
    simp only [Stack.forwardStep]
    cases hp : PickConnType f ⟨rr.ID.LocalAddress, rr.ID.LocalPort⟩ with
    | ConnType2 =>
      simp only
      split <;> exact h
    | ConnType =>
      simp only
      cases hrun : Stack.ForwardUDP addrString f s rr reply pick with
      | done s1 =>
        intro c hc
        simp only at hc
        rw [ForwardUDP_other_heap2 addrString f s s1 rr reply pick (by simp [hp]) hrun] at hc
        exact h c hc
      | blocked => exact h
      | panic => exact h
    | ConnType3 =>
      simp only
      cases hrun : Stack.ForwardUDP addrString f s rr reply pick with
      | done s1 =>
        intro c hc
        simp only at hc
        rw [ForwardUDP_other_heap2 addrString f s s1 rr reply pick (by simp [hp]) hrun] at hc
        exact h c hc
      | blocked => exact h
      | panic => exact h
  | hit p =>
    simp only [Stack.forwardStep]
    cases hp : s.heap2[p]? with
    | none => exact h
    | some conn =>
      have hconn : conn.stream.length ≤ 1 := h conn (List.getElem?_mem hp)
      simp only [UDPConn2.HandleRequest]
      cases reply.registerErr <;>
      · intro c hc
        simp only at hc
        rcases List.mem_or_eq_of_mem_set hc with hc | hc
        · exact h c hc
        · subst hc; exact hconn
  | missed =>
    simp only [Stack.forwardStep]
    generalize hcr : rr.CreateUDPConn2 reply pick = res
    obtain ⟨evs, r⟩ := res
    cases r with
    | panic => exact h
    | blocked => exact h
    | done x =>
      cases x with
      | error e => exact h
      | ok conn =>
        intro c hc
        simp only [List.mem_append, List.mem_singleton] at hc
        rcases hc with hc | hc
        · exact h c hc
        · subst hc
          exact CreateUDPConn2_queue rr reply pick evs conn hcr
  | created p => exact h
  | added p => exact h
  | finished => exact h
  | stuck => exact h

theorem Race_run_queues (addrString : UDPAddr → String) (f : List Nat → Bool)
    (rr1 rr2 : ForwarderRequest) (reply1 reply2 : StackReply) (pick1 pick2 : Nat)
    (schedule : List Bool) :
    ∀ r : Race, r.stack.queuesAtMostOne →
      (Race.run addrString f rr1 rr2 reply1 reply2 pick1 pick2 r schedule).stack.queuesAtMostOne := by
  induction schedule with
  | nil => intro r h; exact h
  | cons b bs ih =>
    intro r h
    simp only [Race.run, List.foldl_cons]
    apply ih
    cases b
    · simp only [Race.step, Bool.false_eq_true, if_false]
      exact forwardStep_queues addrString f rr1 reply1 pick1 r.pc1 r.stack h
    · simp only [Race.step, if_true]
      exact forwardStep_queues addrString f rr2 reply2 pick2 r.pc2 r.stack h

/-- C8 (what the code does): `sampleRequest` and `secondRequest` are first
datagrams of two full-cone flows with the same table key. Under the
schedule in which both goroutines look the key up before either inserts,
both finish, two conns are created and `HandlePacket2` is invoked twice,
and the table ends up holding the second conn. Under the sequential
schedule one conn is created and `HandlePacket2` is invoked once, but the
queue of that conn holds only the first datagram. And under every schedule,
for all requests, no conn ever holds more than one queued datagram, so the
two first datagrams are never both delivered into one queue. -/
theorem C8_concurrent_first_datagrams
    (addrString : UDPAddr → String) (f : List Nat → Bool)
    (rr1 rr2 : ForwarderRequest) (reply1 reply2 : StackReply) (pick1 pick2 : Nat)
    (schedule : List Bool) :
    flowKey dottedString sampleRequest = flowKey dottedString secondRequest ∧
    ((Race.run dottedString emptyFilter sampleRequest secondRequest sampleReply sampleReply
        0 0 raceStart racySchedule).pc1 = FwdPC.finished ∧
      (Race.run dottedString emptyFilter sampleRequest secondRequest sampleReply sampleReply
        0 0 raceStart racySchedule).pc2 = FwdPC.finished ∧
      (Race.run dottedString emptyFilter sampleRequest secondRequest sampleReply sampleReply
        0 0 raceStart racySchedule).stack.heap2.length = 2 ∧
      handlerCalls (Race.run dottedString emptyFilter sampleRequest secondRequest sampleReply
        sampleReply 0 0 raceStart racySchedule).stack.trace =
          [Event.goHandlePacket2 0, Event.goHandlePacket2 1] ∧
      (Race.run dottedString emptyFilter sampleRequest secondRequest sampleReply sampleReply
        0 0 raceStart racySchedule).stack.Get (flowKey dottedString sampleRequest) = some 1) ∧
    ((Race.run dottedString emptyFilter sampleRequest secondRequest sampleReply sampleReply
        0 0 raceStart sequentialSchedule).pc1 = FwdPC.finished ∧
      (Race.run dottedString emptyFilter sampleRequest secondRequest sampleReply sampleReply
        0 0 raceStart sequentialSchedule).pc2 = FwdPC.finished ∧
      handlerCalls (Race.run dottedString emptyFilter sampleRequest secondRequest sampleReply
        sampleReply 0 0 raceStart sequentialSchedule).stack.trace =
          [Event.goHandlePacket2 0] ∧
      (Race.run dottedString emptyFilter sampleRequest secondRequest sampleReply sampleReply
        0 0 raceStart sequentialSchedule).stack.heap2.map UDPConn2.stream =
          [[packet2 sampleRequest.ID sampleRequest.Pkt]]) ∧
    (∀ c ∈ (Race.run addrString f rr1 rr2 reply1 reply2 pick1 pick2 raceStart
        schedule).stack.heap2, c.stream.length ≤ 1) := by
  refine ⟨rfl, ?_, ?_, ?_⟩
  · refine ⟨rfl, rfl, rfl, ?_, ?_⟩
    · rfl
    · rfl
  · refine ⟨rfl, rfl, ?_, ?_⟩
    · rfl
    · rfl
  · exact Race_run_queues addrString f rr1 rr2 reply1 reply2 pick1 pick2 schedule raceStart
      (by intro c hc; simp [raceStart, Stack.init] at hc)

/-! ## Theorems: TCP flows -/

theorem HandleTCP2_no_proxy_call (s : NetStack) (conn : TCPConn) (addr : Option NetAddr)
    (evs : List TCPEvent) (err : Option Err)
    (h : s.HandleTCP2 conn addr = Run.done (evs, err)) : proxyCalls evs = [] := by
  unfold NetStack.HandleTCP2 at h
  split at h
  · split at h
    · cases h; rfl
    · simp only at h
      split at h
      · cases h; rfl
      · split at h
        · cases h; rfl
        · split at h <;> cases h <;> rfl
  · cases h

theorem HandleTCP2_returns (s : NetStack) (conn : TCPConn) (ip : List Nat) (port : Nat) :
    ∃ evs err, s.HandleTCP2 conn (some (NetAddr.tcp ip port)) = Run.done (evs, err) := by
  unfold NetStack.HandleTCP2
  simp only
  split
  · exact ⟨_, _, rfl⟩
  · split
    · exact ⟨_, _, rfl⟩
    · split
      · exact ⟨_, _, rfl⟩
      · split <;> exact ⟨_, _, rfl⟩

/-- C3 (as stated, refuted): the destination of the flow is in the IP filter
and the reverse lookup reports `ErrNotFound`; `Stack.Handle` then logs the
error and closes the flow, and the proxy handler is not called at all. -/
theorem C3_not_found_flow_is_closed_unhandled :
    notFoundStack.ipFilterLookup [198, 18, 0, 7] = true ∧
    notFoundStack.Handle sampleTCPConn =
      Run.done [TCPEvent.logError "handle tcp error: " Err.ErrNotFound,
        TCPEvent.connClose 1] ∧
    (∀ evs, notFoundStack.Handle sampleTCPConn = Run.done evs → proxyCalls evs = []) := by
  refine ⟨rfl, rfl, ?_⟩
  intro evs h
  have h0 : notFoundStack.Handle sampleTCPConn =
      Run.done [TCPEvent.logError "handle tcp error: " Err.ErrNotFound,
        TCPEvent.connClose 1] := rfl
  rw [h0] at h
  cases h
  rfl

/-- C3 (amended): for every accepted TCP flow with destination `ip:port`,
`Stack.Handle` returns. When `ip` is not in the IP filter it relays the flow
with `HandleTCP2` and never calls the proxy handler. When `ip` is in the IP
filter: if the reverse lookup reports `ErrNotFound`, the flow is closed and
the proxy handler is not called; if it reports `ErrNotFake`, the proxy
handler is called exactly once, with the original destination; in every
other case the proxy handler is called exactly once, with the address the
reverse lookup returned. -/
theorem C3_handle_direct_or_proxy (s : NetStack) (conn : TCPConn) (ip : List Nat)
    (port : Nat) (hlocal : conn.LocalAddr = some (NetAddr.tcp ip port)) :
    (s.ipFilterLookup ip = false →
      ∃ evs2 err2 evs,
        s.HandleTCP2 conn (some (NetAddr.tcp ip port)) = Run.done (evs2, err2) ∧
        s.Handle conn = Run.done evs ∧
        evs = [TCPEvent.logInfo "direct" (some (NetAddr.tcp ip port))] ++ evs2 ++
          (match err2 with
            | some e => [TCPEvent.logError "handle tcp2 error: " e]
            | none => []) ∧
        proxyCalls evs = []) ∧
    (s.ipFilterLookup ip = true →
      ((s.LookupAddr (NetAddr.tcp ip port)).2 = some Err.ErrNotFound →
        s.Handle conn =
          Run.done [TCPEvent.logError "handle tcp error: " Err.ErrNotFound,
            TCPEvent.connClose conn.id]) ∧
      ((s.LookupAddr (NetAddr.tcp ip port)).2 = some Err.ErrNotFake →
        ∃ evs, s.Handle conn = Run.done evs ∧
          proxyCalls evs = [TCPEvent.handlerHandle conn.id (some (NetAddr.tcp ip port))]) ∧
      ((s.LookupAddr (NetAddr.tcp ip port)).2 ≠ some Err.ErrNotFound →
        (s.LookupAddr (NetAddr.tcp ip port)).2 ≠ some Err.ErrNotFake →
        ∃ evs, s.Handle conn = Run.done evs ∧
          proxyCalls evs =
            [TCPEvent.handlerHandle conn.id (s.LookupAddr (NetAddr.tcp ip port)).1])) := by
  constructor
  · intro hf
    obtain ⟨evs2, err2, h2⟩ := HandleTCP2_returns s conn ip port
    refine ⟨evs2, err2, _, h2, ?_, rfl, ?_⟩
    · simp [NetStack.Handle, hlocal, hf, h2]
    · have hp := HandleTCP2_no_proxy_call s conn _ evs2 err2 h2
      unfold proxyCalls at hp ⊢
      cases err2 <;> simp [List.filter_append, hp, List.filter, TCPEvent.isHandlerHandle]
  · intro hf
    refine ⟨?_, ?_, ?_⟩
    · intro hnf
      simp [NetStack.Handle, hlocal, hf, hnf]
    · intro hnf
      refine ⟨_, by simp only [NetStack.Handle, hlocal, hf, hnf]; rfl, ?_⟩
      cases hres : s.handlerResult conn.id (some (NetAddr.tcp ip port)) <;>
        simp [NetStack.HandleTCP, proxyCalls, List.filter, TCPEvent.isHandlerHandle, hres]
    · intro h1 h2
      refine ⟨_, by simp only [NetStack.Handle, hlocal, hf, h1, h2]; rfl, ?_⟩
      cases hres : s.handlerResult conn.id (s.LookupAddr (NetAddr.tcp ip port)).1 <;>
        simp [NetStack.HandleTCP, proxyCalls, List.filter, TCPEvent.isHandlerHandle, hres]

/-- Witness for C3 (amended): a flow to a fake IP whose domain is recovered
is handed to the proxy handler once, with the domain-form address. -/
theorem C3_handle_direct_or_proxy_witness :
    ∃ evs, fakeIPStack.Handle sampleTCPConn = Run.done evs ∧
      proxyCalls evs =
        [TCPEvent.handlerHandle 1
          (some (NetAddr.domain [3, 7, 101, 120, 97, 109, 112, 108, 101, 1, 187]))] :=
  ((C3_handle_direct_or_proxy fakeIPStack sampleTCPConn [198, 18, 0, 7] 443 rfl).2 rfl).2.2
    (by decide) (by decide)

/-! ## Theorems: the result of a relayed flow -/

/-- C11 (as stated, refuted): the dial succeeds, the direction `relay` runs
itself ends with a timeout and the other direction ends with a connection
reset, which is not a clean error; yet `HandleTCP2` returns nil. -/
theorem C11_timeout_masks_other_direction :
    maskingStack.dialErr (NetAddr.tcp [198, 18, 0, 7] 443) = none ∧
    maskingStack.relayErr 1 =
      (Relay true (some Err.timeout) (some (Err.msg "connection reset by peer"))).err ∧
    endedNonClean (some (Err.msg "connection reset by peer")) = true ∧
    ∃ evs, maskingStack.HandleTCP2 sampleTCPConn (some (NetAddr.tcp [198, 18, 0, 7] 443)) =
      Run.done (evs, none) := by
  refine ⟨rfl, rfl, by decide, _, rfl⟩

/-- C11 (amended): once the dial has succeeded and both relay directions
have ended, `HandleTCP2` returns. It returns nil whenever neither direction
ended with a non-clean error. It returns nil exactly when the direction
`relay` runs itself ended with a clean error, or ended with no error and
the other direction did not end with a non-clean error; so a non-clean
error of the other direction goes unreported when the own direction ended
with a clean error. Whenever it returns an error, that error is a non-clean
error of one of the directions, wrapped as a relay error. -/
theorem C11_relay_error_reported (s : NetStack) (conn : TCPConn) (ip : List Nat)
    (port : Nat) (err1 err2 : Option Err)
    (hdial : s.dialErr (NetAddr.tcp ip port) = none)
    (hrelay : s.relayErr conn.id = (Relay true err1 err2).err) :
    ∃ evs res, s.HandleTCP2 conn (some (NetAddr.tcp ip port)) = Run.done (evs, res) ∧
      (endedNonClean err1 = false → endedNonClean err2 = false → res = none) ∧
      (res = none ↔
        match err1 with
        | some e1 => e1.clean = true
        | none => endedNonClean err2 = false) ∧
      (∀ r, res = some r →
        ∃ e, e.clean = false ∧ (err1 = some e ∨ (err1 = none ∧ err2 = some e)) ∧
          r = Err.wrap "relay error: " e) := by
  unfold NetStack.HandleTCP2
  simp only [hdial, hrelay, Relay, relay, relay2, if_true]
  cases err1 with
  | some e1 =>
    simp only
    by_cases ht : e1.isNetTimeout = true
    · refine ⟨[TCPEvent.dialTCP (NetAddr.tcp ip port), TCPEvent.relay conn.id,
        TCPEvent.rcClose, TCPEvent.connClose conn.id], none, by simp [ht], ?_, ?_, ?_⟩ <;> simp [Err.clean, ht]
    · by_cases hc : (Err.is Err.ErrClosedPipe e1 || Err.is Err.EOF e1) = true
      · refine ⟨[TCPEvent.dialTCP (NetAddr.tcp ip port), TCPEvent.relay conn.id,
        TCPEvent.rcClose, TCPEvent.connClose conn.id], none, by simp [ht, hc], ?_, ?_, ?_⟩
        · simp
        · simp only [Err.clean, Bool.or_assoc, hc, Bool.or_true, true_iff]
        · simp
      · refine ⟨[TCPEvent.dialTCP (NetAddr.tcp ip port), TCPEvent.relay conn.id,
        TCPEvent.rcClose, TCPEvent.connClose conn.id],
          some (Err.wrap "relay error: " e1), by simp [ht, hc], ?_, ?_, ?_⟩
        · intro h1
          simp [endedNonClean, Err.clean, Bool.or_assoc, ht, hc] at h1
        · simp only [Err.clean, Bool.or_assoc]
          simp [ht, hc]
        · intro r hr
          cases hr
          refine ⟨e1, ?_, Or.inl rfl, rfl⟩
          simp only [Err.clean, Bool.or_assoc]
          simp [ht, hc]
  | none =>
    cases err2 with
    | none =>
      refine ⟨[TCPEvent.dialTCP (NetAddr.tcp ip port), TCPEvent.relay conn.id,
        TCPEvent.rcClose, TCPEvent.connClose conn.id], none, by simp, ?_, ?_, ?_⟩ <;> simp [endedNonClean]
    | some e2 =>
      simp only
      by_cases ht : e2.isNetTimeout = true
      · refine ⟨[TCPEvent.dialTCP (NetAddr.tcp ip port), TCPEvent.relay conn.id,
        TCPEvent.rcClose, TCPEvent.connClose conn.id], none, by simp [ht], ?_, ?_, ?_⟩ <;> simp [endedNonClean, Err.clean, ht]
      · by_cases hc : (Err.is Err.ErrClosedPipe e2 || Err.is Err.EOF e2) = true
        · refine ⟨[TCPEvent.dialTCP (NetAddr.tcp ip port), TCPEvent.relay conn.id,
        TCPEvent.rcClose, TCPEvent.connClose conn.id], none, by simp [ht, hc], ?_, ?_, ?_⟩
          · simp
          · simp only [endedNonClean, Err.clean, Bool.or_assoc, hc, Bool.or_true]
            simp
          · simp
        · refine ⟨[TCPEvent.dialTCP (NetAddr.tcp ip port), TCPEvent.relay conn.id,
        TCPEvent.rcClose, TCPEvent.connClose conn.id],
          some (Err.wrap "relay error: " e2), by simp [ht, hc], ?_, ?_, ?_⟩
          · intro _ h2
            simp [endedNonClean, Err.clean, Bool.or_assoc, ht, hc] at h2
          · simp only [endedNonClean, Err.clean, Bool.or_assoc]
            simp [ht, hc]
          · intro r hr
            cases hr
            refine ⟨e2, ?_, Or.inr ⟨trivial, rfl⟩, rfl⟩
            simp only [Err.clean, Bool.or_assoc]
            simp [ht, hc]

/-! ## Auxiliary lemmas: copy loops -/

theorem nonEmptyChunks_flatten (chunks : List (List Nat)) :
    (nonEmptyChunks chunks).flatten = chunks.flatten := by
  unfold nonEmptyChunks
  induction chunks with
  | nil => rfl
  | cons x xs ih =>
    cases x with
    | nil => simpa [List.filter_cons] using ih
    | cons a as => simp [List.filter_cons, ih]

theorem nonEmptyChunks_append (xs ys : List (List Nat)) :
    nonEmptyChunks (xs ++ ys) = nonEmptyChunks xs ++ nonEmptyChunks ys := by
  simp [nonEmptyChunks, List.filter_append]

theorem acceptsInFull_of_full (w : Writer) (hfull : ∀ hist d, w hist d = (d.length, none))
    (chunks : List (List Nat)) : ∀ hist, acceptsInFull w hist chunks := by
  induction chunks with
  | nil => intro hist; trivial
  | cons c cs ih =>
    intro hist
    unfold acceptsInFull
    split
    · exact ih hist
    · exact ⟨hfull hist c, ih _⟩

theorem chunkReads_cons (c : List Nat) (cs : List (List Nat)) (tail : ReadScript) :
    chunkReads (c :: cs) ++ tail = (c, none) :: (chunkReads cs ++ tail) := rfl

theorem copyLoop_skip (w : Writer) (rest : ReadScript) (n : Nat) (ws : List (List Nat))
    (k : Nat) : copyLoop w (([], none) :: rest) n ws k = copyLoop w rest n ws (k + 1) := by
  simp [copyLoop]

theorem copyLoop_full (w : Writer) (rest : ReadScript) (d : List Nat) (n : Nat)
    (ws : List (List Nat)) (k : Nat) (hpos : 0 < d.length) (hsize : d.length ≤ MaxBufferSize)
    (hw : w ws d = (d.length, none)) :
    copyLoop w ((d, none) :: rest) n ws k =
      copyLoop w rest (n + d.length) (ws ++ [d]) (k + 1) := by
  simp [copyLoop, Nat.not_lt.2 hsize, hpos, hw]

theorem writeToLoop_skip (w : Writer) (rest : ReadScript) (n : Nat) (ws : List (List Nat))
    (k : Nat) : writeToLoop w (([], none) :: rest) n ws k = writeToLoop w rest n ws (k + 1) := by
  simp [writeToLoop]

theorem writeToLoop_full (w : Writer) (rest : ReadScript) (d : List Nat) (n : Nat)
    (ws : List (List Nat)) (k : Nat) (hpos : 0 < d.length)
    (hw : w ws d = (d.length, none)) :
    writeToLoop w ((d, none) :: rest) n ws k =
      writeToLoop w rest (n + d.length) (ws ++ [d]) (k + 1) := by
  simp [writeToLoop, hpos, hw]

/-- While the source yields chunks without error and the sink accepts them
in full, the loop of `Copy` goes on with the counters advanced. -/
theorem copyLoop_prefix (w : Writer) (tail : ReadScript) (pre : List (List Nat)) :
    ∀ (n : Nat) (ws : List (List Nat)) (k : Nat), acceptsInFull w ws pre →
      (∀ c ∈ pre, c.length ≤ MaxBufferSize) →
      copyLoop w (chunkReads pre ++ tail) n ws k =
        copyLoop w tail (n + pre.flatten.length) (ws ++ nonEmptyChunks pre) (k + pre.length) := by
  induction pre with
  | nil => intro n ws k _ _; simp [chunkReads, nonEmptyChunks]
  | cons c cs ih =>
    intro n ws k hacc hsize
    have hc : c.length ≤ MaxBufferSize := hsize c (List.mem_cons_self _ _)
    have hcs : ∀ x ∈ cs, x.length ≤ MaxBufferSize :=
      fun x hx => hsize x (List.mem_cons_of_mem _ hx)
    rw [chunkReads_cons]
    cases c with
    | nil =>
      have hacc2 : acceptsInFull w ws cs := by
        simpa [acceptsInFull] using hacc
      rw [copyLoop_skip, ih n ws (k + 1) hacc2 hcs]
      simp [nonEmptyChunks, List.filter_cons, Nat.add_assoc, Nat.add_comm 1]
    | cons a as =>
      have hacc2 : w ws (a :: as) = ((a :: as).length, none) ∧
          acceptsInFull w (ws ++ [a :: as]) cs := by
        simpa [acceptsInFull] using hacc
      rw [copyLoop_full w _ (a :: as) n ws k (by simp) hc hacc2.1,
        ih (n + (a :: as).length) (ws ++ [a :: as]) (k + 1) hacc2.2 hcs]
      simp [nonEmptyChunks, List.filter_cons, Nat.add_assoc, Nat.add_comm 1,
        Nat.add_left_comm]

/-- While the source yields data without error and the sink accepts it in
full, the loop of `TCPConn.WriteTo` goes on with the counters advanced. -/
theorem writeToLoop_prefix (w : Writer) (tail : ReadScript) (pre : List (List Nat)) :
    ∀ (n : Nat) (ws : List (List Nat)) (k : Nat), acceptsInFull w ws pre →
      writeToLoop w (chunkReads pre ++ tail) n ws k =
        writeToLoop w tail (n + pre.flatten.length) (ws ++ nonEmptyChunks pre)
          (k + pre.length) := by
  induction pre with
  | nil => intro n ws k _; simp [chunkReads, nonEmptyChunks]
  | cons c cs ih =>
    intro n ws k hacc
    rw [chunkReads_cons]
    cases c with
    | nil =>
      have hacc2 : acceptsInFull w ws cs := by
        simpa [acceptsInFull] using hacc
      rw [writeToLoop_skip, ih n ws (k + 1) hacc2]
      simp [nonEmptyChunks, List.filter_cons, Nat.add_assoc, Nat.add_comm 1]
    | cons a as =>
      have hacc2 : w ws (a :: as) = ((a :: as).length, none) ∧
          acceptsInFull w (ws ++ [a :: as]) cs := by
        simpa [acceptsInFull] using hacc
      rw [writeToLoop_full w _ (a :: as) n ws k (by simp) hacc2.1,
        ih (n + (a :: as).length) (ws ++ [a :: as]) (k + 1) hacc2.2]
      simp [nonEmptyChunks, List.filter_cons, Nat.add_assoc, Nat.add_comm 1,
        Nat.add_left_comm]

/-- Witness for C11 (amended): the own direction ends without error, the
other with a connection reset; the reset is reported, wrapped. -/
theorem C11_relay_error_reported_witness :
    ∃ evs res,
      resetStack.HandleTCP2 sampleTCPConn (some (NetAddr.tcp [198, 18, 0, 7] 443)) =
        Run.done (evs, res) ∧
      (res = none ↔ endedNonClean (some (Err.msg "connection reset by peer")) = false) := by
  obtain ⟨evs, res, h, _, h2, _⟩ :=
    C11_relay_error_reported resetStack sampleTCPConn [198, 18, 0, 7] 443 none
      (some (Err.msg "connection reset by peer")) rfl rfl
  exact ⟨evs, res, h, h2⟩

/-- Whatever the source and the sink do, no write of the loop of `Copy` is
longer than the staging buffer. -/
theorem copyLoop_writes_bound (w : Writer) (script : ReadScript) :
    ∀ (n : Nat) (ws : List (List Nat)) (k : Nat) (res : CopyResult),
      (∀ x ∈ ws, x.length ≤ MaxBufferSize) →
      copyLoop w script n ws k = Run.done res →
      ∀ x ∈ res.writes, x.length ≤ MaxBufferSize := by
  induction script with
  | nil => intro n ws k res _ h; simp [copyLoop] at h
  | cons e rest ih =>
    intro n ws k res hws h
    obtain ⟨data, er⟩ := e
    simp only [copyLoop] at h
    by_cases hbig : data.length > MaxBufferSize
    · simp [hbig] at h
    · have hws2 : ∀ x ∈ ws ++ [data], x.length ≤ MaxBufferSize := by
        intro x hx
        simp only [List.mem_append, List.mem_singleton] at hx
        rcases hx with hx | hx
        · exact hws x hx
        · subst hx; exact Nat.le_of_not_lt hbig
      simp only [hbig, if_false] at h
      split at h
      · split at h
        · cases h; exact hws2
        · split at h
          · cases h; exact hws2
          · split at h
            · split at h <;> cases h <;> exact hws2
            · exact ih _ _ _ res hws2 h
      · split at h
        · split at h <;> cases h <;> exact hws
        · exact ih _ _ _ res hws h

/-! ## Theorems: copy -/

/-- C12: for a source whose reads yield a finite sequence of chunks (each
fitting the 4096-byte buffer, as any read into it does) and then
end-of-stream, alone or together with a last chunk, and a sink that accepts
every write in full, with no fast path on either end, `Copy` returns; it
has written exactly the chunks that hold bytes, in order, so the
concatenation of its writes is the concatenation of the chunks, each write
is at most 4096 bytes, and it returns the total number of bytes and nil.
The bound of 4096 bytes on a write holds for every source and sink. -/
theorem C12_copy_delivers_all_chunks (w : Writer) (chunks : List (List Nat))
    (fin : List Nat) (rest : ReadScript)
    (hfull : ∀ hist d, w hist d = (d.length, none))
    (hsize : ∀ c ∈ chunks, c.length ≤ MaxBufferSize) (hfin : fin.length ≤ MaxBufferSize) :
    ∃ res, Copy none w (chunkReads chunks ++ (fin, some Err.EOF) :: rest) = Run.done res ∧
      res.writes = nonEmptyChunks (chunks ++ [fin]) ∧
      res.writes.flatten = (chunks ++ [fin]).flatten ∧
      (∀ x ∈ res.writes, x.length ≤ 4096) ∧
      res.n = (chunks ++ [fin]).flatten.length ∧
      res.err = none ∧
      res.reads = chunks.length + 1 ∧
      (∀ (script : ReadScript) (w0 : Writer) (res0 : CopyResult),
        Copy none w0 script = Run.done res0 → ∀ x ∈ res0.writes, x.length ≤ 4096) := by
  have hany : ∀ (script : ReadScript) (w0 : Writer) (res0 : CopyResult),
      Copy none w0 script = Run.done res0 → ∀ x ∈ res0.writes, x.length ≤ 4096 := by
    intro script w0 res0 h
    exact copyLoop_writes_bound w0 script 0 [] 0 res0 (by simp) h
  have hpre := copyLoop_prefix w ((fin, some Err.EOF) :: rest) chunks 0 [] 0
    (acceptsInFull_of_full w hfull chunks []) hsize
  have hbound : ∀ x ∈ nonEmptyChunks (chunks ++ [fin]), x.length ≤ 4096 := by
    intro x hx
    simp only [nonEmptyChunks, List.mem_filter, List.mem_append, List.mem_singleton] at hx
    rcases hx.1 with h | h
    · exact hsize x h
    · subst h; exact hfin
  cases fin with
  | nil =>
    refine ⟨⟨chunks.flatten.length, none, nonEmptyChunks chunks, chunks.length + 1⟩, ?_, ?_,
      ?_, ?_, ?_, rfl, rfl, hany⟩
    · simp only [Copy, hpre]
      simp [copyLoop]
    · simp [nonEmptyChunks_append, nonEmptyChunks]
    · simp [nonEmptyChunks_flatten]
    · simpa [nonEmptyChunks_append, nonEmptyChunks] using hbound
    · simp
  | cons a as =>
    refine ⟨⟨chunks.flatten.length + (a :: as).length, none,
      nonEmptyChunks chunks ++ [a :: as], chunks.length + 1⟩, ?_, ?_, ?_, ?_, ?_, rfl, rfl,
      hany⟩
    · have hfin2 : as.length + 1 ≤ MaxBufferSize := by simpa using hfin
      simp only [Copy, hpre]
      simp [copyLoop, hfin2, hfull]
    · simp [nonEmptyChunks_append, nonEmptyChunks]
    · simp [nonEmptyChunks_flatten]
    · simpa [nonEmptyChunks_append, nonEmptyChunks] using hbound
    · simp

/-- Witness for C12: the chunks `[1, 2]`, `[]`, `[3]`, then end-of-stream,
copied to a sink that accepts everything. -/
theorem C12_copy_delivers_all_chunks_witness :
    ∃ res,
      Copy none fullWriter (chunkReads [[1, 2], [], [3]] ++ [([], some Err.EOF)]) =
        Run.done res ∧
      res.writes = [[1, 2], [3]] ∧ res.n = 3 ∧ res.err = none := by
  obtain ⟨res, h, h1, _, _, h4, h5, _, _⟩ :=
    C12_copy_delivers_all_chunks fullWriter [[1, 2], [], [3]] [] [] (fun _ _ => rfl)
      (by decide) (by decide)
  exact ⟨res, h, h1, h4, h5⟩

/-- C13: in the loop of `Copy` and in `TCPConn.WriteTo`, after any number of
reads whose data the sink accepted in full, when the sink accepts fewer
bytes than the next write gives it and reports no error, the copy returns
at once with `ErrShortWrite`: the short write is its last write, the read
before it its last read, whatever error came with that read and whatever
the source holds further, and the count returned is the sum of the bytes
the sink accepted, those of the short write included. -/
theorem C13_short_write_stops_copy (w : Writer) (pre : List (List Nat)) (d : List Nat)
    (er : Option Err) (rest : ReadScript) (nw : Nat)
    (hpre : acceptsInFull w [] pre)
    (hshort : w (nonEmptyChunks pre) d = (nw, none)) (hlt : nw < d.length) :
    ((∀ c ∈ pre, c.length ≤ MaxBufferSize) → d.length ≤ MaxBufferSize →
      Copy none w (chunkReads pre ++ (d, er) :: rest) =
        Run.done ⟨pre.flatten.length + nw, some Err.ErrShortWrite,
          nonEmptyChunks pre ++ [d], pre.length + 1⟩) ∧
    TCPConn.WriteTo w (chunkReads pre ++ (d, er) :: rest) =
      Run.done ⟨pre.flatten.length + nw, some Err.ErrShortWrite,
        nonEmptyChunks pre ++ [d], pre.length + 1⟩ := by
  have hpos : 0 < d.length := by omega
  have hne : d.length ≠ nw := by omega
  constructor
  · intro hsize hd
    simp only [Copy, copyLoop_prefix w _ pre 0 [] 0 hpre hsize, List.nil_append, Nat.zero_add]
    by_cases h0 : 0 < nw <;>
      simp [copyLoop, Nat.not_lt.2 hd, hpos, hshort, hne, h0]
    omega
  · simp only [TCPConn.WriteTo, writeToLoop_prefix w _ pre 0 [] 0 hpre, List.nil_append,
      Nat.zero_add]
    by_cases h0 : 0 < nw <;>
      simp [writeToLoop, hpos, hshort, hne, h0]
    omega

/-- Witness for C13: a sink that takes two bytes of a three-byte write. -/
theorem C13_short_write_stops_copy_witness :
    Copy none twoByteWriter (chunkReads [[1], [2, 3]] ++ [([4, 5, 6], none), ([7], none)]) =
      Run.done ⟨5, some Err.ErrShortWrite, [[1], [2, 3], [4, 5, 6]], 3⟩ :=
  (C13_short_write_stops_copy twoByteWriter [[1], [2, 3]] [4, 5, 6] none [([7], none)] 2
    (by simp [acceptsInFull, twoByteWriter]) rfl (by decide)).1 (by decide) (by decide)

/-! ## Theorems: sending datagrams -/

/-- The failing input of C14: on an IPv4 route without TX checksum offload
`SendPacket` submits the datagram with the checksum field zero, while on an
IPv6 route with the same library, ports and payload the field carries the
complemented sum of pseudo header, payload and header. -/
theorem C14_ipv4_checksum_left_zero :
    plainLib.txChecksumOffload route4 = false ∧
    route4.NetProto = IPv4ProtocolNumber ∧
    SendPacket plainLib route4 [[1, 2, 3]] 4000 5000 =
      ([SendEvent.writePacket ⟨route4, 64, ⟨4000, 5000, 11, 0⟩, [[1, 2, 3]]⟩,
        SendEvent.packetsSentInc], none) ∧
    SendPacket plainLib mappedRequest.Route [[1, 2, 3]] 4000 5000 =
      ([SendEvent.writePacket ⟨mappedRequest.Route, 64, ⟨4000, 5000, 11, 65177⟩, [[1, 2, 3]]⟩,
        SendEvent.packetsSentInc], none) := by
  refine ⟨rfl, rfl, ?_, ?_⟩ <;> decide

/-- C14 (what the code does): `SendPacket` submits exactly one datagram,
whose ports are the two ports given and whose length field is the payload
size plus 8 (in 16 bits). It sets the checksum field only when the route
has no TX checksum offload and its network protocol is IPv6: the field is
then the 16-bit complement of `header.Checksum` over the eight header bytes
(checksum bytes zero), started from the sum folded over the payload views,
itself started from the pseudo-header sum for the length. In every other
case, so also on an IPv4 route without TX checksum offload, the field is
left zero. -/
theorem C14_checksum_only_on_ipv6_without_offload (lib : RouteLib) (r : Route)
    (data : List (List Nat)) (localPort remotePort : Nat) :
    ∃ pkt, writtenPackets (SendPacket lib r data localPort remotePort).1 = [pkt] ∧
      pkt.route = r ∧ pkt.data = data ∧
      pkt.hdr.SrcPort = localPort ∧ pkt.hdr.DstPort = remotePort ∧
      pkt.hdr.Length = (8 + (data.map List.length).sum) % 65536 ∧
      pkt.hdr.Checksum =
        (if lib.txChecksumOffload r = false ∧ r.NetProto = IPv6ProtocolNumber then
          65535 - lib.Checksum
            [localPort / 256 % 256, localPort % 256, remotePort / 256 % 256, remotePort % 256,
              pkt.hdr.Length / 256 % 256, pkt.hdr.Length % 256, 0, 0]
            (data.foldl (fun x v => lib.Checksum v x)
              (lib.PseudoHeaderChecksum r pkt.hdr.Length)) % 65536
        else 0) := by
  unfold SendPacket
  cases hoff : lib.txChecksumOffload r <;> cases hw : lib.writeErr r <;>
    by_cases h6 : r.NetProto = IPv6ProtocolNumber <;>
    simp [writtenPackets, hoff, h6, UDPMinimumSize, udpChecksum, UDPFields.bytes]

theorem SendPacket_one_packet (lib : RouteLib) (r : Route) (data : List (List Nat))
    (localPort remotePort : Nat) :
    ∃ pkt, writtenPackets (SendPacket lib r data localPort remotePort).1 = [pkt] ∧
      pkt.route = r ∧ pkt.data = data ∧
      pkt.hdr.SrcPort = localPort ∧ pkt.hdr.DstPort = remotePort := by
  unfold SendPacket
  cases hw : lib.writeErr r <;> cases hoff : lib.txChecksumOffload r <;>
    by_cases h6 : r.NetProto = IPv6ProtocolNumber <;>
    simp [writtenPackets, h6]

/-- C15 (as stated, refuted): `sampleRequest` creates a full-cone conn and the
first datagram of the IPv6 flow `mappedRequest`, whose source prints as the
same key, adds its route to the conn. A `WriteFrom` with the local address
of that second route as source then has a stored route with that local
address, yet the datagram is submitted over the first route with the local
address rewritten (an IPv4 route), not over the stored one. -/
theorem C15_write_ignores_matching_route :
    ∃ s1 s2 conn pkt,
      Stack.ForwardUDP mappedString emptyFilter Stack.init sampleRequest sampleReply 0 =
        Run.done s1 ∧
      Stack.ForwardUDP mappedString emptyFilter s1 mappedRequest sampleReply 0 =
        Run.done s2 ∧
      s2.heap2[0]? = some conn ∧
      mappedRequest.Route ∈ conn.route ∧
      mappedRequest.Route.LocalAddress = addr6 ∧
      conn.WriteFrom plainLib [1, 2, 3] (some (NetAddr.udp ⟨addr6, 4001⟩)) false =
        Run.done (3, none, [SendEvent.writePacket pkt, SendEvent.packetsSentInc], conn) ∧
      pkt.route = { sampleRequest.Route with LocalAddress := addr6 } ∧
      pkt.route ≠ mappedRequest.Route := by
  refine ⟨_, _, _, _, rfl, rfl, rfl, ?_, rfl, rfl, rfl, ?_⟩
  · decide
  · decide

/-- C15 (amended): for every write on a full-cone conn (which holds at least
one route) whose write deadline has not expired, `WriteFrom(b, src)` with a
UDP address `src` returns `len(b)` and the error of the send, having
submitted exactly one datagram with payload `b`, with the source port of
`src` and the remote port of the conn as destination port (both in 16
bits), always over a clone of the first stored route with its local
address rewritten to the address of `src`, whether or not a stored route
has that local address; the conn and its stored routes are unchanged. -/
theorem C15_write_from_clones_first_route (lib : RouteLib) (c : UDPConn2) (b : List Nat)
    (src : UDPAddr) (r0 : Route) (rs : List Route) (hroute : c.route = r0 :: rs) :
    ∃ err evs pkt,
      c.WriteFrom lib b (some (NetAddr.udp src)) false = Run.done (b.length, err, evs, c) ∧
      writtenPackets evs = [pkt] ∧
      pkt.route = { r0 with LocalAddress := src.IP } ∧
      pkt.data = [b] ∧
      pkt.hdr.SrcPort = src.Port % 65536 ∧
      pkt.hdr.DstPort = c.raddr.Port % 65536 ∧
      (src.Port < 65536 → pkt.hdr.SrcPort = src.Port) ∧
      (c.raddr.Port < 65536 → pkt.hdr.DstPort = c.raddr.Port) := by
  obtain ⟨pkt, h1, h2, h3, h4, h5⟩ :=
    SendPacket_one_packet lib { r0 with LocalAddress := src.IP } [b] (src.Port % 65536)
      (c.raddr.Port % 65536)
  refine ⟨(SendPacket lib { r0 with LocalAddress := src.IP } [b] (src.Port % 65536)
      (c.raddr.Port % 65536)).2,
    (SendPacket lib { r0 with LocalAddress := src.IP } [b] (src.Port % 65536)
      (c.raddr.Port % 65536)).1, pkt, ?_, h1, h2, h3, h4, h5, ?_, ?_⟩
  · simp only [UDPConn2.WriteFrom, hroute, Bool.false_eq_true, if_false]
  · intro h; rw [h4, Nat.mod_eq_of_lt h]
  · intro h; rw [h5, Nat.mod_eq_of_lt h]

/-- Witness for C15 (amended): a write of three bytes from `10.0.0.9:4001` on
the conn with one packet. -/
theorem C15_write_from_clones_first_route_witness :
    ∃ err evs pkt,
      onePacketConn2.WriteFrom plainLib [1, 2, 3] (some (NetAddr.udp ⟨[10, 0, 0, 9], 4001⟩))
        false = Run.done (3, err, evs, onePacketConn2) ∧
      writtenPackets evs = [pkt] ∧
      pkt.route = ⟨1, 2048, [10, 0, 0, 9], [10, 0, 0, 2]⟩ ∧
      pkt.hdr.SrcPort = 4001 ∧ pkt.hdr.DstPort = 5000 := by
  obtain ⟨err, evs, pkt, h1, h2, h3, _, _, _, h7, h8⟩ :=
    C15_write_from_clones_first_route plainLib onePacketConn2 [1, 2, 3] ⟨[10, 0, 0, 9], 4001⟩
      ⟨1, 2048, [10, 0, 0, 1], [10, 0, 0, 2]⟩ [] rfl
  exact ⟨err, evs, pkt, h1, h2, h3, h7 (by decide), h8 (by decide)⟩

/-- C16: the listener conn registers its endpoint under the local address
and port of the request with the remote address empty and the remote port
0; a packet it enqueues is the payload tagged with the remote address and
port of its datagram; and `WriteTo(b, addr)` with a UDP address and no
expired write deadline submits exactly one datagram with payload `b`, from
the local port of the conn to the port of `addr`, over its route with the
remote address set to the IP of `addr`, and returns `len(b)`. -/
theorem C16_listener_wildcard_and_addresses (lib : RouteLib) (l : UDPConn3)
    (rr : ForwarderRequest) (reply : StackReply) (id : TransportEndpointID)
    (pkt : PacketBuffer) (pick : Nat) (b : List Nat) (addr : UDPAddr)
    (hlocal : l.addr.Port < 65536) (hport : addr.Port < 65536) :
    (∃ ok, (l.HandleRequest rr reply).2.1 =
        [Event.register rr.Route.NICID rr.Route.NetProto
          ⟨rr.ID.LocalPort, rr.ID.LocalAddress, 0, []⟩ l.unique ok] ∧
      (l.HandleRequest rr reply).1.tranID = ⟨rr.ID.LocalPort, rr.ID.LocalAddress, 0, []⟩) ∧
    (∀ l1, (l.HandlePacket id pkt pick).2 = Run.done l1 → l1.stream ≠ l.stream →
      l1.stream = l.stream ++ [⟨NetAddr.udp ⟨id.RemoteAddress, id.RemotePort⟩, pkt.Data⟩]) ∧
    (∃ err evs sent,
      l.WriteTo lib b (some (NetAddr.udp addr)) false = Run.done (b.length, err, evs, l) ∧
      writtenPackets evs = [sent] ∧
      sent.route = { l.route with RemoteAddress := addr.IP } ∧
      sent.data = [b] ∧
      sent.hdr.SrcPort = l.addr.Port ∧
      sent.hdr.DstPort = addr.Port) := by
  refine ⟨?_, ?_, ?_⟩
  · unfold UDPConn3.HandleRequest
    cases reply.registerErr <;> exact ⟨_, rfl, rfl⟩
  · intro l1 h hne
    unfold UDPConn3.HandlePacket at h
    split at h
    · simp at h
    · split at h
      · simp at h; subst h; exact absurd rfl hne
      · simp only at h
        split at h
        · simp at h
        · simp at h; subst h; exact absurd rfl hne
        · simp at h; subst h; rfl
  · obtain ⟨sent, h1, h2, h3, h4, h5⟩ :=
      SendPacket_one_packet lib { l.route with RemoteAddress := addr.IP } [b]
        (l.addr.Port % 65536) (addr.Port % 65536)
    refine ⟨(SendPacket lib { l.route with RemoteAddress := addr.IP } [b]
        (l.addr.Port % 65536) (addr.Port % 65536)).2,
      (SendPacket lib { l.route with RemoteAddress := addr.IP } [b]
        (l.addr.Port % 65536) (addr.Port % 65536)).1, sent, ?_, h1, h2, h3, ?_, ?_⟩
    · simp only [UDPConn3.WriteTo, Bool.false_eq_true, if_false]
    · rw [h4, Nat.mod_eq_of_lt hlocal]
    · rw [h5, Nat.mod_eq_of_lt hport]

/-- Witness for C16: the empty listener conn answers `10.0.0.7:6000`. -/
theorem C16_listener_wildcard_and_addresses_witness :
    ∃ err evs sent,
      emptyConn3.WriteTo plainLib [9, 9] (some (NetAddr.udp ⟨[10, 0, 0, 7], 6000⟩)) false =
        Run.done (2, err, evs, emptyConn3) ∧
      writtenPackets evs = [sent] ∧
      sent.route = ⟨1, 2048, [10, 0, 0, 1], [10, 0, 0, 7]⟩ ∧
      sent.hdr.SrcPort = 53 ∧ sent.hdr.DstPort = 6000 := by
  obtain ⟨err, evs, sent, h1, h2, h3, _, h5, h6⟩ :=
    (C16_listener_wildcard_and_addresses plainLib emptyConn3 sampleRequest sampleReply
      sampleID oneByteDatagram 0 [9, 9] ⟨[10, 0, 0, 7], 6000⟩ (by decide) (by decide)).2.2
  exact ⟨err, evs, sent, h1, h2, h3, h5, h6⟩

/-! ## Theorems: the DNS buffer, inbound frames and the TCP forwarder -/

theorem NewMessage_length : NewMessage.b.length = 1024 :=
  List.length_replicate 1024 0

theorem NewMessage_payload_space : (NewMessage.b.drop 2).length = 1022 := by
  rw [List.length_drop, NewMessage_length]

theorem bigQuery_length : (List.replicate 1024 7).length = 1024 :=
  List.length_replicate 1024 7

/-- C17 (as stated, refuted): the buffer `HandleUDP3` reads a query into is
`x.b[2:]` of a 1024-byte buffer, 1022 bytes; a DNS query of 1024 bytes is
cut to 1022 bytes, the read reports `ErrShortBuffer` and the loop ends with
a receive error. -/
theorem C17_query_of_1024_bytes_truncated :
    (NewMessage.b.drop 2).length = 1022 ∧
    bigQueryConn.closed = false ∧
    bigQueryConn.stream.map (fun p => p.View.length) = [1024] ∧
    ∃ r conn1, bigQueryConn.ReadFrom (NewMessage.b.drop 2) false 0 = Run.done (r, conn1) ∧
      r.n = 1022 ∧ r.err = some Err.ErrShortBuffer ∧
      HandleUDP3Pass bigQueryConn NewMessage false 0 =
        Run.done (HijackPass.stop
          (some (Err.wrap "receive dns error: " Err.ErrShortBuffer)), conn1) := by
  have hread := conn3_ReadFrom_open bigQueryConn (NewMessage.b.drop 2) 0
    ⟨NetAddr.udp ⟨[10, 0, 0, 2], 5000⟩, List.replicate 1024 7⟩ [] rfl rfl
  obtain ⟨hn, _, _, _, herr, _⟩ :=
    dequeueResult_spec ⟨NetAddr.udp ⟨[10, 0, 0, 2], 5000⟩, List.replicate 1024 7⟩
      (NewMessage.b.drop 2)
  have hshort : (dequeueResult ⟨NetAddr.udp ⟨[10, 0, 0, 2], 5000⟩, List.replicate 1024 7⟩
      (NewMessage.b.drop 2)).err = some Err.ErrShortBuffer :=
    herr.2 (by
      show (NewMessage.b.drop 2).length < (List.replicate 1024 7).length
      rw [NewMessage_payload_space, bigQuery_length]; decide)
  have hq : bigQueryConn.stream.map (fun p => p.View.length) = [1024] := by
    show [(List.replicate 1024 7).length] = [1024]
    rw [bigQuery_length]
  refine ⟨NewMessage_payload_space, rfl, hq, _, _, hread, ?_, hshort, ?_⟩
  · rw [hn]
    show min (NewMessage.b.drop 2).length (List.replicate 1024 7).length = 1022
    rw [NewMessage_payload_space, bigQuery_length]; decide
  · simp only [HandleUDP3Pass, hread, Run.bind_done, hshort]
    rfl

/-- C17 (amended): the pooled DNS buffer is 1024 bytes in all and offers
1022 bytes of payload space after its 2 reserved leading bytes, so on an
open listener conn with no expired deadline every queued DNS query of at
most 1022 bytes is read in full, without error, into the buffer behind its
two leading bytes; a longer query is cut to 1022 bytes and ends the loop
with a receive error. -/
theorem C17_dns_buffer_holds_1022_bytes (l : UDPConn3) (x : Message) (q : Packet)
    (rest : List Packet) (pick : Nat) (hx : x.b.length = 1024)
    (hopen : l.closed = false) (hq : l.stream = q :: rest) :
    (x.b.drop 2).length = 1022 ∧
    (q.View.length ≤ 1022 →
      HandleUDP3Pass l x false pick =
        Run.done (HijackPass.serve q.View.length (some q.Addr)
          (x.b.take 2 ++ (q.View ++ (x.b.drop 2).drop q.View.length)),
          { l with stream := rest })) ∧
    (1022 < q.View.length →
      ∃ r, l.ReadFrom (x.b.drop 2) false pick = Run.done (r, { l with stream := rest }) ∧
        r.n = 1022 ∧ r.err = some Err.ErrShortBuffer ∧
        HandleUDP3Pass l x false pick =
          Run.done (HijackPass.stop
            (some (Err.wrap "receive dns error: " Err.ErrShortBuffer)),
            { l with stream := rest })) := by
  have hlen : (x.b.drop 2).length = 1022 := by simp [hx]
  have hread := conn3_ReadFrom_open l (x.b.drop 2) pick q rest hopen hq
  refine ⟨hlen, ?_, ?_⟩
  · intro hfit
    have hfull := dequeueResult_fits q (x.b.drop 2) (by omega)
    simp only [HandleUDP3Pass, hread, Run.bind_done, hfull, fullRead]
  · intro hbig
    obtain ⟨hn, _, _, _, herr, _⟩ := dequeueResult_spec q (x.b.drop 2)
    have hshort : (dequeueResult q (x.b.drop 2)).err = some Err.ErrShortBuffer :=
      herr.2 (by omega)
    refine ⟨_, hread, ?_, hshort, ?_⟩
    · rw [hn, hlen]; omega
    · simp only [HandleUDP3Pass, hread, Run.bind_done, hshort]
      rfl

/-- Witness for C17 (amended): a three-byte query on the listener conn with
one packet. -/
theorem C17_dns_buffer_holds_1022_bytes_witness :
    (NewMessage.b.drop 2).length = 1022 ∧
    HandleUDP3Pass onePacketConn3 NewMessage false 0 =
      Run.done (HijackPass.serve 3 (some (NetAddr.udp ⟨[10, 0, 0, 1], 4000⟩))
        (NewMessage.b.take 2 ++ ([1, 2, 3] ++ (NewMessage.b.drop 2).drop 3)),
        { onePacketConn3 with stream := [] }) :=
  let h := C17_dns_buffer_holds_1022_bytes onePacketConn3 NewMessage
    ⟨NetAddr.udp ⟨[10, 0, 0, 1], 4000⟩, [1, 2, 3]⟩ [] 0 NewMessage_length rfl rfl
  ⟨h.1, h.2.1 (by decide)⟩

/-- C18: for every byte sequence `b`, the empty one included, `Stack.Write`
returns `(len(b), nil)`; it injects `b` at most once: as IPv4 when the
first nibble is 4, as IPv6 when it is 6, and not at all for any other first
nibble or for the empty sequence. -/
theorem C18_write_never_fails (b : List Nat) :
    (Stack.Write b).2 = (b.length, none) ∧
    (Stack.Write b).1.length ≤ 1 ∧
    (Stack.Write b).1 =
      (match firstNibble b with
        | some 4 => [⟨IPv4ProtocolNumber, b⟩]
        | some 6 => [⟨IPv6ProtocolNumber, b⟩]
        | _ => []) := by
  cases b with
  | nil => simp [Stack.Write, IPVersion, firstNibble]
  | cons b0 bs =>
    simp only [Stack.Write, IPVersion, firstNibble, List.head?_cons, Option.map_some']
    by_cases h4 : b0 % 256 / 16 = 4
    · simp [h4]
    · by_cases h6 : b0 % 256 / 16 = 6
      · simp [h6]
      · have h4i : ¬ ((b0 % 256 / 16 : Nat) : Int) = 4 := by omega
        have h6i : ¬ ((b0 % 256 / 16 : Nat) : Int) = 6 := by omega
        simp only [h4i, h6i, if_false]
        refine ⟨trivial, by simp, ?_⟩
        split
        · rename_i h; simp at h; exact absurd h h4
        · rename_i h; simp at h; exact absurd h h6
        · rfl

/-- C19: `ForwardTCP` creates the endpoint once. When the creation succeeds
it completes the handshake once, accepting it (`Complete(false)`), and
invokes `Handler.Handle` exactly once, with the new connection; when the
creation fails it completes the handshake once, rejecting it with a reset
(`Complete(true)`), and never invokes the handler. -/
theorem C19_forward_tcp_accepts_or_rejects (conn : Nat) (e : String) :
    completions (Stack.ForwardTCP none conn) = [false] ∧
    tcpHandlerCalls (Stack.ForwardTCP none conn) = [TCPFwdEvent.goHandle conn] ∧
    completions (Stack.ForwardTCP (some e) conn) = [true] ∧
    tcpHandlerCalls (Stack.ForwardTCP (some e) conn) = [] ∧
    (Stack.ForwardTCP none conn).count TCPFwdEvent.createEndpoint = 1 ∧
    (Stack.ForwardTCP (some e) conn).count TCPFwdEvent.createEndpoint = 1 := by
  refine ⟨rfl, rfl, rfl, rfl, ?_, ?_⟩ <;> simp [Stack.ForwardTCP]

/-! ## Theorems: the pairs a close releases -/

theorem handleRequests_eq (reqs : List (ForwarderRequest × StackReply)) :
    ∀ c : UDPConn2, c.handleRequests reqs =
      ({ c with
          route := c.route ++ reqs.map (fun q => q.1.Route)
          tranID := c.tranID ++ reqs.map (fun q => q.1.ID) },
        reqs.map fun q => registerEvent q.1 c.unique q.2.registerErr.isNone) := by
  induction reqs with
  | nil => intro c; simp [UDPConn2.handleRequests]
  | cons q qs ih =>
    intro c
    obtain ⟨rr, reply⟩ := q
    simp only [UDPConn2.handleRequests, UDPConn2.HandleRequest]
    cases hreg : reply.registerErr <;> simp [ih, registerEvent, hreg]

theorem closeCalls_append (c : UDPConn2) (reqs : List (ForwarderRequest × StackReply))
    (hlen : c.route.length = c.tranID.length) :
    UDPConn2.closeCalls { c with
        route := c.route ++ reqs.map (fun q => q.1.Route)
        tranID := c.tranID ++ reqs.map (fun q => q.1.ID) } =
      c.closeCalls ++ reqs.flatMap fun q => requestCalls c q.1 := by
  simp only [UDPConn2.closeCalls, List.zip_append hlen, List.flatMap_append]
  congr 1
  induction reqs with
  | nil => rfl
  | cons q qs ih => simp [List.flatMap_cons, requestCalls, ih]

/-- C20 (what the code does): after any sequence of `HandleRequest` calls on
an open full-cone conn whose two lists have equal length, the lists still
have equal length and `Close` returns nil without panicking; but the pairs
it unregisters and releases are those the conn held before plus the pair
of every request of the sequence, in order, each once, whether the
registration of that request succeeded or failed. -/
theorem C20_close_releases_every_appended_pair (addrString : UDPAddr → String)
    (c : UDPConn2) (reqs : List (ForwarderRequest × StackReply))
    (hlen : c.route.length = c.tranID.length) (hopen : c.closed = false)
    (hdel : c.Delete = some DeleteFn.stackDel) :
    ∃ c1 evs, c.handleRequests reqs = (c1, evs) ∧
      evs = reqs.map (fun q => registerEvent q.1 c.unique q.2.registerErr.isNone) ∧
      c1.route.length = c1.tranID.length ∧
      c1.Close addrString =
        Run.done (none, { c1 with closed := true },
          c.closeCalls ++ (reqs.flatMap fun q => requestCalls c q.1)
            ++ [Event.delete (addrString c.raddr)]) := by
  refine ⟨_, _, handleRequests_eq reqs c, rfl, ?_, ?_⟩
  · simp [hlen]
  · have hclose := conn2_Close_open addrString
      { c with
        route := c.route ++ reqs.map (fun q => q.1.Route)
        tranID := c.tranID ++ reqs.map (fun q => q.1.ID) } hopen hdel (by simp [hlen])
    rw [closeCalls_append c reqs hlen] at hclose
    exact hclose

/-- Witness for C20: the conn `sampleRequest` created, a `HandleRequest` for
`secondRequest` whose registration the stack refuses, then `Close`: the
pair of the refused request is unregistered and released all the same. -/
theorem C20_close_releases_every_appended_pair_witness :
    ∃ c1 evs,
      (firstConn2 sampleRequest sampleReply).handleRequests [(secondRequest, refusingReply)] =
        (c1, evs) ∧
      evs = [registerEvent secondRequest 7 false] ∧
      c1.Close dottedString =
        Run.done (none, { c1 with closed := true },
          (firstConn2 sampleRequest sampleReply).closeCalls
            ++ requestCalls (firstConn2 sampleRequest sampleReply) secondRequest
            ++ [Event.delete (dottedString ⟨[10, 0, 0, 2], 5000⟩)]) := by
  obtain ⟨c1, evs, h1, h2, _, h4⟩ :=
    C20_close_releases_every_appended_pair dottedString (firstConn2 sampleRequest sampleReply)
      [(secondRequest, refusingReply)] rfl rfl rfl
  refine ⟨c1, evs, h1, h2, ?_⟩
  rw [h4]
  rfl

/-! ## Theorems: the closing calls of `relay` -/

/-- A step of the goroutine of `relay` leads from a state fixed by the two
positions to the state fixed by the new positions, and `relay` has returned
only if `relay2` has. -/
theorem relayStep_at (err1 err2 : Option Err) (pc pc2 : RelayPC)
    (h : pc = RelayPC.returned → pc2 = RelayPC.returned) :
    relayStep err1 (relayStateAt err1 err2 pc pc2) =
        relayStateAt err1 err2 (relayStep err1 (relayStateAt err1 err2 pc pc2)).pc pc2 ∧
      ((relayStep err1 (relayStateAt err1 err2 pc pc2)).pc = RelayPC.returned →
        pc2 = RelayPC.returned) := by
  cases pc <;> cases pc2 <;> cases err1 <;> cases err2 <;>
    simp_all [relayStep, relayStateAt, relay, relay2, RelayPC.callsMade]

/-- The same for a step of the goroutine of `relay2`. -/
theorem relay2Step_at (err1 err2 : Option Err) (pc pc2 : RelayPC)
    (h : pc = RelayPC.returned → pc2 = RelayPC.returned) :
    relay2Step err2 (relayStateAt err1 err2 pc pc2) =
        relayStateAt err1 err2 pc (relay2Step err2 (relayStateAt err1 err2 pc pc2)).pc2 ∧
      (pc = RelayPC.returned →
        (relay2Step err2 (relayStateAt err1 err2 pc pc2)).pc2 = RelayPC.returned) := by
  cases pc <;> cases pc2 <;> cases err1 <;> cases err2 <;>
    simp_all [relay2Step, relayStateAt, relay, relay2, RelayPC.callsMade]

/-- Every state the relay reaches along a schedule is fixed by the two
positions, and `relay` has returned in it only if `relay2` has. -/
theorem relayRun_at (err1 err2 : Option Err) (schedule : List Bool) :
    ∀ pc pc2 : RelayPC, (pc = RelayPC.returned → pc2 = RelayPC.returned) →
      ∃ qc qc2 : RelayPC, (qc = RelayPC.returned → qc2 = RelayPC.returned) ∧
        relayRun err1 err2 schedule (relayStateAt err1 err2 pc pc2) =
          relayStateAt err1 err2 qc qc2 := by
  induction schedule with
  | nil => exact fun pc pc2 h => ⟨pc, pc2, h, rfl⟩
  | cons second rest ih =>
    intro pc pc2 h
    cases second with
    | true =>
      obtain ⟨h1, h2⟩ := relay2Step_at err1 err2 pc pc2 h
      obtain ⟨qc, qc2, hq, hrun⟩ := ih pc _ h2
      refine ⟨qc, qc2, hq, ?_⟩
      rw [← hrun, ← h1]
      rfl
    | false =>
      obtain ⟨h1, h2⟩ := relayStep_at err1 err2 pc pc2 h
      obtain ⟨qc, qc2, hq, hrun⟩ := ih _ pc2 h2
      refine ⟨qc, qc2, hq, ?_⟩
      rw [← hrun, ← h1]
      rfl

/-- From every such state, four steps of `relay2` and then four of `relay`
make `relay` return. -/
theorem relayRun_finishing (err1 err2 : Option Err) (pc pc2 : RelayPC) :
    (relayRun err1 err2 finishingSchedule (relayStateAt err1 err2 pc pc2)).result =
      some (relay err1 err2).err := by
  cases pc <;> cases pc2 <;> cases err1 <;> cases err2 <;> rfl

/-- With an error on the side of `relay` and none on the side of `relay2`:
`relay` stays parked at `<-errCh` after its two `Close` calls while `relay2`
has not sent, and returns its own error once `relay2` has. -/
theorem relay_waits_for_relay2 :
    (relayRun (some Err.EOF) none (relayFirstSchedule.take 5) relayStart).result = none ∧
      (relayRun (some Err.EOF) none (relayFirstSchedule.take 5) relayStart).calls =
        [CloseCall.Close Peer.c, CloseCall.Close Peer.rc] ∧
      (relayRun (some Err.EOF) none relayFirstSchedule relayStart).result =
        some (some Err.EOF) :=
  ⟨rfl, rfl, rfl⟩

/-- C21: in `relay` the direction of the calling goroutine (`Copy(c, rc)`,
sink `c`, source `rc`) and that of `relay2` (`Copy(rc, c)`, sink `rc`,
source `c`) each make one of two lists of closing calls: after a copy
without error close-write on the sink and close-read on the source, and no
`Close`; after a copy with an error `Close` on both ends. In every
interleaving of the two goroutines each has made a prefix of its list, and
either `relay` has not returned, or it has and then `relay2` has ended too,
both lists are complete and the error returned is the one of the function
`relay`. Whatever the interleaving so far, letting both goroutines run on
makes `relay` return. -/
theorem C21_relay_directions_close_and_join (err1 err2 : Option Err) (schedule : List Bool) :
    (relay err1 err2).calls =
        (match err1 with
          | none => [CloseCall.CloseWrite Peer.c, CloseCall.CloseRead Peer.rc]
          | some _ => [CloseCall.Close Peer.c, CloseCall.Close Peer.rc]) ∧
      (relay err1 err2).calls2 =
        (match err2 with
          | none => [CloseCall.CloseWrite Peer.rc, CloseCall.CloseRead Peer.c]
          | some _ => [CloseCall.Close Peer.rc, CloseCall.Close Peer.c]) ∧
      (relayRun err1 err2 schedule relayStart).calls <+: (relay err1 err2).calls ∧
      (relayRun err1 err2 schedule relayStart).calls2 <+: (relay err1 err2).calls2 ∧
      ((relayRun err1 err2 schedule relayStart).result = none ∨
        ((relayRun err1 err2 schedule relayStart).result = some (relay err1 err2).err ∧
          (relayRun err1 err2 schedule relayStart).pc = RelayPC.returned ∧
          (relayRun err1 err2 schedule relayStart).pc2 = RelayPC.returned ∧
          (relayRun err1 err2 schedule relayStart).calls = (relay err1 err2).calls ∧
          (relayRun err1 err2 schedule relayStart).calls2 = (relay err1 err2).calls2)) ∧
      (relayRun err1 err2 (schedule ++ finishingSchedule) relayStart).result =
        some (relay err1 err2).err := by
  have hstart : relayStart = relayStateAt err1 err2 RelayPC.copying RelayPC.copying := by
    simp [relayStart, relayStateAt, RelayPC.callsMade]
  obtain ⟨qc, qc2, hq, hrun⟩ :=
    relayRun_at err1 err2 schedule RelayPC.copying RelayPC.copying (by simp)
  rw [← hstart] at hrun
  have hfin : (relayRun err1 err2 (schedule ++ finishingSchedule) relayStart).result =
      some (relay err1 err2).err := by
    have happ : relayRun err1 err2 (schedule ++ finishingSchedule) relayStart =
        relayRun err1 err2 finishingSchedule (relayRun err1 err2 schedule relayStart) := by
      simp [relayRun, List.foldl_append]
    rw [happ, hrun]
    exact relayRun_finishing err1 err2 qc qc2
  refine ⟨?_, ?_, ?_, ?_, ?_, hfin⟩
  · cases err1 <;> cases err2 <;> rfl
  · cases err1 <;> cases err2 <;> rfl
  · rw [hrun]
    exact List.take_prefix _ _
  · rw [hrun]
    exact List.take_prefix _ _
  · rw [hrun]
    by_cases hret : qc = RelayPC.returned
    · right
      have hret2 := hq hret
      subst hret
      subst hret2
      cases err1 <;> cases err2 <;> simp [relayStateAt, relay, relay2, RelayPC.callsMade]
    · left
      simp [relayStateAt, hret]

/-! ## Theorems: the counters of `HandlePacket` -/

/-- C22: for a datagram whose UDP header carries the length field `len`,
`HandlePacket` of a full-cone conn and of a listener conn counts the
datagram as malformed and returns with the conn as it was exactly when
`len` exceeds the payload size plus the 8 bytes of the header; the counter
incremented is the malformed one in that case and the received one in
every other, and each call increments exactly one of the two, once. -/
theorem C22_handle_packet_counts_once (c : UDPConn2) (l : UDPConn3) (id : TransportEndpointID)
    (pkt : PacketBuffer) (pick len : Nat) (hlen : UDPLength pkt.TransportHeader = some len) :
    (c.HandlePacket id pkt pick = ([Event.malformedInc], Run.done c) ↔
        pkt.Data.length + UDPMinimumSize < len) ∧
      (c.HandlePacket id pkt pick).1 =
        (if pkt.Data.length + UDPMinimumSize < len then [Event.malformedInc]
          else [Event.receivedInc]) ∧
      (c.HandlePacket id pkt pick).1.count Event.malformedInc +
        (c.HandlePacket id pkt pick).1.count Event.receivedInc = 1 ∧
      (l.HandlePacket id pkt pick = ([Event.malformedInc], Run.done l) ↔
        pkt.Data.length + UDPMinimumSize < len) ∧
      (l.HandlePacket id pkt pick).1 =
        (if pkt.Data.length + UDPMinimumSize < len then [Event.malformedInc]
          else [Event.receivedInc]) ∧
      (l.HandlePacket id pkt pick).1.count Event.malformedInc +
        (l.HandlePacket id pkt pick).1.count Event.receivedInc = 1 := by
  have h2 : (c.HandlePacket id pkt pick).1 =
      (if pkt.Data.length + UDPMinimumSize < len then [Event.malformedInc]
        else [Event.receivedInc]) := by
    simp only [UDPConn2.HandlePacket, hlen, gt_iff_lt]
    by_cases hbig : pkt.Data.length + UDPMinimumSize < len
    · simp [hbig]
    · simp only [hbig, if_false]
      split <;> rfl
  have h3 : (l.HandlePacket id pkt pick).1 =
      (if pkt.Data.length + UDPMinimumSize < len then [Event.malformedInc]
        else [Event.receivedInc]) := by
    simp only [UDPConn3.HandlePacket, hlen, gt_iff_lt]
    by_cases hbig : pkt.Data.length + UDPMinimumSize < len
    · simp [hbig]
    · simp only [hbig, if_false]
      split <;> rfl
  refine ⟨?_, h2, ?_, ?_, h3, ?_⟩
  · constructor
    · intro h
      by_contra hbig
      have h1 := congrArg Prod.fst h
      rw [h2, if_neg hbig] at h1
      simp at h1
    · intro hbig
      simp [UDPConn2.HandlePacket, hlen, hbig]
  · rw [h2]
    by_cases hbig : pkt.Data.length + UDPMinimumSize < len <;> simp [hbig]
  · constructor
    · intro h
      by_contra hbig
      have h1 := congrArg Prod.fst h
      rw [h3, if_neg hbig] at h1
      simp at h1
    · intro hbig
      simp [UDPConn3.HandlePacket, hlen, hbig]
  · rw [h3]
    by_cases hbig : pkt.Data.length + UDPMinimumSize < len <;> simp [hbig]

/-- Witness for C22: a datagram with one byte of payload whose length field
says 300, handed to an open full-cone conn and an open listener conn with
empty queues: both count it as malformed and stay as they were. -/
theorem C22_handle_packet_counts_once_witness :
    UDPLength oversizedDatagram.TransportHeader = some 300 ∧
      emptyConn2.HandlePacket sampleID oversizedDatagram 0 =
        ([Event.malformedInc], Run.done emptyConn2) ∧
      emptyConn3.HandlePacket sampleID oversizedDatagram 0 =
        ([Event.malformedInc], Run.done emptyConn3) ∧
      (emptyConn2.HandlePacket sampleID oneByteDatagram 0).1 = [Event.receivedInc] :=
  ⟨rfl,
    (C22_handle_packet_counts_once emptyConn2 emptyConn3 sampleID oversizedDatagram 0 300
      rfl).1.2 (by decide),
    (C22_handle_packet_counts_once emptyConn2 emptyConn3 sampleID oversizedDatagram 0 300
      rfl).2.2.2.1.2 (by decide),
    (C22_handle_packet_counts_once emptyConn2 emptyConn3 sampleID oneByteDatagram 0 9
      rfl).2.1⟩

/-! ## Theorems: writes to an address that is no UDP address -/

/-- C23 (what the code does): for an address argument that is no UDP
address, the nil address included, `UDPConn2.WriteFrom` and
`UDPConn3.WriteTo` return an error only when the write deadline has already
expired (the timeout error, with nothing sent); otherwise the unchecked
assertion `addr.(*net.UDPAddr)` panics, whatever the conn and the bytes, and
the call returns nothing to its caller. -/
theorem C23_write_to_non_udp_address_panics (lib : RouteLib) (c : UDPConn2) (l : UDPConn3)
    (b : List Nat) (addr : Option NetAddr) (hna : ∀ u, addr ≠ some (NetAddr.udp u)) :
    c.WriteFrom lib b addr false = Run.panic ∧
      l.WriteTo lib b addr false = Run.panic ∧
      c.WriteFrom lib b addr true = Run.done (0, some Err.timeout, [], c) ∧
      l.WriteTo lib b addr true = Run.done (0, some Err.timeout, [], l) := by
  refine ⟨?_, ?_, rfl, rfl⟩
  · cases addr with
    | none => rfl
    | some a =>
      cases a with
      | udp u => exact absurd rfl (hna u)
      | tcp ip port => rfl
      | domain raw => rfl
  · cases addr with
    | none => rfl
    | some a =>
      cases a with
      | udp u => exact absurd rfl (hna u)
      | tcp ip port => rfl
      | domain raw => rfl

/-- Witness for C23: a write of one byte with the nil address and no expired
deadline panics on the sample full-cone conn and on the sample listener
conn. -/
theorem C23_write_to_non_udp_address_panics_witness :
    emptyConn2.WriteFrom plainLib [1] none false = Run.panic ∧
      emptyConn3.WriteTo plainLib [1] none false = Run.panic :=
  ⟨(C23_write_to_non_udp_address_panics plainLib emptyConn2 emptyConn3 [1] none
      (fun _ h => Option.noConfusion h)).1,
    (C23_write_to_non_udp_address_panics plainLib emptyConn2 emptyConn3 [1] none
      (fun _ h => Option.noConfusion h)).2.1⟩

end Shadow
